import Mathlib

/-!
# treadonme: the framed binary message codec and the session

A shallow embedding of `constants.go`, `messages.go` and `tread.go` of
`swedishborgie/treadonme`, and theorems about `ParseMessage`,
`EncodeMessage`, the per-variant `MarshalBinary` / `UnmarshalBinary`, the
pending-response registry, and the sequencing of `recv`, `writeWithResponse`
and `Start`.

Modelling conventions
* Go `byte` is `Fin 256` and Go `uint16` is `Fin 65536`; every conversion and
  every arithmetic operation reduces modulo the width explicitly.
* Go `int` is `Int`; `len` returns an `Int`.
* A Go function returning `error` (or `(T, error)`) is a function into
  `Go Unit` (or `Go T`): `Except.ok` is a nil error, `Fault.err e` a non-nil
  error, and `Fault.panic` a run-time panic (index or slice out of range).
* A method with a pointer receiver that mutates the receiver returns the
  updated struct.
-/

namespace Treadonme

/-! ## Machine integers -/

/-- Go `byte`. -/
abbrev Byte := Fin 256

/-- Go `uint16`. -/
abbrev Uint16 := Fin 65536

/-- The conversion `byte(n)` of an `int`: reduction modulo 256. -/
def byte (n : Int) : Byte := ⟨(n % 256).toNat, by omega⟩

/-- The conversion `byte(x)` of a `uint16`: the low eight bits. -/
def Uint16.toByte (x : Uint16) : Byte := ⟨x.val % 256, Nat.mod_lt _ (by decide)⟩

/-- The conversion `uint16(b)` of a `byte`. -/
def uint16 (b : Byte) : Uint16 := ⟨b.val % 65536, Nat.mod_lt _ (by decide)⟩

/-- The operation `x >> k` on `uint16`. -/
def Uint16.shr (x : Uint16) (k : Nat) : Uint16 := ⟨(x.val >>> k) % 65536, Nat.mod_lt _ (by decide)⟩

/-- The operation `x << k` on `uint16`: bits shifted past bit 15 are lost. -/
def Uint16.shl (x : Uint16) (k : Nat) : Uint16 := ⟨(x.val <<< k) % 65536, Nat.mod_lt _ (by decide)⟩

/-- The operation `x + y` on `uint16`: wraps modulo 65536. -/
def Uint16.add (x y : Uint16) : Uint16 := ⟨(x.val + y.val) % 65536, Nat.mod_lt _ (by decide)⟩

/-! ## Errors and panics -/

/-- The package-level error variables (`messages.go:16`, `tread.go:21-27`). -/
inductive Sentinel
  | ErrInvalidMessage
  | ErrMissingCharacteristic
  | ErrMissingDescriptor
  | ErrMissingService
  | ErrInvalidReadPayload
  | ErrAckTimeout
  deriving DecidableEq, Repr

/-- The error values the codec builds. Each constructor is one `fmt.Errorf`
call site; its arguments are the values formatted into the text (a `hex`
argument is the byte string given to `hex.EncodeToString`). `foreign` is an
error made outside the package, as a `MarshalBinary` of another implementation
of the interface may return. -/
inductive Error
  /-- Built at `messages.go:55`: "%w: expected >3 bytes, got: %d: %s". -/
  | recvTooShort (got : Int) (hex : List Byte)
  /-- Built at `messages.go:57`: "%w: expected message to start with %d, got %d: %s". -/
  | recvBadStart (want got : Byte) (hex : List Byte)
  /-- Built at `messages.go:59`: "%w: expected message to end with %d, got %d: %s". -/
  | recvBadEnd (want got : Byte) (hex : List Byte)
  /-- Built at `messages.go:61`: "%w: expected length was %d, got %d: %s". -/
  | recvBadLength (declared : Byte) (got : Int) (hex : List Byte)
  /-- Built at `messages.go:30`: "%w: unknown message id: %d: %s". -/
  | unknownMessageId (id : Int) (hex : List Byte)
  /-- Built at `messages.go:69`: "%w: expected %d bytes for %s, got: %d". -/
  | wrongLength (expected : Int) (mt : Byte) (got : Int)
  /-- Built at `messages.go:76`: "%w: expected command to be %s but was %s". -/
  | wrongCommand (expected got : Byte)
  /-- Built at `messages.go:375`: "%w: expected ack to end with 0x4F4B, but was: 0x%s". -/
  | ackTrailer (hex : List Byte)
  /-- Built at `tread.go:313`: "%w: waiting on %s from command %s"; the command is
  given by its tag. -/
  | ackTimeout (expect : Byte) (command : Byte)
  /-- Built at `tread.go:78`: "%w: %s", with the text of the service UUID. -/
  | missingService
  /-- Built at `tread.go:85`: "%w: expected 2, got: %d". -/
  | missingCharacteristic (got : Int)
  /-- Built at `tread.go:98`: "%w: %d". -/
  | missingDescriptor (got : Int)
  /-- An error value that was not built by this package. -/
  | foreign (text : String)
  deriving DecidableEq, Repr

/-- The error variable given to the `%w` verb of the `fmt.Errorf` call. -/
def Error.Unwrap : Error → Option Sentinel
  | .recvTooShort _ _ => some .ErrInvalidMessage
  | .recvBadStart _ _ _ => some .ErrInvalidMessage
  | .recvBadEnd _ _ _ => some .ErrInvalidMessage
  | .recvBadLength _ _ _ => some .ErrInvalidMessage
  | .unknownMessageId _ _ => some .ErrInvalidMessage
  | .wrongLength _ _ _ => some .ErrInvalidMessage
  | .wrongCommand _ _ => some .ErrInvalidMessage
  | .ackTrailer _ => some .ErrInvalidReadPayload
  | .ackTimeout _ _ => some .ErrAckTimeout
  | .missingService => some .ErrMissingService
  | .missingCharacteristic _ => some .ErrMissingCharacteristic
  | .missingDescriptor _ => some .ErrMissingDescriptor
  | .foreign _ => none

/-- The test `errors.Is(err, target)` for a package-level error variable. -/
def Error.Is (err : Error) (target : Sentinel) : Bool :=
  err.Unwrap = some target

/-- What ends a call that does not return normally. -/
inductive Fault
  /-- A non-nil `error` was returned. -/
  | err (e : Error)
  /-- A run-time panic: index or slice bounds out of range. -/
  | panic
  deriving DecidableEq, Repr

/-- The result of a Go call. -/
abbrev Go (α : Type) := Except Fault α

instance {ε α : Type} [DecidableEq ε] [DecidableEq α] : DecidableEq (Except ε α)
  | .ok a, .ok b => decidable_of_iff (a = b) ⟨fun h => by rw [h], fun h => by cases h; rfl⟩
  | .error a, .error b => decidable_of_iff (a = b) ⟨fun h => by rw [h], fun h => by cases h; rfl⟩
  | .ok _, .error _ => isFalse (fun h => by cases h)
  | .error _, .ok _ => isFalse (fun h => by cases h)

/-! ## Slices -/

/-- The builtin `len`. -/
def len (data : List Byte) : Int := data.length

/-- The index expression `data[i]`; panics when `i` is out of range. -/
def idx (data : List Byte) (i : Int) : Go Byte :=
  if 0 ≤ i then
    match data[i.toNat]? with
    | some b => .ok b
    | none => .error Fault.panic
  else .error Fault.panic

/-- The slice expression `data[lo:hi]`; panics unless `0 ≤ lo ≤ hi ≤ len(data)`
(the capacity is taken to be the length). -/
def slice (data : List Byte) (lo hi : Int) : Go (List Byte) :=
  if 0 ≤ lo ∧ lo ≤ hi ∧ hi ≤ len data then
    .ok ((data.take hi.toNat).drop lo.toNat)
  else .error Fault.panic

/-! ## constants.go -/

/-- The type `MessageType byte`. -/
abbrev MessageType := Byte

def MessageTypeACK : MessageType := 0x00
def MessageTypeSetWorkoutMode : MessageType := 0x02
def MessageTypeWorkoutMode : MessageType := 0x03
def MessageTypeWorkoutTarget : MessageType := 0x04
def MessageTypeWorkoutData : MessageType := 0x06
def MessageTypeUserProfile : MessageType := 0x07
def MessageTypeProgram : MessageType := 0x08
def MessageTypeHeartRateType : MessageType := 0x09
def MessageTypeErrorCode : MessageType := 0x10
def MessageTypeSpeed : MessageType := 0x11
def MessageTypeIncline : MessageType := 0x12
def MessageTypeLevel : MessageType := 0x13
def MessageTypeRPM : MessageType := 0x14
def MessageTypeHeartRate : MessageType := 0x15
def MessageTypeTargetHeartRate : MessageType := 0x20
def MessageTypeMaxSpeed : MessageType := 0x21
def MessageTypeMaxIncline : MessageType := 0x22
def MessageTypeMaxLevel : MessageType := 0x23
def MessageTypeUserIncline : MessageType := 0x25
def MessageTypeUserLevel : MessageType := 0x27
def MessageTypeEndWorkout : MessageType := 0x32
def MessageTypeProgramGraphics : MessageType := 0x40
def MessageTypeDeviceInfo : MessageType := 0xf0
def MessageTypeCommand : MessageType := 0xf1
def MessageTypeUnknown : MessageType := 0xff

/-- The type `DeviceModel byte`. -/
abbrev DeviceModel := Byte
/-- The type `UnitsType byte`. -/
abbrev UnitsType := Byte
/-- The type `WorkoutMode byte`. -/
abbrev WorkoutMode := Byte
/-- The type `SexType byte`. -/
abbrev SexType := Byte
/-- The type `CommandType byte`. -/
abbrev CommandType := Byte
/-- The type `Speed byte`. -/
abbrev Speed := Byte
/-- The type `Weight uint16`. -/
abbrev Weight := Uint16
/-- The type `Height byte`. -/
abbrev Height := Byte
/-- The type `Program uint16`. -/
abbrev Program := Uint16

def startOfMessage : Byte := 0x5b
def endOfMessage : Byte := 0x5d

/-! ## messages.go: the checks shared by every variant -/

/-- The function `sanityCheckRecv` (`messages.go:53-65`). -/
def sanityCheckRecv (data : List Byte) : Go Unit :=
  if len data ≤ 3 then
    throw (Fault.err (Error.recvTooShort (len data) data))
  else do
    let d0 ← idx data 0
    if d0 ≠ startOfMessage then
      throw (Fault.err (Error.recvBadStart startOfMessage d0 data))
    else do
      let dl ← idx data (len data - 1)
      if dl ≠ endOfMessage then
        throw (Fault.err (Error.recvBadEnd endOfMessage dl data))
      else do
        let d1 ← idx data 1
        if d1 ≠ byte (len data - 3) then
          throw (Fault.err (Error.recvBadLength d1 (len data - 3) data))
        else
          pure ()

/-- The function `messageSanityCheck` (`messages.go:67-81`). The argument `msg`
is consulted only through `msg.ExpectedLength()` and `msg.MessageType()`, which
are passed here as `expectedLength` and `messageType`. -/
def messageSanityCheck (expectedLength : Int) (messageType : MessageType)
    (data : List Byte) : Go Unit :=
  if len data ≠ expectedLength then
    throw (Fault.err (Error.wrongLength expectedLength messageType (len data)))
  else do
    let d0 ← idx data 0
    if d0 ≠ messageType then
      throw (Fault.err (Error.wrongCommand messageType d0))
    else
      pure ()

/-! ## messages.go: the message variants -/

/-- The struct `MessageDeviceInfo` (`messages.go:83-121`). -/
structure MessageDeviceInfo where
  Model : DeviceModel
  Version : Byte
  Units : UnitsType
  MaxSpeed : Speed
  MinSpeed : Speed
  InclineMax : Byte
  UserSegment : Byte
  deriving DecidableEq, Repr

/-- The zero value `MessageDeviceInfo{}`. -/
def MessageDeviceInfo.zero : MessageDeviceInfo := ⟨0, 0, 0, 0, 0, 0, 0⟩

def MessageDeviceInfo.MessageType (_ : MessageDeviceInfo) : Treadonme.MessageType := MessageTypeDeviceInfo

def MessageDeviceInfo.ExpectedLength (_ : MessageDeviceInfo) : Int := 8

/-- Only the tag byte is written: the request form of the message. -/
def MessageDeviceInfo.MarshalBinary (di : MessageDeviceInfo) : Go (List Byte) :=
  pure [di.MessageType]

def MessageDeviceInfo.UnmarshalBinary (di : MessageDeviceInfo) (data : List Byte) : Go MessageDeviceInfo := do
  messageSanityCheck di.ExpectedLength di.MessageType data
  let d1 ← idx data 1
  let di := { di with Model := d1 }
  let d2 ← idx data 2
  let di := { di with Version := d2 }
  let d3 ← idx data 3
  let di := { di with Units := d3 }
  let d4 ← idx data 4
  let di := { di with MaxSpeed := d4 }
  let d5 ← idx data 5
  let di := { di with MinSpeed := d5 }
  let d6 ← idx data 6
  let di := { di with InclineMax := d6 }
  let d7 ← idx data 7
  let di := { di with UserSegment := d7 }
  pure di

/-- The struct `MessageWorkoutMode` (`messages.go:135-159`). -/
structure MessageWorkoutMode where
  Mode : WorkoutMode
  deriving DecidableEq, Repr

/-- The zero value `MessageWorkoutMode{}`. -/
def MessageWorkoutMode.zero : MessageWorkoutMode := ⟨0⟩

def MessageWorkoutMode.MessageType (_ : MessageWorkoutMode) : Treadonme.MessageType := MessageTypeWorkoutMode

def MessageWorkoutMode.ExpectedLength (_ : MessageWorkoutMode) : Int := 2

def MessageWorkoutMode.MarshalBinary (wm : MessageWorkoutMode) : Go (List Byte) :=
  pure [wm.MessageType, wm.Mode]

def MessageWorkoutMode.UnmarshalBinary (wm : MessageWorkoutMode) (data : List Byte) : Go MessageWorkoutMode := do
  messageSanityCheck wm.ExpectedLength wm.MessageType data
  let d1 ← idx data 1
  let wm := { wm with Mode := d1 }
  pure wm

/-- The struct `MessageSetWorkoutMode` (`messages.go:165-189`). -/
structure MessageSetWorkoutMode where
  Mode : WorkoutMode
  deriving DecidableEq, Repr

/-- The zero value `MessageSetWorkoutMode{}`. -/
def MessageSetWorkoutMode.zero : MessageSetWorkoutMode := ⟨0⟩

def MessageSetWorkoutMode.MessageType (_ : MessageSetWorkoutMode) : Treadonme.MessageType := MessageTypeSetWorkoutMode

def MessageSetWorkoutMode.ExpectedLength (_ : MessageSetWorkoutMode) : Int := 2

def MessageSetWorkoutMode.MarshalBinary (wm : MessageSetWorkoutMode) : Go (List Byte) :=
  pure [wm.MessageType, wm.Mode]

def MessageSetWorkoutMode.UnmarshalBinary (wm : MessageSetWorkoutMode) (data : List Byte) : Go MessageSetWorkoutMode := do
  messageSanityCheck wm.ExpectedLength wm.MessageType data
  let d1 ← idx data 1
  let wm := { wm with Mode := d1 }
  pure wm

/-- The struct `MessageHeartRateType` (`messages.go:195-220`). -/
structure MessageHeartRateType where
  Type1 : Byte
  Type2 : Byte
  deriving DecidableEq, Repr

/-- The zero value `MessageHeartRateType{}`. -/
def MessageHeartRateType.zero : MessageHeartRateType := ⟨0, 0⟩

def MessageHeartRateType.MessageType (_ : MessageHeartRateType) : Treadonme.MessageType := MessageTypeHeartRateType

def MessageHeartRateType.ExpectedLength (_ : MessageHeartRateType) : Int := 3

def MessageHeartRateType.MarshalBinary (hr : MessageHeartRateType) : Go (List Byte) :=
  pure [hr.MessageType, hr.Type1, hr.Type2]

def MessageHeartRateType.UnmarshalBinary (hr : MessageHeartRateType) (data : List Byte) : Go MessageHeartRateType := do
  messageSanityCheck hr.ExpectedLength hr.MessageType data
  let d1 ← idx data 1
  let hr := { hr with Type1 := d1 }
  let d2 ← idx data 2
  let hr := { hr with Type2 := d2 }
  pure hr

/-- The struct `MessageWorkoutData` (`messages.go:226-288`). -/
structure MessageWorkoutData where
  Minute : Byte
  Second : Byte
  Distance : Uint16
  Calories : Uint16
  HeartRate : Byte
  Speed : Speed
  Incline : Byte
  HRType : Byte
  IntervalTime : Byte
  RecoveryTime : Byte
  ProgramRow : Byte
  ProgramColumn : Byte
  deriving DecidableEq, Repr

/-- The zero value `MessageWorkoutData{}`. -/
def MessageWorkoutData.zero : MessageWorkoutData := ⟨0, 0, 0, 0, 0, 0, 0, 0, 0, 0, 0, 0⟩

def MessageWorkoutData.MessageType (_ : MessageWorkoutData) : Treadonme.MessageType := MessageTypeWorkoutData

def MessageWorkoutData.ExpectedLength (_ : MessageWorkoutData) : Int := 15

def MessageWorkoutData.MarshalBinary (wd : MessageWorkoutData) : Go (List Byte) :=
  pure [wd.MessageType, wd.Minute, wd.Second, (wd.Distance.shr 8).toByte, wd.Distance.toByte,
    (wd.Calories.shr 8).toByte, wd.Calories.toByte, wd.HeartRate, wd.Speed, wd.Incline,
    wd.HRType, wd.IntervalTime, wd.RecoveryTime, wd.ProgramRow, wd.ProgramColumn]

def MessageWorkoutData.UnmarshalBinary (wd : MessageWorkoutData) (data : List Byte) : Go MessageWorkoutData := do
  messageSanityCheck wd.ExpectedLength wd.MessageType data
  let d1 ← idx data 1
  let wd := { wd with Minute := d1 }
  let d2 ← idx data 2
  let wd := { wd with Second := d2 }
  let d3 ← idx data 3
  let d4 ← idx data 4
  let wd := { wd with Distance := ((uint16 d3).shl 8).add (uint16 d4) }
  let d5 ← idx data 5
  let d6 ← idx data 6
  let wd := { wd with Calories := ((uint16 d5).shl 8).add (uint16 d6) }
  let d7 ← idx data 7
  let wd := { wd with HeartRate := d7 }
  let d8 ← idx data 8
  let wd := { wd with Speed := d8 }
  let d9 ← idx data 9
  let wd := { wd with Incline := d9 }
  let d10 ← idx data 10
  let wd := { wd with HRType := d10 }
  let d11 ← idx data 11
  let wd := { wd with IntervalTime := d11 }
  let d12 ← idx data 12
  let wd := { wd with RecoveryTime := d12 }
  let d13 ← idx data 13
  let wd := { wd with ProgramRow := d13 }
  let d14 ← idx data 14
  let wd := { wd with ProgramColumn := d14 }
  pure wd

/-- The struct `MessageUserProfile` (`messages.go:308-345`). -/
structure MessageUserProfile where
  Sex : SexType
  Age : Byte
  Weight : Weight
  Height : Height
  deriving DecidableEq, Repr

/-- The zero value `MessageUserProfile{}`. -/
def MessageUserProfile.zero : MessageUserProfile := ⟨0, 0, 0, 0⟩

def MessageUserProfile.MessageType (_ : MessageUserProfile) : Treadonme.MessageType := MessageTypeUserProfile

def MessageUserProfile.ExpectedLength (_ : MessageUserProfile) : Int := 6

def MessageUserProfile.MarshalBinary (p : MessageUserProfile) : Go (List Byte) :=
  pure [p.MessageType, p.Sex, p.Age, (p.Weight.shr 8).toByte, p.Weight.toByte, p.Height]

def MessageUserProfile.UnmarshalBinary (p : MessageUserProfile) (data : List Byte) : Go MessageUserProfile := do
  messageSanityCheck p.ExpectedLength p.MessageType data
  let d1 ← idx data 1
  let p := { p with Sex := d1 }
  let d2 ← idx data 2
  let p := { p with Age := d2 }
  let d3 ← idx data 3
  let d4 ← idx data 4
  let p := { p with Weight := ((uint16 d3).shl 8).add (uint16 d4) }
  let d5 ← idx data 5
  let p := { p with Height := d5 }
  pure p

/-- The struct `MessageACK` (`messages.go:353-388`). -/
structure MessageACK where
  Acknowledged : MessageType
  deriving DecidableEq, Repr

/-- The zero value `MessageACK{}`. -/
def MessageACK.zero : MessageACK := ⟨0⟩

def MessageACK.MessageType (_ : MessageACK) : Treadonme.MessageType := MessageTypeACK

def MessageACK.ExpectedLength (_ : MessageACK) : Int := 4

def MessageACK.MarshalBinary (ack : MessageACK) : Go (List Byte) :=
  pure [ack.MessageType, ack.Acknowledged, 0x4f, 0x4b]

def MessageACK.UnmarshalBinary (ack : MessageACK) (data : List Byte) : Go MessageACK := do
  messageSanityCheck ack.ExpectedLength ack.MessageType data
  let d2 ← idx data 2
  if d2 ≠ 0x4f then
    let d3 ← idx data 3
    if d3 ≠ 0x4b then
      let tail ← slice data 2 (len data)
      throw (Fault.err (Error.ackTrailer tail))
  let d1 ← idx data 1
  pure { ack with Acknowledged := d1 }

/-- The struct `MessageWorkoutTarget` (`messages.go:394-427`). -/
structure MessageWorkoutTarget where
  Time : Byte
  Calories : Uint16
  deriving DecidableEq, Repr

/-- The zero value `MessageWorkoutTarget{}`. -/
def MessageWorkoutTarget.zero : MessageWorkoutTarget := ⟨0, 0⟩

def MessageWorkoutTarget.MessageType (_ : MessageWorkoutTarget) : Treadonme.MessageType := MessageTypeWorkoutTarget

def MessageWorkoutTarget.ExpectedLength (_ : MessageWorkoutTarget) : Int := 5

def MessageWorkoutTarget.MarshalBinary (wt : MessageWorkoutTarget) : Go (List Byte) :=
  pure [wt.MessageType, wt.Time, 0, (wt.Calories.shr 8).toByte, wt.Calories.toByte]

def MessageWorkoutTarget.UnmarshalBinary (wt : MessageWorkoutTarget) (data : List Byte) : Go MessageWorkoutTarget := do
  messageSanityCheck wt.ExpectedLength wt.MessageType data
  let d1 ← idx data 1
  let wt := { wt with Time := d1 }
  let d3 ← idx data 3
  let d4 ← idx data 4
  let wt := { wt with Calories := ((uint16 d3).shl 8).add (uint16 d4) }
  pure wt

/-- The struct `MessageMaxIncline` (`messages.go:433-457`). -/
structure MessageMaxIncline where
  MaxIncline : Byte
  deriving DecidableEq, Repr

/-- The zero value `MessageMaxIncline{}`. -/
def MessageMaxIncline.zero : MessageMaxIncline := ⟨0⟩

def MessageMaxIncline.MessageType (_ : MessageMaxIncline) : Treadonme.MessageType := MessageTypeMaxIncline

def MessageMaxIncline.ExpectedLength (_ : MessageMaxIncline) : Int := 2

def MessageMaxIncline.MarshalBinary (mi : MessageMaxIncline) : Go (List Byte) :=
  pure [mi.MessageType, mi.MaxIncline]

def MessageMaxIncline.UnmarshalBinary (mi : MessageMaxIncline) (data : List Byte) : Go MessageMaxIncline := do
  messageSanityCheck mi.ExpectedLength mi.MessageType data
  let d1 ← idx data 1
  let mi := { mi with MaxIncline := d1 }
  pure mi

/-- The struct `MessageErrorCode` (`messages.go:463-487`). -/
structure MessageErrorCode where
  Code : Byte
  deriving DecidableEq, Repr

/-- The zero value `MessageErrorCode{}`. -/
def MessageErrorCode.zero : MessageErrorCode := ⟨0⟩

def MessageErrorCode.MessageType (_ : MessageErrorCode) : Treadonme.MessageType := MessageTypeErrorCode

def MessageErrorCode.ExpectedLength (_ : MessageErrorCode) : Int := 2

def MessageErrorCode.MarshalBinary (e : MessageErrorCode) : Go (List Byte) :=
  pure [e.MessageType, e.Code]

def MessageErrorCode.UnmarshalBinary (e : MessageErrorCode) (data : List Byte) : Go MessageErrorCode := do
  messageSanityCheck e.ExpectedLength e.MessageType data
  let d1 ← idx data 1
  let e := { e with Code := d1 }
  pure e

/-- The struct `MessageSpeed` (`messages.go:493-517`). -/
structure MessageSpeed where
  Speed : Speed
  deriving DecidableEq, Repr

/-- The zero value `MessageSpeed{}`. -/
def MessageSpeed.zero : MessageSpeed := ⟨0⟩

def MessageSpeed.MessageType (_ : MessageSpeed) : Treadonme.MessageType := MessageTypeSpeed

def MessageSpeed.ExpectedLength (_ : MessageSpeed) : Int := 2

def MessageSpeed.MarshalBinary (e : MessageSpeed) : Go (List Byte) :=
  pure [e.MessageType, e.Speed]

def MessageSpeed.UnmarshalBinary (e : MessageSpeed) (data : List Byte) : Go MessageSpeed := do
  messageSanityCheck e.ExpectedLength e.MessageType data
  let d1 ← idx data 1
  let e := { e with Speed := d1 }
  pure e

/-- The struct `MessageIncline` (`messages.go:523-547`). -/
structure MessageIncline where
  Incline : Byte
  deriving DecidableEq, Repr

/-- The zero value `MessageIncline{}`. -/
def MessageIncline.zero : MessageIncline := ⟨0⟩

def MessageIncline.MessageType (_ : MessageIncline) : Treadonme.MessageType := MessageTypeIncline

def MessageIncline.ExpectedLength (_ : MessageIncline) : Int := 2

def MessageIncline.MarshalBinary (e : MessageIncline) : Go (List Byte) :=
  pure [e.MessageType, e.Incline]

def MessageIncline.UnmarshalBinary (e : MessageIncline) (data : List Byte) : Go MessageIncline := do
  messageSanityCheck e.ExpectedLength e.MessageType data
  let d1 ← idx data 1
  let e := { e with Incline := d1 }
  pure e

/-- The struct `MessageLevel` (`messages.go:553-577`). -/
structure MessageLevel where
  Level : Byte
  deriving DecidableEq, Repr

/-- The zero value `MessageLevel{}`. -/
def MessageLevel.zero : MessageLevel := ⟨0⟩

def MessageLevel.MessageType (_ : MessageLevel) : Treadonme.MessageType := MessageTypeLevel

def MessageLevel.ExpectedLength (_ : MessageLevel) : Int := 2

def MessageLevel.MarshalBinary (e : MessageLevel) : Go (List Byte) :=
  pure [e.MessageType, e.Level]

def MessageLevel.UnmarshalBinary (e : MessageLevel) (data : List Byte) : Go MessageLevel := do
  messageSanityCheck e.ExpectedLength e.MessageType data
  let d1 ← idx data 1
  let e := { e with Level := d1 }
  pure e

/-- The struct `MessageRPM` (`messages.go:583-607`). -/
structure MessageRPM where
  RPM : Byte
  deriving DecidableEq, Repr

/-- The zero value `MessageRPM{}`. -/
def MessageRPM.zero : MessageRPM := ⟨0⟩

def MessageRPM.MessageType (_ : MessageRPM) : Treadonme.MessageType := MessageTypeRPM

def MessageRPM.ExpectedLength (_ : MessageRPM) : Int := 2

def MessageRPM.MarshalBinary (e : MessageRPM) : Go (List Byte) :=
  pure [e.MessageType, e.RPM]

def MessageRPM.UnmarshalBinary (e : MessageRPM) (data : List Byte) : Go MessageRPM := do
  messageSanityCheck e.ExpectedLength e.MessageType data
  let d1 ← idx data 1
  let e := { e with RPM := d1 }
  pure e

/-- The struct `MessageHeartRate` (`messages.go:613-637`). -/
structure MessageHeartRate where
  HeartRate : Byte
  deriving DecidableEq, Repr

/-- The zero value `MessageHeartRate{}`. -/
def MessageHeartRate.zero : MessageHeartRate := ⟨0⟩

def MessageHeartRate.MessageType (_ : MessageHeartRate) : Treadonme.MessageType := MessageTypeHeartRate

def MessageHeartRate.ExpectedLength (_ : MessageHeartRate) : Int := 2

def MessageHeartRate.MarshalBinary (e : MessageHeartRate) : Go (List Byte) :=
  pure [e.MessageType, e.HeartRate]

def MessageHeartRate.UnmarshalBinary (e : MessageHeartRate) (data : List Byte) : Go MessageHeartRate := do
  messageSanityCheck e.ExpectedLength e.MessageType data
  let d1 ← idx data 1
  let e := { e with HeartRate := d1 }
  pure e

/-- The struct `MessageTargetHeartRate` (`messages.go:643-667`). -/
structure MessageTargetHeartRate where
  HeartRate : Byte
  deriving DecidableEq, Repr

/-- The zero value `MessageTargetHeartRate{}`. -/
def MessageTargetHeartRate.zero : MessageTargetHeartRate := ⟨0⟩

def MessageTargetHeartRate.MessageType (_ : MessageTargetHeartRate) : Treadonme.MessageType := MessageTypeTargetHeartRate

def MessageTargetHeartRate.ExpectedLength (_ : MessageTargetHeartRate) : Int := 2

def MessageTargetHeartRate.MarshalBinary (e : MessageTargetHeartRate) : Go (List Byte) :=
  pure [e.MessageType, e.HeartRate]

def MessageTargetHeartRate.UnmarshalBinary (e : MessageTargetHeartRate) (data : List Byte) : Go MessageTargetHeartRate := do
  messageSanityCheck e.ExpectedLength e.MessageType data
  let d1 ← idx data 1
  let e := { e with HeartRate := d1 }
  pure e

/-- The struct `MessageMaxSpeed` (`messages.go:673-697`). -/
structure MessageMaxSpeed where
  Speed : Speed
  deriving DecidableEq, Repr

/-- The zero value `MessageMaxSpeed{}`. -/
def MessageMaxSpeed.zero : MessageMaxSpeed := ⟨0⟩

def MessageMaxSpeed.MessageType (_ : MessageMaxSpeed) : Treadonme.MessageType := MessageTypeMaxSpeed

def MessageMaxSpeed.ExpectedLength (_ : MessageMaxSpeed) : Int := 2

def MessageMaxSpeed.MarshalBinary (e : MessageMaxSpeed) : Go (List Byte) :=
  pure [e.MessageType, e.Speed]

def MessageMaxSpeed.UnmarshalBinary (e : MessageMaxSpeed) (data : List Byte) : Go MessageMaxSpeed := do
  messageSanityCheck e.ExpectedLength e.MessageType data
  let d1 ← idx data 1
  let e := { e with Speed := d1 }
  pure e

/-- The struct `MessageMaxLevel` (`messages.go:703-727`). -/
structure MessageMaxLevel where
  Level : Byte
  deriving DecidableEq, Repr

/-- The zero value `MessageMaxLevel{}`. -/
def MessageMaxLevel.zero : MessageMaxLevel := ⟨0⟩

def MessageMaxLevel.MessageType (_ : MessageMaxLevel) : Treadonme.MessageType := MessageTypeMaxLevel

def MessageMaxLevel.ExpectedLength (_ : MessageMaxLevel) : Int := 2

def MessageMaxLevel.MarshalBinary (e : MessageMaxLevel) : Go (List Byte) :=
  pure [e.MessageType, e.Level]

def MessageMaxLevel.UnmarshalBinary (e : MessageMaxLevel) (data : List Byte) : Go MessageMaxLevel := do
  messageSanityCheck e.ExpectedLength e.MessageType data
  let d1 ← idx data 1
  let e := { e with Level := d1 }
  pure e

/-- The struct `MessageUserIncline` (`messages.go:733-757`). -/
structure MessageUserIncline where
  Incline : Byte
  deriving DecidableEq, Repr

/-- The zero value `MessageUserIncline{}`. -/
def MessageUserIncline.zero : MessageUserIncline := ⟨0⟩

def MessageUserIncline.MessageType (_ : MessageUserIncline) : Treadonme.MessageType := MessageTypeUserIncline

def MessageUserIncline.ExpectedLength (_ : MessageUserIncline) : Int := 2

def MessageUserIncline.MarshalBinary (e : MessageUserIncline) : Go (List Byte) :=
  pure [e.MessageType, e.Incline]

def MessageUserIncline.UnmarshalBinary (e : MessageUserIncline) (data : List Byte) : Go MessageUserIncline := do
  messageSanityCheck e.ExpectedLength e.MessageType data
  let d1 ← idx data 1
  let e := { e with Incline := d1 }
  pure e

/-- The struct `MessageUserLevel` (`messages.go:763-787`). -/
structure MessageUserLevel where
  Level : Byte
  deriving DecidableEq, Repr

/-- The zero value `MessageUserLevel{}`. -/
def MessageUserLevel.zero : MessageUserLevel := ⟨0⟩

def MessageUserLevel.MessageType (_ : MessageUserLevel) : Treadonme.MessageType := MessageTypeUserLevel

def MessageUserLevel.ExpectedLength (_ : MessageUserLevel) : Int := 2

def MessageUserLevel.MarshalBinary (e : MessageUserLevel) : Go (List Byte) :=
  pure [e.MessageType, e.Level]

def MessageUserLevel.UnmarshalBinary (e : MessageUserLevel) (data : List Byte) : Go MessageUserLevel := do
  messageSanityCheck e.ExpectedLength e.MessageType data
  let d1 ← idx data 1
  let e := { e with Level := d1 }
  pure e

/-- The struct `MessageEndWorkout` (`messages.go:793-835`). -/
structure MessageEndWorkout where
  Seconds : Uint16
  Distance : Uint16
  Calories : Uint16
  Speed : Speed
  HeartRate : Byte
  Incline : Byte
  deriving DecidableEq, Repr

/-- The zero value `MessageEndWorkout{}`. -/
def MessageEndWorkout.zero : MessageEndWorkout := ⟨0, 0, 0, 0, 0, 0⟩

def MessageEndWorkout.MessageType (_ : MessageEndWorkout) : Treadonme.MessageType := MessageTypeEndWorkout

def MessageEndWorkout.ExpectedLength (_ : MessageEndWorkout) : Int := 10

def MessageEndWorkout.MarshalBinary (e : MessageEndWorkout) : Go (List Byte) :=
  pure [e.MessageType, (e.Seconds.shr 8).toByte, e.Seconds.toByte, (e.Distance.shr 8).toByte,
    e.Distance.toByte, (e.Calories.shr 8).toByte, e.Calories.toByte, e.Speed, e.HeartRate,
    e.Incline]

def MessageEndWorkout.UnmarshalBinary (e : MessageEndWorkout) (data : List Byte) : Go MessageEndWorkout := do
  messageSanityCheck e.ExpectedLength e.MessageType data
  let d1 ← idx data 1
  let d2 ← idx data 2
  let e := { e with Seconds := ((uint16 d1).shl 8).add (uint16 d2) }
  let d3 ← idx data 3
  let d4 ← idx data 4
  let e := { e with Distance := ((uint16 d3).shl 8).add (uint16 d4) }
  let d5 ← idx data 5
  let d6 ← idx data 6
  let e := { e with Calories := ((uint16 d5).shl 8).add (uint16 d6) }
  let d7 ← idx data 7
  let e := { e with Speed := d7 }
  let d8 ← idx data 8
  let e := { e with HeartRate := d8 }
  let d9 ← idx data 9
  let e := { e with Incline := d9 }
  pure e

/-- The struct `MessageProgramGraphics` (`messages.go:843-877`). -/
structure MessageProgramGraphics where
  Graph : Fin 18 → Byte

instance : DecidableEq MessageProgramGraphics := fun a b =>
  decidable_of_iff (a.Graph = b.Graph)
    ⟨fun h => by cases a; cases b; cases h; rfl, fun h => by rw [h]⟩

/-- The zero value `MessageProgramGraphics{}`. -/
def MessageProgramGraphics.zero : MessageProgramGraphics := ⟨fun _ => 0⟩

def MessageProgramGraphics.MessageType (_ : MessageProgramGraphics) : Treadonme.MessageType := MessageTypeProgramGraphics

def MessageProgramGraphics.ExpectedLength (_ : MessageProgramGraphics) : Int := 19

def MessageProgramGraphics.MarshalBinary (e : MessageProgramGraphics) : Go (List Byte) :=
  pure [e.MessageType, e.Graph 0, e.Graph 1, e.Graph 2, e.Graph 3, e.Graph 4, e.Graph 5,
    e.Graph 6, e.Graph 7, e.Graph 8, e.Graph 9, e.Graph 10, e.Graph 11, e.Graph 12, e.Graph 13,
    e.Graph 14, e.Graph 15, e.Graph 16, e.Graph 17]

def MessageProgramGraphics.UnmarshalBinary (e : MessageProgramGraphics) (data : List Byte) : Go MessageProgramGraphics := do
  messageSanityCheck e.ExpectedLength e.MessageType data
  let d1 ← idx data 1
  let d2 ← idx data 2
  let d3 ← idx data 3
  let d4 ← idx data 4
  let d5 ← idx data 5
  let d6 ← idx data 6
  let d7 ← idx data 7
  let d8 ← idx data 8
  let d9 ← idx data 9
  let d10 ← idx data 10
  let d11 ← idx data 11
  let d12 ← idx data 12
  let d13 ← idx data 13
  let d14 ← idx data 14
  let d15 ← idx data 15
  let d16 ← idx data 16
  let d17 ← idx data 17
  let d18 ← idx data 18
  pure { e with Graph := ![d1, d2, d3, d4, d5, d6, d7, d8, d9, d10, d11, d12, d13, d14,
    d15, d16, d17, d18] }

/-- The struct `MessageCommand` (`messages.go:888-912`). -/
structure MessageCommand where
  Command : CommandType
  deriving DecidableEq, Repr

/-- The zero value `MessageCommand{}`. -/
def MessageCommand.zero : MessageCommand := ⟨0⟩

def MessageCommand.MessageType (_ : MessageCommand) : Treadonme.MessageType := MessageTypeCommand

def MessageCommand.ExpectedLength (_ : MessageCommand) : Int := 2

def MessageCommand.MarshalBinary (e : MessageCommand) : Go (List Byte) :=
  pure [e.MessageType, e.Command]

def MessageCommand.UnmarshalBinary (e : MessageCommand) (data : List Byte) : Go MessageCommand := do
  messageSanityCheck e.ExpectedLength e.MessageType data
  let d1 ← idx data 1
  let e := { e with Command := d1 }
  pure e

/-- The struct `MessageProgram` (`messages.go:918-946`). -/
structure MessageProgram where
  Program : Program
  deriving DecidableEq, Repr

/-- The zero value `MessageProgram{}`. -/
def MessageProgram.zero : MessageProgram := ⟨0⟩

def MessageProgram.MessageType (_ : MessageProgram) : Treadonme.MessageType := MessageTypeProgram

def MessageProgram.ExpectedLength (_ : MessageProgram) : Int := 3

def MessageProgram.MarshalBinary (e : MessageProgram) : Go (List Byte) :=
  pure [e.MessageType, (e.Program.shr 8).toByte, e.Program.toByte]

def MessageProgram.UnmarshalBinary (e : MessageProgram) (data : List Byte) : Go MessageProgram := do
  messageSanityCheck e.ExpectedLength e.MessageType data
  let d1 ← idx data 1
  let d2 ← idx data 2
  let e := { e with Program := ((uint16 d1).shl 8).add (uint16 d2) }
  pure e

/-! ## The interface `Message` -/

/-- A value of interface type `Message` made by this package: a pointer to one of
the twenty-four message structs. -/
inductive Message
  | DeviceInfo (m : MessageDeviceInfo)
  | WorkoutMode (m : MessageWorkoutMode)
  | SetWorkoutMode (m : MessageSetWorkoutMode)
  | HeartRateType (m : MessageHeartRateType)
  | WorkoutData (m : MessageWorkoutData)
  | UserProfile (m : MessageUserProfile)
  | ACK (m : MessageACK)
  | WorkoutTarget (m : MessageWorkoutTarget)
  | MaxIncline (m : MessageMaxIncline)
  | ErrorCode (m : MessageErrorCode)
  | Speed (m : MessageSpeed)
  | Incline (m : MessageIncline)
  | Level (m : MessageLevel)
  | RPM (m : MessageRPM)
  | HeartRate (m : MessageHeartRate)
  | TargetHeartRate (m : MessageTargetHeartRate)
  | MaxSpeed (m : MessageMaxSpeed)
  | MaxLevel (m : MessageMaxLevel)
  | UserIncline (m : MessageUserIncline)
  | UserLevel (m : MessageUserLevel)
  | EndWorkout (m : MessageEndWorkout)
  | ProgramGraphics (m : MessageProgramGraphics)
  | Command (m : MessageCommand)
  | Program (m : MessageProgram)
  deriving DecidableEq

/-- Dynamic dispatch of `msg.MessageType()`. -/
def Message.MessageType : Message → Treadonme.MessageType
  | .DeviceInfo m => m.MessageType
  | .WorkoutMode m => m.MessageType
  | .SetWorkoutMode m => m.MessageType
  | .HeartRateType m => m.MessageType
  | .WorkoutData m => m.MessageType
  | .UserProfile m => m.MessageType
  | .ACK m => m.MessageType
  | .WorkoutTarget m => m.MessageType
  | .MaxIncline m => m.MessageType
  | .ErrorCode m => m.MessageType
  | .Speed m => m.MessageType
  | .Incline m => m.MessageType
  | .Level m => m.MessageType
  | .RPM m => m.MessageType
  | .HeartRate m => m.MessageType
  | .TargetHeartRate m => m.MessageType
  | .MaxSpeed m => m.MessageType
  | .MaxLevel m => m.MessageType
  | .UserIncline m => m.MessageType
  | .UserLevel m => m.MessageType
  | .EndWorkout m => m.MessageType
  | .ProgramGraphics m => m.MessageType
  | .Command m => m.MessageType
  | .Program m => m.MessageType

/-- Dynamic dispatch of `msg.ExpectedLength()`. -/
def Message.ExpectedLength : Message → Int
  | .DeviceInfo m => m.ExpectedLength
  | .WorkoutMode m => m.ExpectedLength
  | .SetWorkoutMode m => m.ExpectedLength
  | .HeartRateType m => m.ExpectedLength
  | .WorkoutData m => m.ExpectedLength
  | .UserProfile m => m.ExpectedLength
  | .ACK m => m.ExpectedLength
  | .WorkoutTarget m => m.ExpectedLength
  | .MaxIncline m => m.ExpectedLength
  | .ErrorCode m => m.ExpectedLength
  | .Speed m => m.ExpectedLength
  | .Incline m => m.ExpectedLength
  | .Level m => m.ExpectedLength
  | .RPM m => m.ExpectedLength
  | .HeartRate m => m.ExpectedLength
  | .TargetHeartRate m => m.ExpectedLength
  | .MaxSpeed m => m.ExpectedLength
  | .MaxLevel m => m.ExpectedLength
  | .UserIncline m => m.ExpectedLength
  | .UserLevel m => m.ExpectedLength
  | .EndWorkout m => m.ExpectedLength
  | .ProgramGraphics m => m.ExpectedLength
  | .Command m => m.ExpectedLength
  | .Program m => m.ExpectedLength

/-- Dynamic dispatch of `msg.MarshalBinary()`. -/
def Message.MarshalBinary : Message → Go (List Byte)
  | .DeviceInfo m => m.MarshalBinary
  | .WorkoutMode m => m.MarshalBinary
  | .SetWorkoutMode m => m.MarshalBinary
  | .HeartRateType m => m.MarshalBinary
  | .WorkoutData m => m.MarshalBinary
  | .UserProfile m => m.MarshalBinary
  | .ACK m => m.MarshalBinary
  | .WorkoutTarget m => m.MarshalBinary
  | .MaxIncline m => m.MarshalBinary
  | .ErrorCode m => m.MarshalBinary
  | .Speed m => m.MarshalBinary
  | .Incline m => m.MarshalBinary
  | .Level m => m.MarshalBinary
  | .RPM m => m.MarshalBinary
  | .HeartRate m => m.MarshalBinary
  | .TargetHeartRate m => m.MarshalBinary
  | .MaxSpeed m => m.MarshalBinary
  | .MaxLevel m => m.MarshalBinary
  | .UserIncline m => m.MarshalBinary
  | .UserLevel m => m.MarshalBinary
  | .EndWorkout m => m.MarshalBinary
  | .ProgramGraphics m => m.MarshalBinary
  | .Command m => m.MarshalBinary
  | .Program m => m.MarshalBinary

/-- Dynamic dispatch of `msg.UnmarshalBinary(data)`; the result is the message
the receiver points to after the call. -/
def Message.UnmarshalBinary : Message → List Byte → Go Message
  | .DeviceInfo m, data => do pure (.DeviceInfo (← m.UnmarshalBinary data))
  | .WorkoutMode m, data => do pure (.WorkoutMode (← m.UnmarshalBinary data))
  | .SetWorkoutMode m, data => do pure (.SetWorkoutMode (← m.UnmarshalBinary data))
  | .HeartRateType m, data => do pure (.HeartRateType (← m.UnmarshalBinary data))
  | .WorkoutData m, data => do pure (.WorkoutData (← m.UnmarshalBinary data))
  | .UserProfile m, data => do pure (.UserProfile (← m.UnmarshalBinary data))
  | .ACK m, data => do pure (.ACK (← m.UnmarshalBinary data))
  | .WorkoutTarget m, data => do pure (.WorkoutTarget (← m.UnmarshalBinary data))
  | .MaxIncline m, data => do pure (.MaxIncline (← m.UnmarshalBinary data))
  | .ErrorCode m, data => do pure (.ErrorCode (← m.UnmarshalBinary data))
  | .Speed m, data => do pure (.Speed (← m.UnmarshalBinary data))
  | .Incline m, data => do pure (.Incline (← m.UnmarshalBinary data))
  | .Level m, data => do pure (.Level (← m.UnmarshalBinary data))
  | .RPM m, data => do pure (.RPM (← m.UnmarshalBinary data))
  | .HeartRate m, data => do pure (.HeartRate (← m.UnmarshalBinary data))
  | .TargetHeartRate m, data => do pure (.TargetHeartRate (← m.UnmarshalBinary data))
  | .MaxSpeed m, data => do pure (.MaxSpeed (← m.UnmarshalBinary data))
  | .MaxLevel m, data => do pure (.MaxLevel (← m.UnmarshalBinary data))
  | .UserIncline m, data => do pure (.UserIncline (← m.UnmarshalBinary data))
  | .UserLevel m, data => do pure (.UserLevel (← m.UnmarshalBinary data))
  | .EndWorkout m, data => do pure (.EndWorkout (← m.UnmarshalBinary data))
  | .ProgramGraphics m, data => do pure (.ProgramGraphics (← m.UnmarshalBinary data))
  | .Command m, data => do pure (.Command (← m.UnmarshalBinary data))
  | .Program m, data => do pure (.Program (← m.UnmarshalBinary data))

/-- The method `MessageType.Create` (`constants.go:33-88`): the cases of the
switch in source order; `none` is the nil interface value. -/
def MessageType.Create (mt : MessageType) : Option Message :=
  if mt = MessageTypeACK then some (.ACK MessageACK.zero)
  else if mt = MessageTypeSetWorkoutMode then some (.SetWorkoutMode MessageSetWorkoutMode.zero)
  else if mt = MessageTypeWorkoutMode then some (.WorkoutMode MessageWorkoutMode.zero)
  else if mt = MessageTypeWorkoutTarget then some (.WorkoutTarget MessageWorkoutTarget.zero)
  else if mt = MessageTypeWorkoutData then some (.WorkoutData MessageWorkoutData.zero)
  else if mt = MessageTypeUserProfile then some (.UserProfile MessageUserProfile.zero)
  else if mt = MessageTypeProgram then some (.Program MessageProgram.zero)
  else if mt = MessageTypeHeartRateType then some (.HeartRateType MessageHeartRateType.zero)
  else if mt = MessageTypeErrorCode then some (.ErrorCode MessageErrorCode.zero)
  else if mt = MessageTypeSpeed then some (.Speed MessageSpeed.zero)
  else if mt = MessageTypeIncline then some (.Incline MessageIncline.zero)
  else if mt = MessageTypeLevel then some (.Level MessageLevel.zero)
  else if mt = MessageTypeRPM then some (.RPM MessageRPM.zero)
  else if mt = MessageTypeHeartRate then some (.HeartRate MessageHeartRate.zero)
  else if mt = MessageTypeTargetHeartRate then some (.TargetHeartRate MessageTargetHeartRate.zero)
  else if mt = MessageTypeMaxSpeed then some (.MaxSpeed MessageMaxSpeed.zero)
  else if mt = MessageTypeMaxLevel then some (.MaxLevel MessageMaxLevel.zero)
  else if mt = MessageTypeUserIncline then some (.UserLevel MessageUserLevel.zero)
  else if mt = MessageTypeUserLevel then some (.UserLevel MessageUserLevel.zero)
  else if mt = MessageTypeEndWorkout then some (.EndWorkout MessageEndWorkout.zero)
  else if mt = MessageTypeProgramGraphics then some (.ProgramGraphics MessageProgramGraphics.zero)
  else if mt = MessageTypeMaxIncline then some (.MaxIncline MessageMaxIncline.zero)
  else if mt = MessageTypeDeviceInfo then some (.DeviceInfo MessageDeviceInfo.zero)
  else if mt = MessageTypeCommand then some (.Command MessageCommand.zero)
  else if mt = MessageTypeUnknown then none
  else none

/-- The function `ParseMessage` (`messages.go:18-36`). -/
def ParseMessage (data : List Byte) : Go Message := do
  sanityCheckRecv data
  let data ← slice data 2 (len data - 1)
  let msgType ← idx data 0
  match MessageType.Create msgType with
  | none => throw (Fault.err (Error.unknownMessageId msgType.val data))
  | some msg => msg.UnmarshalBinary data

/-- The method set of the Go interface `Message` (`messages.go:8-14`) that the
codec calls; `String` only formats text and is left out. Any type with these
methods can be handed to `EncodeMessage`. -/
class MessageInterface (μ : Type) where
  MessageType : μ → Treadonme.MessageType
  MarshalBinary : μ → Go (List Byte)
  UnmarshalBinary : μ → List Byte → Go μ
  ExpectedLength : μ → Int

instance : MessageInterface Message where
  MessageType := Message.MessageType
  MarshalBinary := Message.MarshalBinary
  UnmarshalBinary := Message.UnmarshalBinary
  ExpectedLength := Message.ExpectedLength

/-- The function `EncodeMessage` (`messages.go:38-51`). -/
def EncodeMessage {μ : Type} [MessageInterface μ] (msg : μ) : Go (List Byte) := do
  let msgBytes ← MessageInterface.MarshalBinary msg
  let encoded : List Byte := []
  let encoded := encoded ++ [startOfMessage, byte (len msgBytes)]
  let encoded := encoded ++ msgBytes
  let encoded := encoded ++ [endOfMessage]
  pure encoded

/-! ## The words of the specification

The definitions of this section state what the specification says; the
theorems compare them with the code above. -/

/-- The table of section 4.2 of the specification: each tag of the closed set
with the expected payload length (tag byte included) it declares. -/
def specTable : List (Byte × Int) :=
  [(0x00, 4), (0x02, 2), (0x03, 2), (0x04, 5), (0x06, 15), (0x07, 6), (0x08, 3), (0x09, 3),
   (0x10, 2), (0x11, 2), (0x12, 2), (0x13, 2), (0x14, 2), (0x15, 2), (0x20, 2), (0x21, 2),
   (0x22, 2), (0x23, 2), (0x25, 2), (0x27, 2), (0x32, 10), (0x40, 19), (0xF0, 8), (0xF1, 2)]

/-- The expected length the specification's table declares for a tag; `none`
for a tag outside the closed set. -/
def specExpectedLength (t : Byte) : Option Int := specTable.lookup t

/-- A well-framed byte string in the words of the specification: more than
three bytes, first byte 0x5B, last byte 0x5D, and second byte equal, as an
integer, to the length minus three. -/
def WellFramed (data : List Byte) : Prop :=
  3 < len data ∧ data[0]? = some 0x5B ∧ data.getLast? = some 0x5D ∧
    data[1]?.map (fun b => (b.val : Int)) = some (len data - 3)

instance (data : List Byte) : Decidable (WellFramed data) := by
  unfold WellFramed; infer_instance

/-- The closed tag set of the specification. -/
def closedTagSet : List Byte :=
  [0x00, 0x02, 0x03, 0x04, 0x06, 0x07, 0x08, 0x09, 0x10, 0x11, 0x12, 0x13, 0x14, 0x15,
   0x20, 0x21, 0x22, 0x23, 0x25, 0x27, 0x32, 0x40, 0xF0, 0xF1]

/-- An implementation of the interface from outside the package, as any caller
of `EncodeMessage` may pass: `MarshalBinary` returns the bytes the value holds.
It is used only as an input on which `EncodeMessage` is evaluated. -/
structure RawMessage where
  payload : List Byte

instance : MessageInterface RawMessage where
  MessageType _ := MessageTypeUnknown
  MarshalBinary m := pure m.payload
  UnmarshalBinary _ data := pure ⟨data⟩
  ExpectedLength m := len m.payload

/-! ## constants.go: the names of the enumerations -/

/-- Go `string`. -/
abbrev GoString := String

def DeviceModelF80 : DeviceModel := 146

/-- The method `DeviceModel.String` (`constants.go:153-160`). -/
def DeviceModel.String (dm : DeviceModel) : GoString :=
  if dm = DeviceModelF80 then "F80"
  else "Unknown"

def UnitsTypeMetric : UnitsType := 0x0
def UnitsTypeImperial : UnitsType := 0x1

/-- The method `UnitsType.String` (`constants.go:169-178`). -/
def UnitsType.String (ut : UnitsType) : GoString :=
  if ut = UnitsTypeMetric then "Metric"
  else if ut = UnitsTypeImperial then "Imperial"
  else "Unknown"

def WorkoutModeIdle : WorkoutMode := 0x01
def WorkoutModeStart : WorkoutMode := 0x02
def WorkoutModeRunning : WorkoutMode := 0x04
def WorkoutModePause : WorkoutMode := 0x06
def WorkoutModeDone : WorkoutMode := 0x07

/-- The method `WorkoutMode.String` (`constants.go:190-205`). -/
def WorkoutMode.String (wm : WorkoutMode) : GoString :=
  if wm = WorkoutModeIdle then "Idle"
  else if wm = WorkoutModeRunning then "Running"
  else if wm = WorkoutModeStart then "Start"
  else if wm = WorkoutModePause then "Pause"
  else if wm = WorkoutModeDone then "Done"
  else "Unknown"

def SexTypeMale : SexType := 0x01
def SexTypeFemale : SexType := 0x02

/-- The method `SexType.String` (`constants.go:214-223`). -/
def SexType.String (st : SexType) : GoString :=
  if st = SexTypeMale then "Male"
  else if st = SexTypeFemale then "Female"
  else "Unknown"

def CommandTypeStart : CommandType := 0x01
def CommandTypeLevelUp : CommandType := 0x02
def CommandTypeLevelDown : CommandType := 0x03
def CommandTypeStop : CommandType := 0x06

/-- The method `CommandType.String` (`constants.go:239-252`). -/
def CommandType.String (ct : CommandType) : GoString :=
  if ct = CommandTypeStart then "Start"
  else if ct = CommandTypeLevelUp then "LevelUp"
  else if ct = CommandTypeLevelDown then "LevelDown"
  else if ct = CommandTypeStop then "Stop"
  else "Unknown"

def ProgramManual : Program := 0x1001
def ProgramHill : Program := 0x2002
def ProgramFatBurn : Program := 0x2003
def ProgramCardio : Program := 0x2004
def ProgramStrength : Program := 0x2005
def ProgramInterval : Program := 0x2006
def ProgramHR1 : Program := 0x3009
def ProgramHR2 : Program := 0x300a
def ProgramUser1 : Program := 0x3007
def ProgramUser2 : Program := 0x3008
def ProgramFusion : Program := 0x600c

/-- The method `Program.String` (`constants.go:276-303`). -/
def Program.String (p : Program) : GoString :=
  if p = ProgramManual then "Manual"
  else if p = ProgramHill then "Hill"
  else if p = ProgramFatBurn then "FatBurn"
  else if p = ProgramCardio then "Cardio"
  else if p = ProgramStrength then "Strength"
  else if p = ProgramInterval then "Interval"
  else if p = ProgramHR1 then "HR1"
  else if p = ProgramHR2 then "HR2"
  else if p = ProgramUser1 then "User1"
  else if p = ProgramUser2 then "User2"
  else if p = ProgramFusion then "Fusion"
  else "Unknown"

/-! ## tread.go: the session

The session is modelled by explicit state passing. A channel is a natural
number; the channels that were closed and the values that were sent are kept
in `Runtime`. A send on a closed channel panics, as in Go; a send on an open
channel is taken to complete, its waiter being blocked in the `select` of
`WaitForResponse`. Calls into the BLE library are given by their results.
The goroutines are run one after the other: the listener is called during the
sleeps of `writeWithResponse`, and a waiter that was sent a value returns
before the next call of the listener. -/

/-- A channel `chan interface{}`, by its identity. -/
abbrev Chan := Nat

/-- A value sent on a waiter channel: a `Message` or an `error`. -/
inductive Signal
  | message (m : Message)
  | error (e : Error)
  deriving DecidableEq

/-- The channel state of the Go runtime that the session touches. -/
structure Runtime where
  /-- The channels on which `close` was called. -/
  closed : List Chan
  /-- The sends that completed, oldest first. -/
  sent : List (Chan × Signal)
  deriving DecidableEq

/-- The statement `c <- v`: panics when `c` is closed. -/
def Runtime.send (rt : Runtime) (c : Chan) (v : Signal) : Go Runtime :=
  if c ∈ rt.closed then .error Fault.panic
  else .ok { rt with sent := rt.sent ++ [(c, v)] }

/-- The call `close(c)`: panics when `c` is closed already. -/
def Runtime.close (rt : Runtime) (c : Chan) : Go Runtime :=
  if c ∈ rt.closed then .error Fault.panic
  else .ok { rt with closed := c :: rt.closed }

/-- A loop `for _, c := range chans { c <- v }`. -/
def Runtime.sendEach : Runtime → List Chan → Signal → Go Runtime
  | rt, [], _ => .ok rt
  | rt, c :: chans, v =>
    match rt.send c v with
    | .ok rt1 => Runtime.sendEach rt1 chans v
    | .error f => .error f

/-- The map `map[MessageType][]chan interface{}`: its entries, in the order in
which a `range` over the map visits them (an order Go leaves unspecified). -/
abbrev WaitMap := List (MessageType × List Chan)

/-- The index expression `m[k]`; a key that is absent gives the nil slice. -/
def WaitMap.get : WaitMap → MessageType → List Chan
  | [], _ => []
  | (k1, v1) :: rest, k => if k1 = k then v1 else WaitMap.get rest k

/-- The assignment `m[k] = v`. -/
def WaitMap.set : WaitMap → MessageType → List Chan → WaitMap
  | [], k, v => [(k, v)]
  | (k1, v1) :: rest, k, v =>
    if k1 = k then (k, v) :: rest else (k1, v1) :: WaitMap.set rest k v

/-- A handle of the BLE library (`ble.Client`, `ble.Device`,
`*ble.Characteristic`); nothing of it is inspected. -/
inductive Handle
  | mk
  deriving DecidableEq

/-- The struct `Treadmill` (`tread.go:31-43`), without the address, the two
mutexes and the listeners. -/
structure Treadmill where
  client : Option Handle
  bleDevice : Option Handle
  notifyChr : Option Handle
  writeChr : Option Handle
  waitMap : WaitMap
  deriving DecidableEq

/-- The method `Treadmill.Close` (`tread.go:110-134`); `clearSubscriptions`,
`cancelConnection` and `stop` are the results of the three calls into the
BLE library, given by the text of the error or `none` for nil. -/
def Treadmill.Close (t : Treadmill) (clearSubscriptions cancelConnection stop : Option GoString) :
    Treadmill × Option Error :=
  let step1 : (Treadmill × Option Error) :=
    match t.client with
    | some _ =>
      match clearSubscriptions with
      | some err =>
        (t, some (Error.foreign ("failed to clear treadmill client subscriptions: " ++ err)))
      | none =>
        match cancelConnection with
        | some err => (t, some (Error.foreign err))
        | none => ({ t with client := none, notifyChr := none, writeChr := none }, none)
    | none => (t, none)
  match step1 with
  | (t1, some err) => (t1, some err)
  | (t1, none) =>
    match t1.bleDevice with
    | some _ =>
      match stop with
      | some err => (t1, some (Error.foreign err))
      | none => ({ t1 with bleDevice := none }, none)
    | none => (t1, none)

/-- The first part of `Treadmill.WaitForResponse` (`tread.go:239-245`): the
channel `waitChan` made by `make(chan interface{})` is appended to the bucket
of `msgType`. -/
def Treadmill.WaitForResponse_register (t : Treadmill) (waitChan : Chan)
    (msgType : MessageType) : Treadmill :=
  { t with waitMap := t.waitMap.set msgType (t.waitMap.get msgType ++ [waitChan]) }

/-- The loop of the error branch of `waitForResponseListener`
(`tread.go:269-273`): every channel of every entry of the map is sent `v`. -/
def Runtime.sendAll : Runtime → WaitMap → Signal → Go Runtime
  | rt, [], _ => .ok rt
  | rt, (_, chans) :: rest, v =>
    match rt.sendEach chans v with
    | .ok rt1 => Runtime.sendAll rt1 rest v
    | .error f => .error f

/-- The method `Treadmill.waitForResponseListener` (`tread.go:263-283`), run
under `waitMutex`; a nil `msg` or `err` is `none`. -/
def Treadmill.waitForResponseListener (t : Treadmill) (rt : Runtime)
    (msg : Option Message) (err : Option Error) : Go (Treadmill × Runtime) :=
  match err with
  | some err => do
    let rt ← rt.sendAll t.waitMap (Signal.error err)
    pure ({ t with waitMap := [] }, rt)
  | none =>
    match msg with
    | none => .error Fault.panic
    | some msg => do
      let rt ← rt.sendEach (t.waitMap.get msg.MessageType) (Signal.message msg)
      pure ({ t with waitMap := t.waitMap.set msg.MessageType [] }, rt)

/-- The builtin `make(chan interface{})`: the channel it returns is none of the
channels that were closed, sent on or registered so far. -/
def makeChan (t : Treadmill) (rt : Runtime) : Chan :=
  (rt.closed ++ rt.sent.map Prod.fst ++ t.waitMap.flatMap Prod.snd).foldr max 0 + 1

/-- What a receive `<-c` takes: the first value that was sent on `c`; `none` when
nothing was sent on it and the receive blocks. -/
def Runtime.received (rt : Runtime) (c : Chan) : Option Signal :=
  (rt.sent.find? (fun p => p.1 = c)).map Prod.snd

/-- The case of the `select` of `WaitForResponse` that is taken. -/
inductive SelectCase
  /-- The case `msg := <-waitChan`, with the value received. -/
  | received (v : Signal)
  /-- The case `<-ctx.Done()`, with the value of `ctx.Err()`. -/
  | done (ctxErr : Error)
  deriving DecidableEq

/-- The second part of `Treadmill.WaitForResponse` (`tread.go:247-260`) and the
deferred `close(waitChan)` of line 242: the pair that is returned for the case
of the `select` that is taken. -/
def WaitForResponse_select (rt : Runtime) (waitChan : Chan) (sel : SelectCase) :
    Go (Runtime × (Option Message × Option Error)) := do
  let result : Option Message × Option Error :=
    match sel with
    | .received (.message v) => (some v, none)
    | .received (.error v) => (none, some v)
    | .done ctxErr => (none, some ctxErr)
  let rt ← rt.close waitChan
  pure (rt, result)

/-- What happens while a call of `WaitForResponse` is blocked in its `select`:
calls of the listener, and in the end the cancellation of the context. -/
inductive WhileBlocked
  /-- The listener is called with `(msg, err)`. When that call sends on the
  channel of the waiter the case `msg := <-waitChan` is taken; otherwise the
  waiter stays blocked and `next` follows. -/
  | listener (msg : Option Message) (err : Option Error) (next : WhileBlocked)
  /-- The context is cancelled: the case `<-ctx.Done()`, with the value of
  `ctx.Err()`. -/
  | done (ctxErr : Error)
  deriving DecidableEq

/-- The `select` of `Treadmill.WaitForResponse` (`tread.go:247-257`) of a waiter
that is registered, with what happens while it is blocked. -/
def Treadmill.WaitForResponse_blocked (t : Treadmill) (rt : Runtime) (waitChan : Chan) :
    WhileBlocked → Go ((Treadmill × Runtime) × (Option Message × Option Error))
  | .done ctxErr => do
    let (rt, result) ← WaitForResponse_select rt waitChan (.done ctxErr)
    pure ((t, rt), result)
  | .listener msg err next => do
    let (t, rt) ← t.waitForResponseListener rt msg err
    match rt.received waitChan with
    | some v => do
      let (rt, result) ← WaitForResponse_select rt waitChan (.received v)
      pure ((t, rt), result)
    | none => Treadmill.WaitForResponse_blocked t rt waitChan next

/-- The method `Treadmill.WaitForResponse` (`tread.go:238-261`) from its call to
its return: registration of the channel `waitChan` that `make` returned, the
`select`, and the deferred `close(waitChan)`. The result is the state at the
return and the pair returned. -/
def Treadmill.WaitForResponse (t : Treadmill) (rt : Runtime) (waitChan : Chan)
    (msgType : MessageType) (events : WhileBlocked) :
    Go ((Treadmill × Runtime) × (Option Message × Option Error)) :=
  (t.WaitForResponse_register waitChan msgType).WaitForResponse_blocked rt waitChan events

/-- The method `Treadmill.write` (`tread.go:316-332`); `writeCharacteristic` is
the result of the call `t.client.WriteCharacteristic` for the bytes it is
given. The result is the frame that was handed to the transport. -/
def Treadmill.write (t : Treadmill) (writeCharacteristic : List Byte → Option Error)
    (msg : Message) : Go (List Byte) := do
  let data ← EncodeMessage msg
  match t.client with
  | none => throw Fault.panic
  | some _ =>
    match writeCharacteristic data with
    | some err => throw (Fault.err err)
    | none => pure data

/-- The method `Treadmill.ackWorkoutMode` (`tread.go:393-401`): the message that
the goroutine it starts gives to `t.write`. -/
def ackWorkoutMode (msg : MessageWorkoutMode) : Message := Message.WorkoutMode msg

/-- The method `Treadmill.ackCommand` (`tread.go:403-411`): the message that the
goroutine it starts gives to `t.write`. -/
def ackCommand (msg : MessageType) : Message := Message.ACK ⟨msg⟩

/-- What a call of `recv` does. -/
structure RecvEffects where
  /-- The messages given to `t.write` by the goroutines that were started. -/
  replies : List Message
  /-- The arguments `(msg, err)` every listener is called with. -/
  listeners : Option Message × Option Error
  deriving DecidableEq

/-- The method `Treadmill.recv` (`tread.go:334-391`). -/
def recv (data : List Byte) : Go RecvEffects :=
  match ParseMessage data with
  | .error (.err err) => pure ⟨[], (none, some err)⟩
  | .error .panic => throw Fault.panic
  | .ok msg => do
    let mt := msg.MessageType
    let replies : List Message ←
      if mt = MessageTypeACK then pure []
      else if mt = MessageTypeSetWorkoutMode then pure []
      else if mt = MessageTypeDeviceInfo then pure []
      else if mt = MessageTypeWorkoutMode then
        match msg with
        | .WorkoutMode wm => pure [ackWorkoutMode wm]
        | _ => throw Fault.panic
      else if mt = MessageTypeWorkoutData then pure [ackCommand msg.MessageType]
      else if mt = MessageTypeHeartRateType then pure [ackCommand msg.MessageType]
      else if mt = MessageTypeErrorCode then pure [ackCommand msg.MessageType]
      else if mt = MessageTypeSpeed then pure [ackCommand msg.MessageType]
      else if mt = MessageTypeIncline then pure [ackCommand msg.MessageType]
      else if mt = MessageTypeLevel then pure [ackCommand msg.MessageType]
      else if mt = MessageTypeRPM then pure [ackCommand msg.MessageType]
      else if mt = MessageTypeHeartRate then pure [ackCommand msg.MessageType]
      else if mt = MessageTypeTargetHeartRate then pure [ackCommand msg.MessageType]
      else if mt = MessageTypeMaxSpeed then pure [ackCommand msg.MessageType]
      else if mt = MessageTypeMaxIncline then pure [ackCommand msg.MessageType]
      else if mt = MessageTypeMaxLevel then pure [ackCommand msg.MessageType]
      else if mt = MessageTypeEndWorkout then pure [ackCommand msg.MessageType]
      else if mt = MessageTypeProgramGraphics then pure [ackCommand msg.MessageType]
      else pure []
    pure ⟨replies, (some msg, none)⟩

/-- What surrounds one call of `writeWithResponse`. -/
structure WriteEnv where
  /-- The result of the call `t.client.WriteCharacteristic` that `t.write` makes
  in round `idx`, for the bytes it is given. -/
  writeCharacteristic : Nat → List Byte → Option Error
  /-- The calls `(msg, err)` of the listener `waitForResponseListener` that are
  made during the sleep of round `idx`, in order: by `recv` for a frame of the
  device, or by the goroutine of an auto-reply whose write failed. -/
  listener : Nat → List (Option Message × Option Error)

/-- The state that a call of `writeWithResponse` works on. -/
structure WriteState where
  t : Treadmill
  rt : Runtime
  /-- The variable `response`. -/
  response : Option Message
  /-- The variable `responseError`. -/
  responseError : Option Error
  /-- Whether the goroutine of `tread.go:296-298` has returned from
  `WaitForResponse`. -/
  returned : Bool
  deriving DecidableEq

/-- One call `(msg, err)` of the listener during a sleep of `writeWithResponse`.
When the goroutine of `tread.go:296-298` is still blocked and the call sent on
its channel, the goroutine returns from `WaitForResponse` by the case
`msg := <-waitChan` and assigns `response` and `responseError`. -/
def writeWithResponse_sleepStep (waitChan : Chan) (s : WriteState)
    (call : Option Message × Option Error) : Go WriteState := do
  let (t, rt) ← s.t.waitForResponseListener s.rt call.1 call.2
  if s.returned then
    pure { s with t := t, rt := rt }
  else
    match rt.received waitChan with
    | none => pure { s with t := t, rt := rt }
    | some v => do
      let (rt, result) ← WaitForResponse_select rt waitChan (.received v)
      pure ⟨t, rt, result.1, result.2, true⟩

/-- The sleep of one round (`tread.go:306`): the calls of the listener that are
made during it, one after the other. -/
def writeWithResponse_sleep (waitChan : Chan) :
    WriteState → List (Option Message × Option Error) → Go WriteState
  | s, [] => pure s
  | s, call :: calls => do
    let s ← writeWithResponse_sleepStep waitChan s call
    writeWithResponse_sleep waitChan s calls

/-- The deferred `cancel()` (`tread.go:294`): a goroutine that is still blocked in
`WaitForResponse` returns by the case `<-ctx.Done()`. What it assigns then is
not read any more. -/
def writeWithResponse_cancel (waitChan : Chan) (s : WriteState) : Go WriteState :=
  if s.returned then pure s
  else do
    let (rt, _) ← WaitForResponse_select s.rt waitChan (.done (Error.foreign "context canceled"))
    pure { s with rt := rt, returned := true }

/-- What a call of `writeWithResponse` leaves. -/
structure WriteOutcome where
  t : Treadmill
  rt : Runtime
  /-- The number of calls `t.write(msg)` that were made. -/
  writes : Nat
  /-- The frames that `t.write` handed to the transport and that were written,
  oldest first. -/
  wire : List (List Byte)
  /-- The pair that is returned, or the panic. -/
  result : Go (Option Message × Option Error)
  deriving DecidableEq

/-- A `return` of `writeWithResponse` with the deferred `cancel()`. -/
def writeWithResponse_return (waitChan : Chan) (s : WriteState) (writes : Nat)
    (wire : List (List Byte)) (result : Option Message × Option Error) : WriteOutcome :=
  match writeWithResponse_cancel waitChan s with
  | .ok s1 => ⟨s1.t, s1.rt, writes, wire, .ok result⟩
  | .error f => ⟨s.t, s.rt, writes, wire, .error f⟩

/-- The loop of `writeWithResponse` (`tread.go:300-311`) from index `idx` on,
with `fuel = 10 - idx` rounds left, and the return after it. -/
def writeWithResponse_loop (env : WriteEnv) (msg : Message) (expect : MessageType)
    (waitChan : Chan) : Nat → Nat → WriteState → List (List Byte) → WriteOutcome
  | 0, idx, s, wire =>
    writeWithResponse_return waitChan s idx wire
      (none, some (Error.ackTimeout expect msg.MessageType))
  | fuel + 1, idx, s, wire =>
    match s.t.write (env.writeCharacteristic idx) msg with
    | .error Fault.panic => ⟨s.t, s.rt, idx + 1, wire, .error Fault.panic⟩
    | .error (Fault.err err) => writeWithResponse_return waitChan s (idx + 1) wire (none, some err)
    | .ok data =>
      match writeWithResponse_sleep waitChan s (env.listener idx) with
      | .error f => ⟨s.t, s.rt, idx + 1, wire ++ [data], .error f⟩
      | .ok s1 =>
        if s1.response ≠ none ∨ s1.responseError ≠ none then
          writeWithResponse_return waitChan s1 (idx + 1) (wire ++ [data])
            (s1.response, s1.responseError)
        else writeWithResponse_loop env msg expect waitChan fuel (idx + 1) s1 (wire ++ [data])

/-- The method `Treadmill.writeWithResponse` (`tread.go:289-314`). The goroutine
of lines 296-298 is taken to have registered its channel before the first
write; the listener is called during the sleeps. -/
def Treadmill.writeWithResponse (t : Treadmill) (rt : Runtime) (env : WriteEnv)
    (msg : Message) (expect : MessageType) : WriteOutcome :=
  let waitChan := makeChan t rt
  writeWithResponse_loop env msg expect waitChan 10 0
    ⟨t.WaitForResponse_register waitChan expect, rt, none, none, false⟩ []

/-- What holds of the state of `writeWithResponse` between two calls of the
listener, `c` being the channel of its waiter and `expect` the tag it waits
for: the variables are set exactly when the goroutine has returned; the channel
of a goroutine that has not returned is open; the channel is registered under
no other tag; and a message that was sent on it has the tag. -/
def WriteState.Inv (c : Chan) (expect : MessageType) (s : WriteState) : Prop :=
  (s.returned = true ↔ (s.response ≠ none ∨ s.responseError ≠ none)) ∧
  (s.returned = false → c ∉ s.rt.closed) ∧
  (∀ kv ∈ s.t.waitMap, c ∈ kv.2 → kv.1 = expect) ∧
  (∀ m, (c, Signal.message m) ∈ s.rt.sent → m.MessageType = expect) ∧
  (∀ m, s.response = some m → m.MessageType = expect)

/-- The results of the calls into the BLE library that one call of `Connect`
makes: nil is `none` or `.ok`, an error is given by its text, and a slice
that is returned is given by its length. -/
structure ConnectCalls where
  /-- The error of `linux.NewDevice()`. -/
  newDevice : Option GoString
  /-- The error of `ble.Connect(ctx, filter)`. -/
  connect : Option GoString
  /-- The result of `dev.DiscoverServices`: `len(svcs)` or the error. -/
  discoverServices : Except GoString Nat
  /-- The result of `dev.DiscoverCharacteristics`: `len(chrs)` or the error. -/
  discoverCharacteristics : Except GoString Nat
  /-- The result of `dev.DiscoverDescriptors`: `len(desc)` or the error. -/
  discoverDescriptors : Except GoString Nat
  /-- The error of `dev.Subscribe`. -/
  subscribe : Option GoString

/-- The method `Treadmill.Connect` (`tread.go:56-108`). An error of the library
that is wrapped with `%w` is the error with the text put before it. Both
branches of the test `chrs[0].UUID.Equal(writeUUID)` store the two handles,
which are not told apart here. -/
def Treadmill.Connect (t : Treadmill) (c : ConnectCalls) : Treadmill × Option Error :=
  let step1 : Treadmill × Option Error :=
    match t.bleDevice with
    | none =>
      match c.newDevice with
      | some err =>
        (t, some (Error.foreign ("problem creating new linux ble device handle: " ++ err)))
      | none => ({ t with bleDevice := some Handle.mk }, none)
    | some _ => (t, none)
  match step1 with
  | (t1, some err) => (t1, some err)
  | (t1, none) =>
    match c.connect with
    | some err => (t1, some (Error.foreign ("problem connecting to treadmill: " ++ err)))
    | none =>
      match c.discoverServices with
      | .error err =>
        (t1, some (Error.foreign ("failed to discover services on treadmill: " ++ err)))
      | .ok svcs =>
        if svcs = 0 then (t1, some Error.missingService)
        else
          match c.discoverCharacteristics with
          | .error err =>
            (t1, some (Error.foreign
              ("failed to discover characteristics on treadmill: " ++ err)))
          | .ok chrs =>
            if chrs ≠ 2 then (t1, some (Error.missingCharacteristic chrs))
            else
              let t2 := { t1 with writeChr := some Handle.mk, notifyChr := some Handle.mk }
              match c.discoverDescriptors with
              | .error err => (t2, some (Error.foreign err))
              | .ok desc =>
                if desc = 0 then (t2, some (Error.missingDescriptor desc))
                else
                  match c.subscribe with
                  | some err =>
                    (t2, some (Error.foreign
                      ("failed to subscribe to notify characteristic: " ++ err)))
                  | none => ({ t2 with client := some Handle.mk }, none)

/-- The method `Treadmill.GetDeviceInfo` (`tread.go:136-143`). The type assertion
`msg.(*MessageDeviceInfo)` panics when the response is of another variant or is
the nil interface. -/
def Treadmill.GetDeviceInfo (t : Treadmill) (rt : Runtime) (env : WriteEnv) :
    (Treadmill × Runtime) × Go (Option MessageDeviceInfo × Option Error) :=
  let o := t.writeWithResponse rt env (Message.DeviceInfo MessageDeviceInfo.zero)
    MessageTypeDeviceInfo
  ((o.t, o.rt),
    match o.result with
    | .error f => .error f
    | .ok (_, some err) => .ok (none, some err)
    | .ok (some (.DeviceInfo di), none) => .ok (some di, none)
    | .ok (_, none) => .error Fault.panic)

/-- What surrounds a call of `Start`: `call k` is what surrounds its `k`-th call
of `writeWithResponse` (the call inside `GetDeviceInfo` is number 4), the next
three are the results of the calls that `Close` makes, and `connect idx` holds
the results of the calls that the attempt `idx` of `Connect` makes. -/
structure StartEnv where
  call : Nat → WriteEnv
  clearSubscriptions : Option GoString
  cancelConnection : Option GoString
  stop : Option GoString
  connect : Nat → ConnectCalls

/-- One call that `Start` makes, with what the call returned. -/
inductive StartEvent
  /-- The call `t.writeWithResponse(msg, expect)` and the error it returned, or
  its panic. -/
  | writeWithResponse (msg : Message) (expect : MessageType) (err : Go (Option Error))
  /-- The call `t.Close()` and the error it returned. -/
  | Close (err : Option Error)
  /-- The call `time.Sleep`, in seconds. -/
  | Sleep (seconds : Nat)
  /-- The call `t.Connect(context.Background())` and the error it returned. -/
  | Connect (err : Option Error)
  /-- The call `t.GetDeviceInfo()` and what it returned, or its panic. -/
  | GetDeviceInfo (result : Go (Option MessageDeviceInfo × Option Error))
  deriving DecidableEq

/-- What a call of `Start` leaves: the state, the calls it made in order, and
the error it returned, or the panic. -/
structure StartOutcome where
  t : Treadmill
  rt : Runtime
  trace : List StartEvent
  result : Go (Option Error)
  deriving DecidableEq

/-- The loop of `Start` (`tread.go:225-235`) from index `idx` on, with
`fuel = 5 - idx` rounds left, and the return after it. -/
def Treadmill.Start_loop (env : StartEnv) (rt : Runtime) :
    Nat → Nat → Treadmill → List StartEvent → Option Error → StartOutcome
  | 0, _, t, trace, lastErr => ⟨t, rt, trace, .ok lastErr⟩
  | fuel + 1, idx, t, trace, _ =>
    match t.Connect (env.connect idx) with
    | (t1, none) =>
      let r := t1.GetDeviceInfo rt (env.call 4)
      ⟨r.1.1, r.1.2, trace ++ [StartEvent.Connect none, StartEvent.GetDeviceInfo r.2],
        r.2.map Prod.snd⟩
    | (t1, some err) =>
      Treadmill.Start_loop env rt fuel (idx + 1) t1 (trace ++ [StartEvent.Connect (some err)])
        (some err)

/-- The method `Treadmill.Start` (`tread.go:199-236`). A call of
`writeWithResponse` that panics ends `Start` with that panic. -/
def Treadmill.Start (t : Treadmill) (rt : Runtime) (env : StartEnv) : StartOutcome :=
  let profile := Message.UserProfile ⟨SexTypeMale, 30, 155, 72⟩
  let o0 := t.writeWithResponse rt (env.call 0) profile MessageTypeACK
  let trace := [StartEvent.writeWithResponse profile MessageTypeACK (o0.result.map Prod.snd)]
  match o0.result.map Prod.snd with
  | .error f => ⟨o0.t, o0.rt, trace, .error f⟩
  | .ok (some err) => ⟨o0.t, o0.rt, trace, .ok (some err)⟩
  | .ok none =>
    let program := Message.Program ⟨ProgramManual⟩
    let o1 := o0.t.writeWithResponse o0.rt (env.call 1) program MessageTypeACK
    let trace := trace ++
      [StartEvent.writeWithResponse program MessageTypeACK (o1.result.map Prod.snd)]
    match o1.result.map Prod.snd with
    | .error f => ⟨o1.t, o1.rt, trace, .error f⟩
    | .ok (some err) => ⟨o1.t, o1.rt, trace, .ok (some err)⟩
    | .ok none =>
      let target := Message.WorkoutTarget MessageWorkoutTarget.zero
      let o2 := o1.t.writeWithResponse o1.rt (env.call 2) target MessageTypeACK
      let trace := trace ++
        [StartEvent.writeWithResponse target MessageTypeACK (o2.result.map Prod.snd)]
      match o2.result.map Prod.snd with
      | .error f => ⟨o2.t, o2.rt, trace, .error f⟩
      | .ok (some err) => ⟨o2.t, o2.rt, trace, .ok (some err)⟩
      | .ok none =>
        let mode := Message.SetWorkoutMode ⟨WorkoutModeStart⟩
        let o3 := o2.t.writeWithResponse o2.rt (env.call 3) mode MessageTypeSetWorkoutMode
        let trace := trace ++
          [StartEvent.writeWithResponse mode MessageTypeSetWorkoutMode
            (o3.result.map Prod.snd)]
        match o3.result.map Prod.snd with
        | .error f => ⟨o3.t, o3.rt, trace, .error f⟩
        | .ok (some err) => ⟨o3.t, o3.rt, trace, .ok (some err)⟩
        | .ok none =>
          match o3.t.Close env.clearSubscriptions env.cancelConnection env.stop with
          | (t1, some err) =>
            ⟨t1, o3.rt, trace ++ [StartEvent.Close (some err)], .ok (some err)⟩
          | (t1, none) =>
            Treadmill.Start_loop env o3.rt 5 0 t1
              (trace ++ [StartEvent.Close none, StartEvent.Sleep 5]) none

/-! ## Basic facts about indexing and the two checks -/

theorem len_nonneg (data : List Byte) : 0 ≤ len data := by
  unfold len; omega

theorem idx_ok_iff (data : List Byte) (i : Int) (b : Byte) :
    idx data i = .ok b ↔ 0 ≤ i ∧ data[i.toNat]? = some b := by
  unfold idx
  by_cases h : 0 ≤ i
  · cases hg : data[i.toNat]? <;> simp [h]
  · simp [h]

/-- An index below the length never panics. -/
theorem idx_of_lt (data : List Byte) (n : Nat) (h : n < data.length) :
    idx data n = .ok (data.get ⟨n, h⟩) := by
  rw [idx_ok_iff]
  simp [List.getElem?_eq_getElem h]

/-- Every byte string of more than three bytes is `a, b, t, rest…, z`. -/
theorem frame_decomp (data : List Byte) (h : 3 < len data) :
    ∃ a b t rest z, data = a :: b :: t :: (rest ++ [z]) := by
  unfold len at h
  match data, h with
  | a :: b :: t :: tail, h =>
    have hne : tail ≠ [] := by
      intro h0; subst h0; simp at h
    refine ⟨a, b, t, tail.dropLast, tail.getLast hne, ?_⟩
    rw [List.dropLast_append_getLast hne]
  | [], h => simp at h
  | [_], h => simp at h
  | [_, _], h => simp at h

theorem len_frame (a b t z : Byte) (rest : List Byte) :
    len (a :: b :: t :: (rest ++ [z])) = len (t :: rest) + 3 := by
  simp [len]; omega

theorem idx_frame_last (a b t z : Byte) (rest : List Byte) :
    idx (a :: b :: t :: (rest ++ [z])) (len (a :: b :: t :: (rest ++ [z])) - 1) = .ok z := by
  rw [idx_ok_iff]
  have h1 : (len (a :: b :: t :: (rest ++ [z])) - 1).toNat = rest.length + 3 := by
    simp [len]; omega
  constructor
  · simp [len]; omega
  · rw [h1]; simp

theorem slice_frame (a b t z : Byte) (rest : List Byte) :
    slice (a :: b :: t :: (rest ++ [z])) 2 (len (a :: b :: t :: (rest ++ [z])) - 1)
      = .ok (t :: rest) := by
  have h1 : (len (a :: b :: t :: (rest ++ [z])) - 1).toNat = rest.length + 3 := by
    simp [len]; omega
  have h2 : (2 : Int) ≤ len (a :: b :: t :: (rest ++ [z])) - 1 ∧
      len (a :: b :: t :: (rest ++ [z])) - 1 ≤ len (a :: b :: t :: (rest ++ [z])) := by
    simp [len]; omega
  unfold slice
  rw [if_pos ⟨by decide, h2.1, h2.2⟩, h1]
  simp

/-- The four tests of `sanityCheckRecv` on a byte string of more than three
bytes, in the order the source makes them. -/
theorem sanityCheckRecv_frame (a b t z : Byte) (rest : List Byte) :
    sanityCheckRecv (a :: b :: t :: (rest ++ [z])) =
      if a ≠ startOfMessage then
        .error (.err (.recvBadStart startOfMessage a (a :: b :: t :: (rest ++ [z]))))
      else if z ≠ endOfMessage then
        .error (.err (.recvBadEnd endOfMessage z (a :: b :: t :: (rest ++ [z]))))
      else if b ≠ byte (len (t :: rest)) then
        .error (.err (.recvBadLength b (len (t :: rest)) (a :: b :: t :: (rest ++ [z]))))
      else .ok () := by
  have hlen : ¬ len (a :: b :: t :: (rest ++ [z])) ≤ 3 := by
    simp [len]; omega
  have h3 : len (a :: b :: t :: (rest ++ [z])) - 3 = len (t :: rest) := by
    rw [len_frame]; omega
  unfold sanityCheckRecv
  rw [if_neg hlen, idx_frame_last, h3]
  have h0 : idx (a :: b :: t :: (rest ++ [z])) 0 = .ok a := by simp [idx]
  have h1 : idx (a :: b :: t :: (rest ++ [z])) 1 = .ok b := by simp [idx]
  rw [h0, h1]
  by_cases ha : a = startOfMessage <;> by_cases hz : z = endOfMessage <;>
    by_cases hb : b = byte (len (t :: rest)) <;>
    simp [ha, hz, hb, bind, Except.bind, pure, Except.pure, throw, throwThe, MonadExceptOf.throw]

/-- After the framing check, `ParseMessage` hands the bytes between the length
byte and the end marker to the variant that `Create` makes for the tag. -/
theorem ParseMessage_frame (a b t z : Byte) (rest : List Byte) :
    ParseMessage (a :: b :: t :: (rest ++ [z])) =
      match sanityCheckRecv (a :: b :: t :: (rest ++ [z])) with
      | .error f => .error f
      | .ok _ =>
        match MessageType.Create t with
        | none => .error (.err (.unknownMessageId t.val (t :: rest)))
        | some msg => msg.UnmarshalBinary (t :: rest) := by
  have h0 : idx (t :: rest) 0 = .ok t := by simp [idx]
  unfold ParseMessage
  cases hs : sanityCheckRecv (a :: b :: t :: (rest ++ [z])) with
  | error f => simp [bind, Except.bind]
  | ok u =>
    simp only [bind, Except.bind, slice_frame, h0]
    cases hc : MessageType.Create t <;> simp [throw, throwThe, MonadExceptOf.throw]
theorem messageSanityCheck_wrongLength (n : Int) (mt : MessageType) (data : List Byte)
    (h : len data ≠ n) :
    messageSanityCheck n mt data = .error (.err (.wrongLength n mt (len data))) := by
  simp [messageSanityCheck, h, throw, throwThe, MonadExceptOf.throw]

theorem messageSanityCheck_cons (n : Int) (mt t : Byte) (rest : List Byte)
    (h : len (t :: rest) = n) :
    messageSanityCheck n mt (t :: rest) =
      if t ≠ mt then .error (.err (.wrongCommand mt t)) else .ok () := by
  have h0 : idx (t :: rest) 0 = .ok t := by simp [idx]
  have hn : ¬ len (t :: rest) ≠ n := by simp [h]
  unfold messageSanityCheck
  rw [h0, if_neg hn]
  by_cases ht : t = mt <;>
    simp [ht, bind, Except.bind, pure, Except.pure, throw, throwThe, MonadExceptOf.throw]

/-- Every variant starts `UnmarshalBinary` with `messageSanityCheck`: a payload
of another length than `ExpectedLength()` is refused before any byte is read. -/
theorem Message.UnmarshalBinary_wrongLength (m : Message) (data : List Byte)
    (h : len data ≠ m.ExpectedLength) :
    m.UnmarshalBinary data =
      .error (.err (.wrongLength m.ExpectedLength m.MessageType (len data))) := by
  cases m <;>
  · simp only [Message.ExpectedLength] at h
    simp only [Message.UnmarshalBinary, Message.ExpectedLength, Message.MessageType,
      MessageDeviceInfo.UnmarshalBinary, MessageWorkoutMode.UnmarshalBinary,
      MessageSetWorkoutMode.UnmarshalBinary, MessageHeartRateType.UnmarshalBinary,
      MessageWorkoutData.UnmarshalBinary, MessageUserProfile.UnmarshalBinary,
      MessageACK.UnmarshalBinary, MessageWorkoutTarget.UnmarshalBinary,
      MessageMaxIncline.UnmarshalBinary, MessageErrorCode.UnmarshalBinary,
      MessageSpeed.UnmarshalBinary, MessageIncline.UnmarshalBinary,
      MessageLevel.UnmarshalBinary, MessageRPM.UnmarshalBinary,
      MessageHeartRate.UnmarshalBinary, MessageTargetHeartRate.UnmarshalBinary,
      MessageMaxSpeed.UnmarshalBinary, MessageMaxLevel.UnmarshalBinary,
      MessageUserIncline.UnmarshalBinary, MessageUserLevel.UnmarshalBinary,
      MessageEndWorkout.UnmarshalBinary, MessageProgramGraphics.UnmarshalBinary,
      MessageCommand.UnmarshalBinary, MessageProgram.UnmarshalBinary,
      messageSanityCheck_wrongLength _ _ _ h, bind, Except.bind]

/-- A payload of the expected length whose first byte is not the tag of the
variant is refused. -/
theorem Message.UnmarshalBinary_wrongCommand (m : Message) (t : Byte) (rest : List Byte)
    (h : len (t :: rest) = m.ExpectedLength) (ht : t ≠ m.MessageType) :
    m.UnmarshalBinary (t :: rest) = .error (.err (.wrongCommand m.MessageType t)) := by
  cases m <;>
  · simp only [Message.ExpectedLength] at h
    simp only [Message.MessageType] at ht
    simp only [Message.UnmarshalBinary, Message.ExpectedLength, Message.MessageType,
      MessageDeviceInfo.UnmarshalBinary, MessageWorkoutMode.UnmarshalBinary,
      MessageSetWorkoutMode.UnmarshalBinary, MessageHeartRateType.UnmarshalBinary,
      MessageWorkoutData.UnmarshalBinary, MessageUserProfile.UnmarshalBinary,
      MessageACK.UnmarshalBinary, MessageWorkoutTarget.UnmarshalBinary,
      MessageMaxIncline.UnmarshalBinary, MessageErrorCode.UnmarshalBinary,
      MessageSpeed.UnmarshalBinary, MessageIncline.UnmarshalBinary,
      MessageLevel.UnmarshalBinary, MessageRPM.UnmarshalBinary,
      MessageHeartRate.UnmarshalBinary, MessageTargetHeartRate.UnmarshalBinary,
      MessageMaxSpeed.UnmarshalBinary, MessageMaxLevel.UnmarshalBinary,
      MessageUserIncline.UnmarshalBinary, MessageUserLevel.UnmarshalBinary,
      MessageEndWorkout.UnmarshalBinary, MessageProgramGraphics.UnmarshalBinary,
      MessageCommand.UnmarshalBinary, MessageProgram.UnmarshalBinary,
      messageSanityCheck_cons _ _ _ _ h, if_pos ht, bind, Except.bind]

/-! ## The closed tag set -/

set_option maxRecDepth 100000 in
/-- The variant that `Create` makes has the expected length of the table, and
`Create` returns nil exactly for the tags the table does not list. -/
theorem Create_expectedLength :
    ∀ t : Byte, (MessageType.Create t).map Message.ExpectedLength = specExpectedLength t := by
  decide

set_option maxRecDepth 100000 in
/-- The variant that `Create` makes carries the tag it was made for, except
for tag 0x25, for which `Create` makes the variant of tag 0x27. -/
theorem Create_messageType :
    ∀ t : Byte, (MessageType.Create t).map Message.MessageType =
      if t = 0x25 then some 0x27 else (specExpectedLength t).map (fun _ => t) := by
  decide
/-! ## Byte strings of a known length -/

theorem exists_of_len_2 (data : List Byte) (h : len data = 2) :
    ∃ a0 a1 : Byte, data = [a0, a1] := by
  unfold len at h
  rcases data with _ | ⟨a0, _ | ⟨a1, _ | ⟨x, tl⟩⟩⟩ <;>
    first
    | exact ⟨_, _, rfl⟩
    | (simp at h; try omega)

theorem exists_of_len_3 (data : List Byte) (h : len data = 3) :
    ∃ a0 a1 a2 : Byte, data = [a0, a1, a2] := by
  unfold len at h
  rcases data with _ | ⟨a0, _ | ⟨a1, _ | ⟨a2, _ | ⟨x, tl⟩⟩⟩⟩ <;>
    first
    | exact ⟨_, _, _, rfl⟩
    | (simp at h; try omega)

theorem exists_of_len_4 (data : List Byte) (h : len data = 4) :
    ∃ a0 a1 a2 a3 : Byte, data = [a0, a1, a2, a3] := by
  unfold len at h
  rcases data with _ | ⟨a0, _ | ⟨a1, _ | ⟨a2, _ | ⟨a3, _ | ⟨x, tl⟩⟩⟩⟩⟩ <;>
    first
    | exact ⟨_, _, _, _, rfl⟩
    | (simp at h; try omega)

theorem exists_of_len_5 (data : List Byte) (h : len data = 5) :
    ∃ a0 a1 a2 a3 a4 : Byte, data = [a0, a1, a2, a3, a4] := by
  unfold len at h
  rcases data with _ | ⟨a0, _ | ⟨a1, _ | ⟨a2, _ | ⟨a3, _ | ⟨a4, _ | ⟨x, tl⟩⟩⟩⟩⟩⟩ <;>
    first
    | exact ⟨_, _, _, _, _, rfl⟩
    | (simp at h; try omega)

theorem exists_of_len_6 (data : List Byte) (h : len data = 6) :
    ∃ a0 a1 a2 a3 a4 a5 : Byte, data = [a0, a1, a2, a3, a4, a5] := by
  unfold len at h
  rcases data with _ | ⟨a0, _ | ⟨a1, _ | ⟨a2, _ | ⟨a3, _ | ⟨a4, _ | ⟨a5, _ | ⟨x, tl⟩⟩⟩⟩⟩⟩⟩ <;>
    first
    | exact ⟨_, _, _, _, _, _, rfl⟩
    | (simp at h; try omega)

theorem exists_of_len_10 (data : List Byte) (h : len data = 10) :
    ∃ a0 a1 a2 a3 a4 a5 a6 a7 a8 a9 : Byte, data = [a0, a1, a2, a3, a4, a5, a6, a7, a8, a9] := by
  unfold len at h
  rcases data with _ | ⟨a0, _ | ⟨a1, _ | ⟨a2, _ | ⟨a3, _ | ⟨a4, _ | ⟨a5, _ | ⟨a6, _ | ⟨a7, _ | ⟨a8, _ | ⟨a9, _ | ⟨x, tl⟩⟩⟩⟩⟩⟩⟩⟩⟩⟩⟩ <;>
    first
    | exact ⟨_, _, _, _, _, _, _, _, _, _, rfl⟩
    | (simp at h; try omega)

theorem exists_of_len_15 (data : List Byte) (h : len data = 15) :
    ∃ a0 a1 a2 a3 a4 a5 a6 a7 a8 a9 a10 a11 a12 a13 a14 : Byte, data = [a0, a1, a2, a3, a4, a5, a6, a7, a8, a9, a10, a11, a12, a13, a14] := by
  unfold len at h
  rcases data with _ | ⟨a0, _ | ⟨a1, _ | ⟨a2, _ | ⟨a3, _ | ⟨a4, _ | ⟨a5, _ | ⟨a6, _ | ⟨a7, _ | ⟨a8, _ | ⟨a9, _ | ⟨a10, _ | ⟨a11, _ | ⟨a12, _ | ⟨a13, _ | ⟨a14, _ | ⟨x, tl⟩⟩⟩⟩⟩⟩⟩⟩⟩⟩⟩⟩⟩⟩⟩⟩ <;>
    first
    | exact ⟨_, _, _, _, _, _, _, _, _, _, _, _, _, _, _, rfl⟩
    | (simp at h; try omega)

theorem exists_of_len_19 (data : List Byte) (h : len data = 19) :
    ∃ a0 a1 a2 a3 a4 a5 a6 a7 a8 a9 a10 a11 a12 a13 a14 a15 a16 a17 a18 : Byte, data = [a0, a1, a2, a3, a4, a5, a6, a7, a8, a9, a10, a11, a12, a13, a14, a15, a16, a17, a18] := by
  unfold len at h
  rcases data with _ | ⟨a0, _ | ⟨a1, _ | ⟨a2, _ | ⟨a3, _ | ⟨a4, _ | ⟨a5, _ | ⟨a6, _ | ⟨a7, _ | ⟨a8, _ | ⟨a9, _ | ⟨a10, _ | ⟨a11, _ | ⟨a12, _ | ⟨a13, _ | ⟨a14, _ | ⟨a15, _ | ⟨a16, _ | ⟨a17, _ | ⟨a18, _ | ⟨x, tl⟩⟩⟩⟩⟩⟩⟩⟩⟩⟩⟩⟩⟩⟩⟩⟩⟩⟩⟩⟩ <;>
    first
    | exact ⟨_, _, _, _, _, _, _, _, _, _, _, _, _, _, _, _, _, _, _, rfl⟩
    | (simp at h; try omega)
/-! ## Two-byte fields are big-endian -/

/-- Writing a `uint16` as high byte then low byte and reading the two bytes
back gives the same value. -/
theorem Uint16.join_split (x : Uint16) :
    ((uint16 (x.shr 8).toByte).shl 8).add (uint16 x.toByte) = x := by
  apply Fin.ext
  have hx := x.isLt
  simp only [Uint16.add, Uint16.shl, Uint16.shr, Uint16.toByte, uint16,
    Nat.shiftLeft_eq, Nat.shiftRight_eq_div_pow]
  omega

/-- The high byte of the value read from two bytes is the first byte. -/
theorem Uint16.split_join_hi (a b : Byte) :
    ((((uint16 a).shl 8).add (uint16 b)).shr 8).toByte = a := by
  apply Fin.ext
  have ha := a.isLt
  have hb := b.isLt
  simp only [Uint16.add, Uint16.shl, Uint16.shr, Uint16.toByte, uint16,
    Nat.shiftLeft_eq, Nat.shiftRight_eq_div_pow]
  omega

/-- The low byte of the value read from two bytes is the second byte. -/
theorem Uint16.split_join_lo (a b : Byte) :
    (((uint16 a).shl 8).add (uint16 b)).toByte = b := by
  apply Fin.ext
  have ha := a.isLt
  have hb := b.isLt
  simp only [Uint16.add, Uint16.shl, Uint16.toByte, uint16, Nat.shiftLeft_eq]
  omega

/-- The value read from two bytes is `256 * hi + lo`: nothing overflows. -/
theorem Uint16.join_val (a b : Byte) :
    (((uint16 a).shl 8).add (uint16 b)).val = 256 * a.val + b.val := by
  have ha := a.isLt
  have hb := b.isLt
  simp only [Uint16.add, Uint16.shl, uint16, Nat.shiftLeft_eq]
  omega

theorem graph_eta (g : Fin 18 → Byte) :
    ![g 0, g 1, g 2, g 3, g 4, g 5, g 6, g 7, g 8, g 9, g 10, g 11, g 12, g 13, g 14,
      g 15, g 16, g 17] = g := by
  funext i
  fin_cases i <;> rfl

/-! ## Each variant: what is read back is what was written -/

/-- What `MessageDeviceInfo.UnmarshalBinary` reads from a payload of 8 bytes that starts
with the tag. -/
theorem MessageDeviceInfo_UnmarshalBinary_eval (m0 : MessageDeviceInfo)
    (a1 a2 a3 a4 a5 a6 a7 : Byte) :
    m0.UnmarshalBinary [MessageTypeDeviceInfo, a1, a2, a3, a4, a5, a6, a7] =
      .ok ⟨a1, a2, a3, a4, a5, a6, a7⟩ := by
  with_unfolding_all rfl

/-- What `MessageWorkoutMode.UnmarshalBinary` reads from a payload of 2 bytes that starts
with the tag. -/
theorem MessageWorkoutMode_UnmarshalBinary_eval (m0 : MessageWorkoutMode)
    (a1 : Byte) :
    m0.UnmarshalBinary [MessageTypeWorkoutMode, a1] =
      .ok ⟨a1⟩ := by
  with_unfolding_all rfl

/-- Marshalling what `MessageWorkoutMode.UnmarshalBinary` accepted gives the payload back. -/
theorem MessageWorkoutMode_marshal_of_unmarshal (m0 m : MessageWorkoutMode) (data : List Byte)
    (h : m0.UnmarshalBinary data = .ok m) : m.MarshalBinary = .ok data := by
  by_cases hl : len data = 2
  · obtain ⟨a0, a1, rfl⟩ := exists_of_len_2 data hl
    by_cases ht : a0 = MessageTypeWorkoutMode
    · subst ht
      rw [MessageWorkoutMode_UnmarshalBinary_eval] at h
      cases h
      simp only [MessageWorkoutMode.MarshalBinary, MessageWorkoutMode.MessageType, pure, Except.pure,
        Uint16.split_join_hi, Uint16.split_join_lo]
    · simp only [MessageWorkoutMode.UnmarshalBinary, MessageWorkoutMode.ExpectedLength, MessageWorkoutMode.MessageType,
        messageSanityCheck_cons _ _ _ _ hl, if_pos ht, bind, Except.bind] at h
      cases h
  · simp only [MessageWorkoutMode.UnmarshalBinary, MessageWorkoutMode.ExpectedLength, MessageWorkoutMode.MessageType,
      messageSanityCheck_wrongLength _ _ _ hl, bind, Except.bind] at h
    cases h

/-- Unmarshalling what `MessageWorkoutMode.MarshalBinary` wrote gives the message back,
whatever the receiver held. -/
theorem MessageWorkoutMode_unmarshal_marshal (m0 m : MessageWorkoutMode) :
    ∃ p, m.MarshalBinary = .ok p ∧ len p = 2 ∧ m0.UnmarshalBinary p = .ok m := by
  cases m with
  | mk x0 =>
    refine ⟨_, rfl, rfl, ?_⟩
    simp only [MessageWorkoutMode.MessageType]
    rw [MessageWorkoutMode_UnmarshalBinary_eval]

/-- What `MessageSetWorkoutMode.UnmarshalBinary` reads from a payload of 2 bytes that starts
with the tag. -/
theorem MessageSetWorkoutMode_UnmarshalBinary_eval (m0 : MessageSetWorkoutMode)
    (a1 : Byte) :
    m0.UnmarshalBinary [MessageTypeSetWorkoutMode, a1] =
      .ok ⟨a1⟩ := by
  with_unfolding_all rfl

/-- Marshalling what `MessageSetWorkoutMode.UnmarshalBinary` accepted gives the payload back. -/
theorem MessageSetWorkoutMode_marshal_of_unmarshal (m0 m : MessageSetWorkoutMode) (data : List Byte)
    (h : m0.UnmarshalBinary data = .ok m) : m.MarshalBinary = .ok data := by
  by_cases hl : len data = 2
  · obtain ⟨a0, a1, rfl⟩ := exists_of_len_2 data hl
    by_cases ht : a0 = MessageTypeSetWorkoutMode
    · subst ht
      rw [MessageSetWorkoutMode_UnmarshalBinary_eval] at h
      cases h
      simp only [MessageSetWorkoutMode.MarshalBinary, MessageSetWorkoutMode.MessageType, pure, Except.pure,
        Uint16.split_join_hi, Uint16.split_join_lo]
    · simp only [MessageSetWorkoutMode.UnmarshalBinary, MessageSetWorkoutMode.ExpectedLength, MessageSetWorkoutMode.MessageType,
        messageSanityCheck_cons _ _ _ _ hl, if_pos ht, bind, Except.bind] at h
      cases h
  · simp only [MessageSetWorkoutMode.UnmarshalBinary, MessageSetWorkoutMode.ExpectedLength, MessageSetWorkoutMode.MessageType,
      messageSanityCheck_wrongLength _ _ _ hl, bind, Except.bind] at h
    cases h

/-- Unmarshalling what `MessageSetWorkoutMode.MarshalBinary` wrote gives the message back,
whatever the receiver held. -/
theorem MessageSetWorkoutMode_unmarshal_marshal (m0 m : MessageSetWorkoutMode) :
    ∃ p, m.MarshalBinary = .ok p ∧ len p = 2 ∧ m0.UnmarshalBinary p = .ok m := by
  cases m with
  | mk x0 =>
    refine ⟨_, rfl, rfl, ?_⟩
    simp only [MessageSetWorkoutMode.MessageType]
    rw [MessageSetWorkoutMode_UnmarshalBinary_eval]

/-- What `MessageHeartRateType.UnmarshalBinary` reads from a payload of 3 bytes that starts
with the tag. -/
theorem MessageHeartRateType_UnmarshalBinary_eval (m0 : MessageHeartRateType)
    (a1 a2 : Byte) :
    m0.UnmarshalBinary [MessageTypeHeartRateType, a1, a2] =
      .ok ⟨a1, a2⟩ := by
  with_unfolding_all rfl

/-- Marshalling what `MessageHeartRateType.UnmarshalBinary` accepted gives the payload back. -/
theorem MessageHeartRateType_marshal_of_unmarshal (m0 m : MessageHeartRateType) (data : List Byte)
    (h : m0.UnmarshalBinary data = .ok m) : m.MarshalBinary = .ok data := by
  by_cases hl : len data = 3
  · obtain ⟨a0, a1, a2, rfl⟩ := exists_of_len_3 data hl
    by_cases ht : a0 = MessageTypeHeartRateType
    · subst ht
      rw [MessageHeartRateType_UnmarshalBinary_eval] at h
      cases h
      simp only [MessageHeartRateType.MarshalBinary, MessageHeartRateType.MessageType, pure, Except.pure,
        Uint16.split_join_hi, Uint16.split_join_lo]
    · simp only [MessageHeartRateType.UnmarshalBinary, MessageHeartRateType.ExpectedLength, MessageHeartRateType.MessageType,
        messageSanityCheck_cons _ _ _ _ hl, if_pos ht, bind, Except.bind] at h
      cases h
  · simp only [MessageHeartRateType.UnmarshalBinary, MessageHeartRateType.ExpectedLength, MessageHeartRateType.MessageType,
      messageSanityCheck_wrongLength _ _ _ hl, bind, Except.bind] at h
    cases h

/-- Unmarshalling what `MessageHeartRateType.MarshalBinary` wrote gives the message back,
whatever the receiver held. -/
theorem MessageHeartRateType_unmarshal_marshal (m0 m : MessageHeartRateType) :
    ∃ p, m.MarshalBinary = .ok p ∧ len p = 3 ∧ m0.UnmarshalBinary p = .ok m := by
  cases m with
  | mk x0 x1 =>
    refine ⟨_, rfl, rfl, ?_⟩
    simp only [MessageHeartRateType.MessageType]
    rw [MessageHeartRateType_UnmarshalBinary_eval]

/-- What `MessageWorkoutData.UnmarshalBinary` reads from a payload of 15 bytes that starts
with the tag. -/
theorem MessageWorkoutData_UnmarshalBinary_eval (m0 : MessageWorkoutData)
    (a1 a2 a3 a4 a5 a6 a7 a8 a9 a10 a11 a12 a13 a14 : Byte) :
    m0.UnmarshalBinary [MessageTypeWorkoutData, a1, a2, a3, a4, a5, a6, a7, a8, a9, a10, a11,
      a12, a13, a14] =
      .ok ⟨a1, a2, ((uint16 a3).shl 8).add (uint16 a4), ((uint16 a5).shl 8).add (uint16 a6), a7,
        a8, a9, a10, a11, a12, a13, a14⟩ := by
  with_unfolding_all rfl

/-- Marshalling what `MessageWorkoutData.UnmarshalBinary` accepted gives the payload back. -/
theorem MessageWorkoutData_marshal_of_unmarshal (m0 m : MessageWorkoutData) (data : List Byte)
    (h : m0.UnmarshalBinary data = .ok m) : m.MarshalBinary = .ok data := by
  by_cases hl : len data = 15
  · obtain ⟨a0, a1, a2, a3, a4, a5, a6, a7, a8, a9, a10, a11, a12, a13, a14, rfl⟩ := exists_of_len_15 data hl
    by_cases ht : a0 = MessageTypeWorkoutData
    · subst ht
      rw [MessageWorkoutData_UnmarshalBinary_eval] at h
      cases h
      simp only [MessageWorkoutData.MarshalBinary, MessageWorkoutData.MessageType, pure, Except.pure,
        Uint16.split_join_hi, Uint16.split_join_lo]
    · simp only [MessageWorkoutData.UnmarshalBinary, MessageWorkoutData.ExpectedLength, MessageWorkoutData.MessageType,
        messageSanityCheck_cons _ _ _ _ hl, if_pos ht, bind, Except.bind] at h
      cases h
  · simp only [MessageWorkoutData.UnmarshalBinary, MessageWorkoutData.ExpectedLength, MessageWorkoutData.MessageType,
      messageSanityCheck_wrongLength _ _ _ hl, bind, Except.bind] at h
    cases h

/-- Unmarshalling what `MessageWorkoutData.MarshalBinary` wrote gives the message back,
whatever the receiver held. -/
theorem MessageWorkoutData_unmarshal_marshal (m0 m : MessageWorkoutData) :
    ∃ p, m.MarshalBinary = .ok p ∧ len p = 15 ∧ m0.UnmarshalBinary p = .ok m := by
  cases m with
  | mk x0 x1 x2 x3 x4 x5 x6 x7 x8 x9 x10 x11 =>
    refine ⟨_, rfl, rfl, ?_⟩
    simp only [MessageWorkoutData.MessageType]
    rw [MessageWorkoutData_UnmarshalBinary_eval]
    simp only [Uint16.join_split]

/-- What `MessageUserProfile.UnmarshalBinary` reads from a payload of 6 bytes that starts
with the tag. -/
theorem MessageUserProfile_UnmarshalBinary_eval (m0 : MessageUserProfile)
    (a1 a2 a3 a4 a5 : Byte) :
    m0.UnmarshalBinary [MessageTypeUserProfile, a1, a2, a3, a4, a5] =
      .ok ⟨a1, a2, ((uint16 a3).shl 8).add (uint16 a4), a5⟩ := by
  with_unfolding_all rfl

/-- Marshalling what `MessageUserProfile.UnmarshalBinary` accepted gives the payload back. -/
theorem MessageUserProfile_marshal_of_unmarshal (m0 m : MessageUserProfile) (data : List Byte)
    (h : m0.UnmarshalBinary data = .ok m) : m.MarshalBinary = .ok data := by
  by_cases hl : len data = 6
  · obtain ⟨a0, a1, a2, a3, a4, a5, rfl⟩ := exists_of_len_6 data hl
    by_cases ht : a0 = MessageTypeUserProfile
    · subst ht
      rw [MessageUserProfile_UnmarshalBinary_eval] at h
      cases h
      simp only [MessageUserProfile.MarshalBinary, MessageUserProfile.MessageType, pure, Except.pure,
        Uint16.split_join_hi, Uint16.split_join_lo]
    · simp only [MessageUserProfile.UnmarshalBinary, MessageUserProfile.ExpectedLength, MessageUserProfile.MessageType,
        messageSanityCheck_cons _ _ _ _ hl, if_pos ht, bind, Except.bind] at h
      cases h
  · simp only [MessageUserProfile.UnmarshalBinary, MessageUserProfile.ExpectedLength, MessageUserProfile.MessageType,
      messageSanityCheck_wrongLength _ _ _ hl, bind, Except.bind] at h
    cases h

/-- Unmarshalling what `MessageUserProfile.MarshalBinary` wrote gives the message back,
whatever the receiver held. -/
theorem MessageUserProfile_unmarshal_marshal (m0 m : MessageUserProfile) :
    ∃ p, m.MarshalBinary = .ok p ∧ len p = 6 ∧ m0.UnmarshalBinary p = .ok m := by
  cases m with
  | mk x0 x1 x2 x3 =>
    refine ⟨_, rfl, rfl, ?_⟩
    simp only [MessageUserProfile.MessageType]
    rw [MessageUserProfile_UnmarshalBinary_eval]
    simp only [Uint16.join_split]

/-- What `MessageACK.UnmarshalBinary` reads from a payload of 4 bytes that starts
with the tag and ends with 0x4F 0x4B. -/
theorem MessageACK_UnmarshalBinary_eval (m0 : MessageACK)
    (a1 : Byte) :
    m0.UnmarshalBinary [MessageTypeACK, a1, 0x4f, 0x4b] =
      .ok ⟨a1⟩ := by
  with_unfolding_all rfl

/-- Marshalling what `MessageACK.UnmarshalBinary` accepted gives the payload back
when the payload ends with 0x4F 0x4B. -/
theorem MessageACK_marshal_of_unmarshal (m0 m : MessageACK) (data : List Byte)
    (h : m0.UnmarshalBinary data = .ok m)
    (hr : data[2]? = some 0x4f ∧ data[3]? = some 0x4b) : m.MarshalBinary = .ok data := by
  by_cases hl : len data = 4
  · obtain ⟨a0, a1, a2, a3, rfl⟩ := exists_of_len_4 data hl
    by_cases ht : a0 = MessageTypeACK
    · subst ht
      simp only [List.getElem?_cons_succ, List.getElem?_cons_zero, Option.some.injEq] at hr
      obtain ⟨hr2, hr3⟩ := hr
      subst hr2 hr3
      rw [MessageACK_UnmarshalBinary_eval] at h
      cases h
      simp only [MessageACK.MarshalBinary, MessageACK.MessageType, pure, Except.pure,
        Uint16.split_join_hi, Uint16.split_join_lo]
    · simp only [MessageACK.UnmarshalBinary, MessageACK.ExpectedLength, MessageACK.MessageType,
        messageSanityCheck_cons _ _ _ _ hl, if_pos ht, bind, Except.bind] at h
      cases h
  · simp only [MessageACK.UnmarshalBinary, MessageACK.ExpectedLength, MessageACK.MessageType,
      messageSanityCheck_wrongLength _ _ _ hl, bind, Except.bind] at h
    cases h

/-- Unmarshalling what `MessageACK.MarshalBinary` wrote gives the message back,
whatever the receiver held. -/
theorem MessageACK_unmarshal_marshal (m0 m : MessageACK) :
    ∃ p, m.MarshalBinary = .ok p ∧ len p = 4 ∧ m0.UnmarshalBinary p = .ok m := by
  cases m with
  | mk x0 =>
    refine ⟨_, rfl, rfl, ?_⟩
    simp only [MessageACK.MessageType]
    rw [MessageACK_UnmarshalBinary_eval]

/-- What `MessageWorkoutTarget.UnmarshalBinary` reads from a payload of 5 bytes that starts
with the tag. -/
theorem MessageWorkoutTarget_UnmarshalBinary_eval (m0 : MessageWorkoutTarget)
    (a1 a2 a3 a4 : Byte) :
    m0.UnmarshalBinary [MessageTypeWorkoutTarget, a1, a2, a3, a4] =
      .ok ⟨a1, ((uint16 a3).shl 8).add (uint16 a4)⟩ := by
  with_unfolding_all rfl

/-- Marshalling what `MessageWorkoutTarget.UnmarshalBinary` accepted gives the payload back
when the reserved byte of the payload is zero. -/
theorem MessageWorkoutTarget_marshal_of_unmarshal (m0 m : MessageWorkoutTarget) (data : List Byte)
    (h : m0.UnmarshalBinary data = .ok m)
    (hr : data[2]? = some 0) : m.MarshalBinary = .ok data := by
  by_cases hl : len data = 5
  · obtain ⟨a0, a1, a2, a3, a4, rfl⟩ := exists_of_len_5 data hl
    by_cases ht : a0 = MessageTypeWorkoutTarget
    · subst ht
      simp only [List.getElem?_cons_succ, List.getElem?_cons_zero, Option.some.injEq] at hr
      subst hr
      rw [MessageWorkoutTarget_UnmarshalBinary_eval] at h
      cases h
      simp only [MessageWorkoutTarget.MarshalBinary, MessageWorkoutTarget.MessageType, pure, Except.pure,
        Uint16.split_join_hi, Uint16.split_join_lo]
    · simp only [MessageWorkoutTarget.UnmarshalBinary, MessageWorkoutTarget.ExpectedLength, MessageWorkoutTarget.MessageType,
        messageSanityCheck_cons _ _ _ _ hl, if_pos ht, bind, Except.bind] at h
      cases h
  · simp only [MessageWorkoutTarget.UnmarshalBinary, MessageWorkoutTarget.ExpectedLength, MessageWorkoutTarget.MessageType,
      messageSanityCheck_wrongLength _ _ _ hl, bind, Except.bind] at h
    cases h

/-- Unmarshalling what `MessageWorkoutTarget.MarshalBinary` wrote gives the message back,
whatever the receiver held. -/
theorem MessageWorkoutTarget_unmarshal_marshal (m0 m : MessageWorkoutTarget) :
    ∃ p, m.MarshalBinary = .ok p ∧ len p = 5 ∧ m0.UnmarshalBinary p = .ok m := by
  cases m with
  | mk x0 x1 =>
    refine ⟨_, rfl, rfl, ?_⟩
    simp only [MessageWorkoutTarget.MessageType]
    rw [MessageWorkoutTarget_UnmarshalBinary_eval]
    simp only [Uint16.join_split]

/-- What `MessageMaxIncline.UnmarshalBinary` reads from a payload of 2 bytes that starts
with the tag. -/
theorem MessageMaxIncline_UnmarshalBinary_eval (m0 : MessageMaxIncline)
    (a1 : Byte) :
    m0.UnmarshalBinary [MessageTypeMaxIncline, a1] =
      .ok ⟨a1⟩ := by
  with_unfolding_all rfl

/-- Marshalling what `MessageMaxIncline.UnmarshalBinary` accepted gives the payload back. -/
theorem MessageMaxIncline_marshal_of_unmarshal (m0 m : MessageMaxIncline) (data : List Byte)
    (h : m0.UnmarshalBinary data = .ok m) : m.MarshalBinary = .ok data := by
  by_cases hl : len data = 2
  · obtain ⟨a0, a1, rfl⟩ := exists_of_len_2 data hl
    by_cases ht : a0 = MessageTypeMaxIncline
    · subst ht
      rw [MessageMaxIncline_UnmarshalBinary_eval] at h
      cases h
      simp only [MessageMaxIncline.MarshalBinary, MessageMaxIncline.MessageType, pure, Except.pure,
        Uint16.split_join_hi, Uint16.split_join_lo]
    · simp only [MessageMaxIncline.UnmarshalBinary, MessageMaxIncline.ExpectedLength, MessageMaxIncline.MessageType,
        messageSanityCheck_cons _ _ _ _ hl, if_pos ht, bind, Except.bind] at h
      cases h
  · simp only [MessageMaxIncline.UnmarshalBinary, MessageMaxIncline.ExpectedLength, MessageMaxIncline.MessageType,
      messageSanityCheck_wrongLength _ _ _ hl, bind, Except.bind] at h
    cases h

/-- Unmarshalling what `MessageMaxIncline.MarshalBinary` wrote gives the message back,
whatever the receiver held. -/
theorem MessageMaxIncline_unmarshal_marshal (m0 m : MessageMaxIncline) :
    ∃ p, m.MarshalBinary = .ok p ∧ len p = 2 ∧ m0.UnmarshalBinary p = .ok m := by
  cases m with
  | mk x0 =>
    refine ⟨_, rfl, rfl, ?_⟩
    simp only [MessageMaxIncline.MessageType]
    rw [MessageMaxIncline_UnmarshalBinary_eval]

/-- What `MessageErrorCode.UnmarshalBinary` reads from a payload of 2 bytes that starts
with the tag. -/
theorem MessageErrorCode_UnmarshalBinary_eval (m0 : MessageErrorCode)
    (a1 : Byte) :
    m0.UnmarshalBinary [MessageTypeErrorCode, a1] =
      .ok ⟨a1⟩ := by
  with_unfolding_all rfl

/-- Marshalling what `MessageErrorCode.UnmarshalBinary` accepted gives the payload back. -/
theorem MessageErrorCode_marshal_of_unmarshal (m0 m : MessageErrorCode) (data : List Byte)
    (h : m0.UnmarshalBinary data = .ok m) : m.MarshalBinary = .ok data := by
  by_cases hl : len data = 2
  · obtain ⟨a0, a1, rfl⟩ := exists_of_len_2 data hl
    by_cases ht : a0 = MessageTypeErrorCode
    · subst ht
      rw [MessageErrorCode_UnmarshalBinary_eval] at h
      cases h
      simp only [MessageErrorCode.MarshalBinary, MessageErrorCode.MessageType, pure, Except.pure,
        Uint16.split_join_hi, Uint16.split_join_lo]
    · simp only [MessageErrorCode.UnmarshalBinary, MessageErrorCode.ExpectedLength, MessageErrorCode.MessageType,
        messageSanityCheck_cons _ _ _ _ hl, if_pos ht, bind, Except.bind] at h
      cases h
  · simp only [MessageErrorCode.UnmarshalBinary, MessageErrorCode.ExpectedLength, MessageErrorCode.MessageType,
      messageSanityCheck_wrongLength _ _ _ hl, bind, Except.bind] at h
    cases h

/-- Unmarshalling what `MessageErrorCode.MarshalBinary` wrote gives the message back,
whatever the receiver held. -/
theorem MessageErrorCode_unmarshal_marshal (m0 m : MessageErrorCode) :
    ∃ p, m.MarshalBinary = .ok p ∧ len p = 2 ∧ m0.UnmarshalBinary p = .ok m := by
  cases m with
  | mk x0 =>
    refine ⟨_, rfl, rfl, ?_⟩
    simp only [MessageErrorCode.MessageType]
    rw [MessageErrorCode_UnmarshalBinary_eval]

/-- What `MessageSpeed.UnmarshalBinary` reads from a payload of 2 bytes that starts
with the tag. -/
theorem MessageSpeed_UnmarshalBinary_eval (m0 : MessageSpeed)
    (a1 : Byte) :
    m0.UnmarshalBinary [MessageTypeSpeed, a1] =
      .ok ⟨a1⟩ := by
  with_unfolding_all rfl

/-- Marshalling what `MessageSpeed.UnmarshalBinary` accepted gives the payload back. -/
theorem MessageSpeed_marshal_of_unmarshal (m0 m : MessageSpeed) (data : List Byte)
    (h : m0.UnmarshalBinary data = .ok m) : m.MarshalBinary = .ok data := by
  by_cases hl : len data = 2
  · obtain ⟨a0, a1, rfl⟩ := exists_of_len_2 data hl
    by_cases ht : a0 = MessageTypeSpeed
    · subst ht
      rw [MessageSpeed_UnmarshalBinary_eval] at h
      cases h
      simp only [MessageSpeed.MarshalBinary, MessageSpeed.MessageType, pure, Except.pure,
        Uint16.split_join_hi, Uint16.split_join_lo]
    · simp only [MessageSpeed.UnmarshalBinary, MessageSpeed.ExpectedLength, MessageSpeed.MessageType,
        messageSanityCheck_cons _ _ _ _ hl, if_pos ht, bind, Except.bind] at h
      cases h
  · simp only [MessageSpeed.UnmarshalBinary, MessageSpeed.ExpectedLength, MessageSpeed.MessageType,
      messageSanityCheck_wrongLength _ _ _ hl, bind, Except.bind] at h
    cases h

/-- Unmarshalling what `MessageSpeed.MarshalBinary` wrote gives the message back,
whatever the receiver held. -/
theorem MessageSpeed_unmarshal_marshal (m0 m : MessageSpeed) :
    ∃ p, m.MarshalBinary = .ok p ∧ len p = 2 ∧ m0.UnmarshalBinary p = .ok m := by
  cases m with
  | mk x0 =>
    refine ⟨_, rfl, rfl, ?_⟩
    simp only [MessageSpeed.MessageType]
    rw [MessageSpeed_UnmarshalBinary_eval]

/-- What `MessageIncline.UnmarshalBinary` reads from a payload of 2 bytes that starts
with the tag. -/
theorem MessageIncline_UnmarshalBinary_eval (m0 : MessageIncline)
    (a1 : Byte) :
    m0.UnmarshalBinary [MessageTypeIncline, a1] =
      .ok ⟨a1⟩ := by
  with_unfolding_all rfl

/-- Marshalling what `MessageIncline.UnmarshalBinary` accepted gives the payload back. -/
theorem MessageIncline_marshal_of_unmarshal (m0 m : MessageIncline) (data : List Byte)
    (h : m0.UnmarshalBinary data = .ok m) : m.MarshalBinary = .ok data := by
  by_cases hl : len data = 2
  · obtain ⟨a0, a1, rfl⟩ := exists_of_len_2 data hl
    by_cases ht : a0 = MessageTypeIncline
    · subst ht
      rw [MessageIncline_UnmarshalBinary_eval] at h
      cases h
      simp only [MessageIncline.MarshalBinary, MessageIncline.MessageType, pure, Except.pure,
        Uint16.split_join_hi, Uint16.split_join_lo]
    · simp only [MessageIncline.UnmarshalBinary, MessageIncline.ExpectedLength, MessageIncline.MessageType,
        messageSanityCheck_cons _ _ _ _ hl, if_pos ht, bind, Except.bind] at h
      cases h
  · simp only [MessageIncline.UnmarshalBinary, MessageIncline.ExpectedLength, MessageIncline.MessageType,
      messageSanityCheck_wrongLength _ _ _ hl, bind, Except.bind] at h
    cases h

/-- Unmarshalling what `MessageIncline.MarshalBinary` wrote gives the message back,
whatever the receiver held. -/
theorem MessageIncline_unmarshal_marshal (m0 m : MessageIncline) :
    ∃ p, m.MarshalBinary = .ok p ∧ len p = 2 ∧ m0.UnmarshalBinary p = .ok m := by
  cases m with
  | mk x0 =>
    refine ⟨_, rfl, rfl, ?_⟩
    simp only [MessageIncline.MessageType]
    rw [MessageIncline_UnmarshalBinary_eval]

/-- What `MessageLevel.UnmarshalBinary` reads from a payload of 2 bytes that starts
with the tag. -/
theorem MessageLevel_UnmarshalBinary_eval (m0 : MessageLevel)
    (a1 : Byte) :
    m0.UnmarshalBinary [MessageTypeLevel, a1] =
      .ok ⟨a1⟩ := by
  with_unfolding_all rfl

/-- Marshalling what `MessageLevel.UnmarshalBinary` accepted gives the payload back. -/
theorem MessageLevel_marshal_of_unmarshal (m0 m : MessageLevel) (data : List Byte)
    (h : m0.UnmarshalBinary data = .ok m) : m.MarshalBinary = .ok data := by
  by_cases hl : len data = 2
  · obtain ⟨a0, a1, rfl⟩ := exists_of_len_2 data hl
    by_cases ht : a0 = MessageTypeLevel
    · subst ht
      rw [MessageLevel_UnmarshalBinary_eval] at h
      cases h
      simp only [MessageLevel.MarshalBinary, MessageLevel.MessageType, pure, Except.pure,
        Uint16.split_join_hi, Uint16.split_join_lo]
    · simp only [MessageLevel.UnmarshalBinary, MessageLevel.ExpectedLength, MessageLevel.MessageType,
        messageSanityCheck_cons _ _ _ _ hl, if_pos ht, bind, Except.bind] at h
      cases h
  · simp only [MessageLevel.UnmarshalBinary, MessageLevel.ExpectedLength, MessageLevel.MessageType,
      messageSanityCheck_wrongLength _ _ _ hl, bind, Except.bind] at h
    cases h

/-- Unmarshalling what `MessageLevel.MarshalBinary` wrote gives the message back,
whatever the receiver held. -/
theorem MessageLevel_unmarshal_marshal (m0 m : MessageLevel) :
    ∃ p, m.MarshalBinary = .ok p ∧ len p = 2 ∧ m0.UnmarshalBinary p = .ok m := by
  cases m with
  | mk x0 =>
    refine ⟨_, rfl, rfl, ?_⟩
    simp only [MessageLevel.MessageType]
    rw [MessageLevel_UnmarshalBinary_eval]

/-- What `MessageRPM.UnmarshalBinary` reads from a payload of 2 bytes that starts
with the tag. -/
theorem MessageRPM_UnmarshalBinary_eval (m0 : MessageRPM)
    (a1 : Byte) :
    m0.UnmarshalBinary [MessageTypeRPM, a1] =
      .ok ⟨a1⟩ := by
  with_unfolding_all rfl

/-- Marshalling what `MessageRPM.UnmarshalBinary` accepted gives the payload back. -/
theorem MessageRPM_marshal_of_unmarshal (m0 m : MessageRPM) (data : List Byte)
    (h : m0.UnmarshalBinary data = .ok m) : m.MarshalBinary = .ok data := by
  by_cases hl : len data = 2
  · obtain ⟨a0, a1, rfl⟩ := exists_of_len_2 data hl
    by_cases ht : a0 = MessageTypeRPM
    · subst ht
      rw [MessageRPM_UnmarshalBinary_eval] at h
      cases h
      simp only [MessageRPM.MarshalBinary, MessageRPM.MessageType, pure, Except.pure,
        Uint16.split_join_hi, Uint16.split_join_lo]
    · simp only [MessageRPM.UnmarshalBinary, MessageRPM.ExpectedLength, MessageRPM.MessageType,
        messageSanityCheck_cons _ _ _ _ hl, if_pos ht, bind, Except.bind] at h
      cases h
  · simp only [MessageRPM.UnmarshalBinary, MessageRPM.ExpectedLength, MessageRPM.MessageType,
      messageSanityCheck_wrongLength _ _ _ hl, bind, Except.bind] at h
    cases h

/-- Unmarshalling what `MessageRPM.MarshalBinary` wrote gives the message back,
whatever the receiver held. -/
theorem MessageRPM_unmarshal_marshal (m0 m : MessageRPM) :
    ∃ p, m.MarshalBinary = .ok p ∧ len p = 2 ∧ m0.UnmarshalBinary p = .ok m := by
  cases m with
  | mk x0 =>
    refine ⟨_, rfl, rfl, ?_⟩
    simp only [MessageRPM.MessageType]
    rw [MessageRPM_UnmarshalBinary_eval]

/-- What `MessageHeartRate.UnmarshalBinary` reads from a payload of 2 bytes that starts
with the tag. -/
theorem MessageHeartRate_UnmarshalBinary_eval (m0 : MessageHeartRate)
    (a1 : Byte) :
    m0.UnmarshalBinary [MessageTypeHeartRate, a1] =
      .ok ⟨a1⟩ := by
  with_unfolding_all rfl

/-- Marshalling what `MessageHeartRate.UnmarshalBinary` accepted gives the payload back. -/
theorem MessageHeartRate_marshal_of_unmarshal (m0 m : MessageHeartRate) (data : List Byte)
    (h : m0.UnmarshalBinary data = .ok m) : m.MarshalBinary = .ok data := by
  by_cases hl : len data = 2
  · obtain ⟨a0, a1, rfl⟩ := exists_of_len_2 data hl
    by_cases ht : a0 = MessageTypeHeartRate
    · subst ht
      rw [MessageHeartRate_UnmarshalBinary_eval] at h
      cases h
      simp only [MessageHeartRate.MarshalBinary, MessageHeartRate.MessageType, pure, Except.pure,
        Uint16.split_join_hi, Uint16.split_join_lo]
    · simp only [MessageHeartRate.UnmarshalBinary, MessageHeartRate.ExpectedLength, MessageHeartRate.MessageType,
        messageSanityCheck_cons _ _ _ _ hl, if_pos ht, bind, Except.bind] at h
      cases h
  · simp only [MessageHeartRate.UnmarshalBinary, MessageHeartRate.ExpectedLength, MessageHeartRate.MessageType,
      messageSanityCheck_wrongLength _ _ _ hl, bind, Except.bind] at h
    cases h

/-- Unmarshalling what `MessageHeartRate.MarshalBinary` wrote gives the message back,
whatever the receiver held. -/
theorem MessageHeartRate_unmarshal_marshal (m0 m : MessageHeartRate) :
    ∃ p, m.MarshalBinary = .ok p ∧ len p = 2 ∧ m0.UnmarshalBinary p = .ok m := by
  cases m with
  | mk x0 =>
    refine ⟨_, rfl, rfl, ?_⟩
    simp only [MessageHeartRate.MessageType]
    rw [MessageHeartRate_UnmarshalBinary_eval]

/-- What `MessageTargetHeartRate.UnmarshalBinary` reads from a payload of 2 bytes that starts
with the tag. -/
theorem MessageTargetHeartRate_UnmarshalBinary_eval (m0 : MessageTargetHeartRate)
    (a1 : Byte) :
    m0.UnmarshalBinary [MessageTypeTargetHeartRate, a1] =
      .ok ⟨a1⟩ := by
  with_unfolding_all rfl

/-- Marshalling what `MessageTargetHeartRate.UnmarshalBinary` accepted gives the payload back. -/
theorem MessageTargetHeartRate_marshal_of_unmarshal (m0 m : MessageTargetHeartRate) (data : List Byte)
    (h : m0.UnmarshalBinary data = .ok m) : m.MarshalBinary = .ok data := by
  by_cases hl : len data = 2
  · obtain ⟨a0, a1, rfl⟩ := exists_of_len_2 data hl
    by_cases ht : a0 = MessageTypeTargetHeartRate
    · subst ht
      rw [MessageTargetHeartRate_UnmarshalBinary_eval] at h
      cases h
      simp only [MessageTargetHeartRate.MarshalBinary, MessageTargetHeartRate.MessageType, pure, Except.pure,
        Uint16.split_join_hi, Uint16.split_join_lo]
    · simp only [MessageTargetHeartRate.UnmarshalBinary, MessageTargetHeartRate.ExpectedLength, MessageTargetHeartRate.MessageType,
        messageSanityCheck_cons _ _ _ _ hl, if_pos ht, bind, Except.bind] at h
      cases h
  · simp only [MessageTargetHeartRate.UnmarshalBinary, MessageTargetHeartRate.ExpectedLength, MessageTargetHeartRate.MessageType,
      messageSanityCheck_wrongLength _ _ _ hl, bind, Except.bind] at h
    cases h

/-- Unmarshalling what `MessageTargetHeartRate.MarshalBinary` wrote gives the message back,
whatever the receiver held. -/
theorem MessageTargetHeartRate_unmarshal_marshal (m0 m : MessageTargetHeartRate) :
    ∃ p, m.MarshalBinary = .ok p ∧ len p = 2 ∧ m0.UnmarshalBinary p = .ok m := by
  cases m with
  | mk x0 =>
    refine ⟨_, rfl, rfl, ?_⟩
    simp only [MessageTargetHeartRate.MessageType]
    rw [MessageTargetHeartRate_UnmarshalBinary_eval]

/-- What `MessageMaxSpeed.UnmarshalBinary` reads from a payload of 2 bytes that starts
with the tag. -/
theorem MessageMaxSpeed_UnmarshalBinary_eval (m0 : MessageMaxSpeed)
    (a1 : Byte) :
    m0.UnmarshalBinary [MessageTypeMaxSpeed, a1] =
      .ok ⟨a1⟩ := by
  with_unfolding_all rfl

/-- Marshalling what `MessageMaxSpeed.UnmarshalBinary` accepted gives the payload back. -/
theorem MessageMaxSpeed_marshal_of_unmarshal (m0 m : MessageMaxSpeed) (data : List Byte)
    (h : m0.UnmarshalBinary data = .ok m) : m.MarshalBinary = .ok data := by
  by_cases hl : len data = 2
  · obtain ⟨a0, a1, rfl⟩ := exists_of_len_2 data hl
    by_cases ht : a0 = MessageTypeMaxSpeed
    · subst ht
      rw [MessageMaxSpeed_UnmarshalBinary_eval] at h
      cases h
      simp only [MessageMaxSpeed.MarshalBinary, MessageMaxSpeed.MessageType, pure, Except.pure,
        Uint16.split_join_hi, Uint16.split_join_lo]
    · simp only [MessageMaxSpeed.UnmarshalBinary, MessageMaxSpeed.ExpectedLength, MessageMaxSpeed.MessageType,
        messageSanityCheck_cons _ _ _ _ hl, if_pos ht, bind, Except.bind] at h
      cases h
  · simp only [MessageMaxSpeed.UnmarshalBinary, MessageMaxSpeed.ExpectedLength, MessageMaxSpeed.MessageType,
      messageSanityCheck_wrongLength _ _ _ hl, bind, Except.bind] at h
    cases h

/-- Unmarshalling what `MessageMaxSpeed.MarshalBinary` wrote gives the message back,
whatever the receiver held. -/
theorem MessageMaxSpeed_unmarshal_marshal (m0 m : MessageMaxSpeed) :
    ∃ p, m.MarshalBinary = .ok p ∧ len p = 2 ∧ m0.UnmarshalBinary p = .ok m := by
  cases m with
  | mk x0 =>
    refine ⟨_, rfl, rfl, ?_⟩
    simp only [MessageMaxSpeed.MessageType]
    rw [MessageMaxSpeed_UnmarshalBinary_eval]

/-- What `MessageMaxLevel.UnmarshalBinary` reads from a payload of 2 bytes that starts
with the tag. -/
theorem MessageMaxLevel_UnmarshalBinary_eval (m0 : MessageMaxLevel)
    (a1 : Byte) :
    m0.UnmarshalBinary [MessageTypeMaxLevel, a1] =
      .ok ⟨a1⟩ := by
  with_unfolding_all rfl

/-- Marshalling what `MessageMaxLevel.UnmarshalBinary` accepted gives the payload back. -/
theorem MessageMaxLevel_marshal_of_unmarshal (m0 m : MessageMaxLevel) (data : List Byte)
    (h : m0.UnmarshalBinary data = .ok m) : m.MarshalBinary = .ok data := by
  by_cases hl : len data = 2
  · obtain ⟨a0, a1, rfl⟩ := exists_of_len_2 data hl
    by_cases ht : a0 = MessageTypeMaxLevel
    · subst ht
      rw [MessageMaxLevel_UnmarshalBinary_eval] at h
      cases h
      simp only [MessageMaxLevel.MarshalBinary, MessageMaxLevel.MessageType, pure, Except.pure,
        Uint16.split_join_hi, Uint16.split_join_lo]
    · simp only [MessageMaxLevel.UnmarshalBinary, MessageMaxLevel.ExpectedLength, MessageMaxLevel.MessageType,
        messageSanityCheck_cons _ _ _ _ hl, if_pos ht, bind, Except.bind] at h
      cases h
  · simp only [MessageMaxLevel.UnmarshalBinary, MessageMaxLevel.ExpectedLength, MessageMaxLevel.MessageType,
      messageSanityCheck_wrongLength _ _ _ hl, bind, Except.bind] at h
    cases h

/-- Unmarshalling what `MessageMaxLevel.MarshalBinary` wrote gives the message back,
whatever the receiver held. -/
theorem MessageMaxLevel_unmarshal_marshal (m0 m : MessageMaxLevel) :
    ∃ p, m.MarshalBinary = .ok p ∧ len p = 2 ∧ m0.UnmarshalBinary p = .ok m := by
  cases m with
  | mk x0 =>
    refine ⟨_, rfl, rfl, ?_⟩
    simp only [MessageMaxLevel.MessageType]
    rw [MessageMaxLevel_UnmarshalBinary_eval]

/-- What `MessageUserIncline.UnmarshalBinary` reads from a payload of 2 bytes that starts
with the tag. -/
theorem MessageUserIncline_UnmarshalBinary_eval (m0 : MessageUserIncline)
    (a1 : Byte) :
    m0.UnmarshalBinary [MessageTypeUserIncline, a1] =
      .ok ⟨a1⟩ := by
  with_unfolding_all rfl

/-- Marshalling what `MessageUserIncline.UnmarshalBinary` accepted gives the payload back. -/
theorem MessageUserIncline_marshal_of_unmarshal (m0 m : MessageUserIncline) (data : List Byte)
    (h : m0.UnmarshalBinary data = .ok m) : m.MarshalBinary = .ok data := by
  by_cases hl : len data = 2
  · obtain ⟨a0, a1, rfl⟩ := exists_of_len_2 data hl
    by_cases ht : a0 = MessageTypeUserIncline
    · subst ht
      rw [MessageUserIncline_UnmarshalBinary_eval] at h
      cases h
      simp only [MessageUserIncline.MarshalBinary, MessageUserIncline.MessageType, pure, Except.pure,
        Uint16.split_join_hi, Uint16.split_join_lo]
    · simp only [MessageUserIncline.UnmarshalBinary, MessageUserIncline.ExpectedLength, MessageUserIncline.MessageType,
        messageSanityCheck_cons _ _ _ _ hl, if_pos ht, bind, Except.bind] at h
      cases h
  · simp only [MessageUserIncline.UnmarshalBinary, MessageUserIncline.ExpectedLength, MessageUserIncline.MessageType,
      messageSanityCheck_wrongLength _ _ _ hl, bind, Except.bind] at h
    cases h

/-- Unmarshalling what `MessageUserIncline.MarshalBinary` wrote gives the message back,
whatever the receiver held. -/
theorem MessageUserIncline_unmarshal_marshal (m0 m : MessageUserIncline) :
    ∃ p, m.MarshalBinary = .ok p ∧ len p = 2 ∧ m0.UnmarshalBinary p = .ok m := by
  cases m with
  | mk x0 =>
    refine ⟨_, rfl, rfl, ?_⟩
    simp only [MessageUserIncline.MessageType]
    rw [MessageUserIncline_UnmarshalBinary_eval]

/-- What `MessageUserLevel.UnmarshalBinary` reads from a payload of 2 bytes that starts
with the tag. -/
theorem MessageUserLevel_UnmarshalBinary_eval (m0 : MessageUserLevel)
    (a1 : Byte) :
    m0.UnmarshalBinary [MessageTypeUserLevel, a1] =
      .ok ⟨a1⟩ := by
  with_unfolding_all rfl

/-- Marshalling what `MessageUserLevel.UnmarshalBinary` accepted gives the payload back. -/
theorem MessageUserLevel_marshal_of_unmarshal (m0 m : MessageUserLevel) (data : List Byte)
    (h : m0.UnmarshalBinary data = .ok m) : m.MarshalBinary = .ok data := by
  by_cases hl : len data = 2
  · obtain ⟨a0, a1, rfl⟩ := exists_of_len_2 data hl
    by_cases ht : a0 = MessageTypeUserLevel
    · subst ht
      rw [MessageUserLevel_UnmarshalBinary_eval] at h
      cases h
      simp only [MessageUserLevel.MarshalBinary, MessageUserLevel.MessageType, pure, Except.pure,
        Uint16.split_join_hi, Uint16.split_join_lo]
    · simp only [MessageUserLevel.UnmarshalBinary, MessageUserLevel.ExpectedLength, MessageUserLevel.MessageType,
        messageSanityCheck_cons _ _ _ _ hl, if_pos ht, bind, Except.bind] at h
      cases h
  · simp only [MessageUserLevel.UnmarshalBinary, MessageUserLevel.ExpectedLength, MessageUserLevel.MessageType,
      messageSanityCheck_wrongLength _ _ _ hl, bind, Except.bind] at h
    cases h

/-- Unmarshalling what `MessageUserLevel.MarshalBinary` wrote gives the message back,
whatever the receiver held. -/
theorem MessageUserLevel_unmarshal_marshal (m0 m : MessageUserLevel) :
    ∃ p, m.MarshalBinary = .ok p ∧ len p = 2 ∧ m0.UnmarshalBinary p = .ok m := by
  cases m with
  | mk x0 =>
    refine ⟨_, rfl, rfl, ?_⟩
    simp only [MessageUserLevel.MessageType]
    rw [MessageUserLevel_UnmarshalBinary_eval]

/-- What `MessageEndWorkout.UnmarshalBinary` reads from a payload of 10 bytes that starts
with the tag. -/
theorem MessageEndWorkout_UnmarshalBinary_eval (m0 : MessageEndWorkout)
    (a1 a2 a3 a4 a5 a6 a7 a8 a9 : Byte) :
    m0.UnmarshalBinary [MessageTypeEndWorkout, a1, a2, a3, a4, a5, a6, a7, a8, a9] =
      .ok ⟨((uint16 a1).shl 8).add (uint16 a2), ((uint16 a3).shl 8).add (uint16 a4),
        ((uint16 a5).shl 8).add (uint16 a6), a7, a8, a9⟩ := by
  with_unfolding_all rfl

/-- Marshalling what `MessageEndWorkout.UnmarshalBinary` accepted gives the payload back. -/
theorem MessageEndWorkout_marshal_of_unmarshal (m0 m : MessageEndWorkout) (data : List Byte)
    (h : m0.UnmarshalBinary data = .ok m) : m.MarshalBinary = .ok data := by
  by_cases hl : len data = 10
  · obtain ⟨a0, a1, a2, a3, a4, a5, a6, a7, a8, a9, rfl⟩ := exists_of_len_10 data hl
    by_cases ht : a0 = MessageTypeEndWorkout
    · subst ht
      rw [MessageEndWorkout_UnmarshalBinary_eval] at h
      cases h
      simp only [MessageEndWorkout.MarshalBinary, MessageEndWorkout.MessageType, pure, Except.pure,
        Uint16.split_join_hi, Uint16.split_join_lo]
    · simp only [MessageEndWorkout.UnmarshalBinary, MessageEndWorkout.ExpectedLength, MessageEndWorkout.MessageType,
        messageSanityCheck_cons _ _ _ _ hl, if_pos ht, bind, Except.bind] at h
      cases h
  · simp only [MessageEndWorkout.UnmarshalBinary, MessageEndWorkout.ExpectedLength, MessageEndWorkout.MessageType,
      messageSanityCheck_wrongLength _ _ _ hl, bind, Except.bind] at h
    cases h

/-- Unmarshalling what `MessageEndWorkout.MarshalBinary` wrote gives the message back,
whatever the receiver held. -/
theorem MessageEndWorkout_unmarshal_marshal (m0 m : MessageEndWorkout) :
    ∃ p, m.MarshalBinary = .ok p ∧ len p = 10 ∧ m0.UnmarshalBinary p = .ok m := by
  cases m with
  | mk x0 x1 x2 x3 x4 x5 =>
    refine ⟨_, rfl, rfl, ?_⟩
    simp only [MessageEndWorkout.MessageType]
    rw [MessageEndWorkout_UnmarshalBinary_eval]
    simp only [Uint16.join_split]

/-- What `MessageProgramGraphics.UnmarshalBinary` reads from a payload of 19 bytes that starts
with the tag. -/
theorem MessageProgramGraphics_UnmarshalBinary_eval (m0 : MessageProgramGraphics)
    (a1 a2 a3 a4 a5 a6 a7 a8 a9 a10 a11 a12 a13 a14 a15 a16 a17 a18 : Byte) :
    m0.UnmarshalBinary [MessageTypeProgramGraphics, a1, a2, a3, a4, a5, a6, a7, a8, a9, a10, a11,
      a12, a13, a14, a15, a16, a17, a18] =
      .ok ⟨
        ![a1, a2, a3, a4, a5, a6, a7, a8, a9, a10, a11, a12, a13, a14, a15, a16, a17, a18]⟩ := by
  with_unfolding_all rfl

/-- Marshalling what `MessageProgramGraphics.UnmarshalBinary` accepted gives the payload back. -/
theorem MessageProgramGraphics_marshal_of_unmarshal (m0 m : MessageProgramGraphics) (data : List Byte)
    (h : m0.UnmarshalBinary data = .ok m) : m.MarshalBinary = .ok data := by
  by_cases hl : len data = 19
  · obtain ⟨a0, a1, a2, a3, a4, a5, a6, a7, a8, a9, a10, a11, a12, a13, a14, a15, a16, a17, a18, rfl⟩ := exists_of_len_19 data hl
    by_cases ht : a0 = MessageTypeProgramGraphics
    · subst ht
      rw [MessageProgramGraphics_UnmarshalBinary_eval] at h
      cases h
      with_unfolding_all rfl
    · simp only [MessageProgramGraphics.UnmarshalBinary, MessageProgramGraphics.ExpectedLength, MessageProgramGraphics.MessageType,
        messageSanityCheck_cons _ _ _ _ hl, if_pos ht, bind, Except.bind] at h
      cases h
  · simp only [MessageProgramGraphics.UnmarshalBinary, MessageProgramGraphics.ExpectedLength, MessageProgramGraphics.MessageType,
      messageSanityCheck_wrongLength _ _ _ hl, bind, Except.bind] at h
    cases h

/-- Unmarshalling what `MessageProgramGraphics.MarshalBinary` wrote gives the message back,
whatever the receiver held. -/
theorem MessageProgramGraphics_unmarshal_marshal (m0 m : MessageProgramGraphics) :
    ∃ p, m.MarshalBinary = .ok p ∧ len p = 19 ∧ m0.UnmarshalBinary p = .ok m := by
  cases m with
  | mk x0 =>
    refine ⟨_, rfl, rfl, ?_⟩
    simp only [MessageProgramGraphics.MessageType]
    rw [MessageProgramGraphics_UnmarshalBinary_eval]
    rw [graph_eta]

/-- What `MessageCommand.UnmarshalBinary` reads from a payload of 2 bytes that starts
with the tag. -/
theorem MessageCommand_UnmarshalBinary_eval (m0 : MessageCommand)
    (a1 : Byte) :
    m0.UnmarshalBinary [MessageTypeCommand, a1] =
      .ok ⟨a1⟩ := by
  with_unfolding_all rfl

/-- Marshalling what `MessageCommand.UnmarshalBinary` accepted gives the payload back. -/
theorem MessageCommand_marshal_of_unmarshal (m0 m : MessageCommand) (data : List Byte)
    (h : m0.UnmarshalBinary data = .ok m) : m.MarshalBinary = .ok data := by
  by_cases hl : len data = 2
  · obtain ⟨a0, a1, rfl⟩ := exists_of_len_2 data hl
    by_cases ht : a0 = MessageTypeCommand
    · subst ht
      rw [MessageCommand_UnmarshalBinary_eval] at h
      cases h
      simp only [MessageCommand.MarshalBinary, MessageCommand.MessageType, pure, Except.pure,
        Uint16.split_join_hi, Uint16.split_join_lo]
    · simp only [MessageCommand.UnmarshalBinary, MessageCommand.ExpectedLength, MessageCommand.MessageType,
        messageSanityCheck_cons _ _ _ _ hl, if_pos ht, bind, Except.bind] at h
      cases h
  · simp only [MessageCommand.UnmarshalBinary, MessageCommand.ExpectedLength, MessageCommand.MessageType,
      messageSanityCheck_wrongLength _ _ _ hl, bind, Except.bind] at h
    cases h

/-- Unmarshalling what `MessageCommand.MarshalBinary` wrote gives the message back,
whatever the receiver held. -/
theorem MessageCommand_unmarshal_marshal (m0 m : MessageCommand) :
    ∃ p, m.MarshalBinary = .ok p ∧ len p = 2 ∧ m0.UnmarshalBinary p = .ok m := by
  cases m with
  | mk x0 =>
    refine ⟨_, rfl, rfl, ?_⟩
    simp only [MessageCommand.MessageType]
    rw [MessageCommand_UnmarshalBinary_eval]

/-- What `MessageProgram.UnmarshalBinary` reads from a payload of 3 bytes that starts
with the tag. -/
theorem MessageProgram_UnmarshalBinary_eval (m0 : MessageProgram)
    (a1 a2 : Byte) :
    m0.UnmarshalBinary [MessageTypeProgram, a1, a2] =
      .ok ⟨((uint16 a1).shl 8).add (uint16 a2)⟩ := by
  with_unfolding_all rfl

/-- Marshalling what `MessageProgram.UnmarshalBinary` accepted gives the payload back. -/
theorem MessageProgram_marshal_of_unmarshal (m0 m : MessageProgram) (data : List Byte)
    (h : m0.UnmarshalBinary data = .ok m) : m.MarshalBinary = .ok data := by
  by_cases hl : len data = 3
  · obtain ⟨a0, a1, a2, rfl⟩ := exists_of_len_3 data hl
    by_cases ht : a0 = MessageTypeProgram
    · subst ht
      rw [MessageProgram_UnmarshalBinary_eval] at h
      cases h
      simp only [MessageProgram.MarshalBinary, MessageProgram.MessageType, pure, Except.pure,
        Uint16.split_join_hi, Uint16.split_join_lo]
    · simp only [MessageProgram.UnmarshalBinary, MessageProgram.ExpectedLength, MessageProgram.MessageType,
        messageSanityCheck_cons _ _ _ _ hl, if_pos ht, bind, Except.bind] at h
      cases h
  · simp only [MessageProgram.UnmarshalBinary, MessageProgram.ExpectedLength, MessageProgram.MessageType,
      messageSanityCheck_wrongLength _ _ _ hl, bind, Except.bind] at h
    cases h

/-- Unmarshalling what `MessageProgram.MarshalBinary` wrote gives the message back,
whatever the receiver held. -/
theorem MessageProgram_unmarshal_marshal (m0 m : MessageProgram) :
    ∃ p, m.MarshalBinary = .ok p ∧ len p = 3 ∧ m0.UnmarshalBinary p = .ok m := by
  cases m with
  | mk x0 =>
    refine ⟨_, rfl, rfl, ?_⟩
    simp only [MessageProgram.MessageType]
    rw [MessageProgram_UnmarshalBinary_eval]
    simp only [Uint16.join_split]
/-! ## The interface value: dispatch to the variants -/

theorem Message.ExpectedLength_bounds (m : Message) :
    2 ≤ m.ExpectedLength ∧ m.ExpectedLength ≤ 19 := by
  cases m <;>
    simp [Message.ExpectedLength,
      MessageDeviceInfo.ExpectedLength, MessageWorkoutMode.ExpectedLength,
      MessageSetWorkoutMode.ExpectedLength, MessageHeartRateType.ExpectedLength,
      MessageWorkoutData.ExpectedLength, MessageUserProfile.ExpectedLength,
      MessageACK.ExpectedLength, MessageWorkoutTarget.ExpectedLength,
      MessageMaxIncline.ExpectedLength, MessageErrorCode.ExpectedLength,
      MessageSpeed.ExpectedLength, MessageIncline.ExpectedLength, MessageLevel.ExpectedLength,
      MessageRPM.ExpectedLength, MessageHeartRate.ExpectedLength,
      MessageTargetHeartRate.ExpectedLength, MessageMaxSpeed.ExpectedLength,
      MessageMaxLevel.ExpectedLength, MessageUserIncline.ExpectedLength,
      MessageUserLevel.ExpectedLength, MessageEndWorkout.ExpectedLength,
      MessageProgramGraphics.ExpectedLength, MessageCommand.ExpectedLength,
      MessageProgram.ExpectedLength]

/-- No variant fails to marshal, and none writes more than nineteen bytes. -/
theorem Message.MarshalBinary_ok (m : Message) :
    ∃ p, m.MarshalBinary = .ok p ∧ 1 ≤ p.length ∧ p.length ≤ 19 := by
  cases m <;> exact ⟨_, rfl, by simp, by simp⟩

/-- Marshalling the message that `UnmarshalBinary` returned gives the payload
back, for every variant but `DeviceInfo`, when the reserved byte of a
`WorkoutTarget` payload is zero and an `ACK` payload ends with 0x4F 0x4B. -/
theorem Message.marshal_of_unmarshal (m0 m : Message) (data : List Byte)
    (h : m0.UnmarshalBinary data = .ok m)
    (hDI : m0.MessageType ≠ MessageTypeDeviceInfo)
    (hWT : m0.MessageType = MessageTypeWorkoutTarget → data[2]? = some 0)
    (hACK : m0.MessageType = MessageTypeACK → data[2]? = some 0x4f ∧ data[3]? = some 0x4b) :
    m.MarshalBinary = .ok data := by
  cases m0 with
  | DeviceInfo x =>
    exact absurd rfl hDI
  | WorkoutMode x =>
    cases hu : x.UnmarshalBinary data with
    | error e =>
      simp only [Message.UnmarshalBinary, hu, bind, Except.bind] at h
      cases h
    | ok v =>
      simp only [Message.UnmarshalBinary, hu, bind, Except.bind, pure, Except.pure] at h
      cases h
      exact MessageWorkoutMode_marshal_of_unmarshal x v data hu
  | SetWorkoutMode x =>
    cases hu : x.UnmarshalBinary data with
    | error e =>
      simp only [Message.UnmarshalBinary, hu, bind, Except.bind] at h
      cases h
    | ok v =>
      simp only [Message.UnmarshalBinary, hu, bind, Except.bind, pure, Except.pure] at h
      cases h
      exact MessageSetWorkoutMode_marshal_of_unmarshal x v data hu
  | HeartRateType x =>
    cases hu : x.UnmarshalBinary data with
    | error e =>
      simp only [Message.UnmarshalBinary, hu, bind, Except.bind] at h
      cases h
    | ok v =>
      simp only [Message.UnmarshalBinary, hu, bind, Except.bind, pure, Except.pure] at h
      cases h
      exact MessageHeartRateType_marshal_of_unmarshal x v data hu
  | WorkoutData x =>
    cases hu : x.UnmarshalBinary data with
    | error e =>
      simp only [Message.UnmarshalBinary, hu, bind, Except.bind] at h
      cases h
    | ok v =>
      simp only [Message.UnmarshalBinary, hu, bind, Except.bind, pure, Except.pure] at h
      cases h
      exact MessageWorkoutData_marshal_of_unmarshal x v data hu
  | UserProfile x =>
    cases hu : x.UnmarshalBinary data with
    | error e =>
      simp only [Message.UnmarshalBinary, hu, bind, Except.bind] at h
      cases h
    | ok v =>
      simp only [Message.UnmarshalBinary, hu, bind, Except.bind, pure, Except.pure] at h
      cases h
      exact MessageUserProfile_marshal_of_unmarshal x v data hu
  | ACK x =>
    cases hu : x.UnmarshalBinary data with
    | error e =>
      simp only [Message.UnmarshalBinary, hu, bind, Except.bind] at h
      cases h
    | ok v =>
      simp only [Message.UnmarshalBinary, hu, bind, Except.bind, pure, Except.pure] at h
      cases h
      exact MessageACK_marshal_of_unmarshal x v data hu (hACK rfl)
  | WorkoutTarget x =>
    cases hu : x.UnmarshalBinary data with
    | error e =>
      simp only [Message.UnmarshalBinary, hu, bind, Except.bind] at h
      cases h
    | ok v =>
      simp only [Message.UnmarshalBinary, hu, bind, Except.bind, pure, Except.pure] at h
      cases h
      exact MessageWorkoutTarget_marshal_of_unmarshal x v data hu (hWT rfl)
  | MaxIncline x =>
    cases hu : x.UnmarshalBinary data with
    | error e =>
      simp only [Message.UnmarshalBinary, hu, bind, Except.bind] at h
      cases h
    | ok v =>
      simp only [Message.UnmarshalBinary, hu, bind, Except.bind, pure, Except.pure] at h
      cases h
      exact MessageMaxIncline_marshal_of_unmarshal x v data hu
  | ErrorCode x =>
    cases hu : x.UnmarshalBinary data with
    | error e =>
      simp only [Message.UnmarshalBinary, hu, bind, Except.bind] at h
      cases h
    | ok v =>
      simp only [Message.UnmarshalBinary, hu, bind, Except.bind, pure, Except.pure] at h
      cases h
      exact MessageErrorCode_marshal_of_unmarshal x v data hu
  | Speed x =>
    cases hu : x.UnmarshalBinary data with
    | error e =>
      simp only [Message.UnmarshalBinary, hu, bind, Except.bind] at h
      cases h
    | ok v =>
      simp only [Message.UnmarshalBinary, hu, bind, Except.bind, pure, Except.pure] at h
      cases h
      exact MessageSpeed_marshal_of_unmarshal x v data hu
  | Incline x =>
    cases hu : x.UnmarshalBinary data with
    | error e =>
      simp only [Message.UnmarshalBinary, hu, bind, Except.bind] at h
      cases h
    | ok v =>
      simp only [Message.UnmarshalBinary, hu, bind, Except.bind, pure, Except.pure] at h
      cases h
      exact MessageIncline_marshal_of_unmarshal x v data hu
  | Level x =>
    cases hu : x.UnmarshalBinary data with
    | error e =>
      simp only [Message.UnmarshalBinary, hu, bind, Except.bind] at h
      cases h
    | ok v =>
      simp only [Message.UnmarshalBinary, hu, bind, Except.bind, pure, Except.pure] at h
      cases h
      exact MessageLevel_marshal_of_unmarshal x v data hu
  | RPM x =>
    cases hu : x.UnmarshalBinary data with
    | error e =>
      simp only [Message.UnmarshalBinary, hu, bind, Except.bind] at h
      cases h
    | ok v =>
      simp only [Message.UnmarshalBinary, hu, bind, Except.bind, pure, Except.pure] at h
      cases h
      exact MessageRPM_marshal_of_unmarshal x v data hu
  | HeartRate x =>
    cases hu : x.UnmarshalBinary data with
    | error e =>
      simp only [Message.UnmarshalBinary, hu, bind, Except.bind] at h
      cases h
    | ok v =>
      simp only [Message.UnmarshalBinary, hu, bind, Except.bind, pure, Except.pure] at h
      cases h
      exact MessageHeartRate_marshal_of_unmarshal x v data hu
  | TargetHeartRate x =>
    cases hu : x.UnmarshalBinary data with
    | error e =>
      simp only [Message.UnmarshalBinary, hu, bind, Except.bind] at h
      cases h
    | ok v =>
      simp only [Message.UnmarshalBinary, hu, bind, Except.bind, pure, Except.pure] at h
      cases h
      exact MessageTargetHeartRate_marshal_of_unmarshal x v data hu
  | MaxSpeed x =>
    cases hu : x.UnmarshalBinary data with
    | error e =>
      simp only [Message.UnmarshalBinary, hu, bind, Except.bind] at h
      cases h
    | ok v =>
      simp only [Message.UnmarshalBinary, hu, bind, Except.bind, pure, Except.pure] at h
      cases h
      exact MessageMaxSpeed_marshal_of_unmarshal x v data hu
  | MaxLevel x =>
    cases hu : x.UnmarshalBinary data with
    | error e =>
      simp only [Message.UnmarshalBinary, hu, bind, Except.bind] at h
      cases h
    | ok v =>
      simp only [Message.UnmarshalBinary, hu, bind, Except.bind, pure, Except.pure] at h
      cases h
      exact MessageMaxLevel_marshal_of_unmarshal x v data hu
  | UserIncline x =>
    cases hu : x.UnmarshalBinary data with
    | error e =>
      simp only [Message.UnmarshalBinary, hu, bind, Except.bind] at h
      cases h
    | ok v =>
      simp only [Message.UnmarshalBinary, hu, bind, Except.bind, pure, Except.pure] at h
      cases h
      exact MessageUserIncline_marshal_of_unmarshal x v data hu
  | UserLevel x =>
    cases hu : x.UnmarshalBinary data with
    | error e =>
      simp only [Message.UnmarshalBinary, hu, bind, Except.bind] at h
      cases h
    | ok v =>
      simp only [Message.UnmarshalBinary, hu, bind, Except.bind, pure, Except.pure] at h
      cases h
      exact MessageUserLevel_marshal_of_unmarshal x v data hu
  | EndWorkout x =>
    cases hu : x.UnmarshalBinary data with
    | error e =>
      simp only [Message.UnmarshalBinary, hu, bind, Except.bind] at h
      cases h
    | ok v =>
      simp only [Message.UnmarshalBinary, hu, bind, Except.bind, pure, Except.pure] at h
      cases h
      exact MessageEndWorkout_marshal_of_unmarshal x v data hu
  | ProgramGraphics x =>
    cases hu : x.UnmarshalBinary data with
    | error e =>
      simp only [Message.UnmarshalBinary, hu, bind, Except.bind] at h
      cases h
    | ok v =>
      simp only [Message.UnmarshalBinary, hu, bind, Except.bind, pure, Except.pure] at h
      cases h
      exact MessageProgramGraphics_marshal_of_unmarshal x v data hu
  | Command x =>
    cases hu : x.UnmarshalBinary data with
    | error e =>
      simp only [Message.UnmarshalBinary, hu, bind, Except.bind] at h
      cases h
    | ok v =>
      simp only [Message.UnmarshalBinary, hu, bind, Except.bind, pure, Except.pure] at h
      cases h
      exact MessageCommand_marshal_of_unmarshal x v data hu
  | Program x =>
    cases hu : x.UnmarshalBinary data with
    | error e =>
      simp only [Message.UnmarshalBinary, hu, bind, Except.bind] at h
      cases h
    | ok v =>
      simp only [Message.UnmarshalBinary, hu, bind, Except.bind, pure, Except.pure] at h
      cases h
      exact MessageProgram_marshal_of_unmarshal x v data hu

/-- Parsing the frame that `EncodeMessage` wrote for a `MessageWorkoutMode` gives it back. -/
theorem MessageWorkoutMode_parse_encode (x : MessageWorkoutMode) :
    ∃ f, EncodeMessage (Message.WorkoutMode x) = .ok f ∧ ParseMessage f = .ok (Message.WorkoutMode x) := by
  cases x with
  | mk x0 =>
    exact ⟨_, rfl, by with_unfolding_all rfl⟩

/-- Parsing the frame that `EncodeMessage` wrote for a `MessageSetWorkoutMode` gives it back. -/
theorem MessageSetWorkoutMode_parse_encode (x : MessageSetWorkoutMode) :
    ∃ f, EncodeMessage (Message.SetWorkoutMode x) = .ok f ∧ ParseMessage f = .ok (Message.SetWorkoutMode x) := by
  cases x with
  | mk x0 =>
    exact ⟨_, rfl, by with_unfolding_all rfl⟩

/-- Parsing the frame that `EncodeMessage` wrote for a `MessageHeartRateType` gives it back. -/
theorem MessageHeartRateType_parse_encode (x : MessageHeartRateType) :
    ∃ f, EncodeMessage (Message.HeartRateType x) = .ok f ∧ ParseMessage f = .ok (Message.HeartRateType x) := by
  cases x with
  | mk x0 x1 =>
    exact ⟨_, rfl, by with_unfolding_all rfl⟩

/-- Parsing the frame that `EncodeMessage` wrote for a `MessageWorkoutData` gives it back. -/
theorem MessageWorkoutData_parse_encode (x : MessageWorkoutData) :
    ∃ f, EncodeMessage (Message.WorkoutData x) = .ok f ∧ ParseMessage f = .ok (Message.WorkoutData x) := by
  cases x with
  | mk x0 x1 x2 x3 x4 x5 x6 x7 x8 x9 x10 x11 =>
    refine ⟨_, rfl, Eq.trans (b := .ok (.WorkoutData ⟨x0,
      x1,
      ((uint16 (Uint16.shr x2 8).toByte).shl 8).add (uint16 (Uint16.toByte x2)),
      ((uint16 (Uint16.shr x3 8).toByte).shl 8).add (uint16 (Uint16.toByte x3)),
      x4,
      x5,
      x6,
      x7,
      x8,
      x9,
      x10,
      x11⟩))
      (by with_unfolding_all rfl) ?_⟩
    simp only [Uint16.join_split]

/-- Parsing the frame that `EncodeMessage` wrote for a `MessageUserProfile` gives it back. -/
theorem MessageUserProfile_parse_encode (x : MessageUserProfile) :
    ∃ f, EncodeMessage (Message.UserProfile x) = .ok f ∧ ParseMessage f = .ok (Message.UserProfile x) := by
  cases x with
  | mk x0 x1 x2 x3 =>
    refine ⟨_, rfl, Eq.trans (b := .ok (.UserProfile ⟨x0,
      x1,
      ((uint16 (Uint16.shr x2 8).toByte).shl 8).add (uint16 (Uint16.toByte x2)),
      x3⟩))
      (by with_unfolding_all rfl) ?_⟩
    simp only [Uint16.join_split]

/-- Parsing the frame that `EncodeMessage` wrote for a `MessageACK` gives it back. -/
theorem MessageACK_parse_encode (x : MessageACK) :
    ∃ f, EncodeMessage (Message.ACK x) = .ok f ∧ ParseMessage f = .ok (Message.ACK x) := by
  cases x with
  | mk x0 =>
    exact ⟨_, rfl, by with_unfolding_all rfl⟩

/-- Parsing the frame that `EncodeMessage` wrote for a `MessageWorkoutTarget` gives it back. -/
theorem MessageWorkoutTarget_parse_encode (x : MessageWorkoutTarget) :
    ∃ f, EncodeMessage (Message.WorkoutTarget x) = .ok f ∧ ParseMessage f = .ok (Message.WorkoutTarget x) := by
  cases x with
  | mk x0 x1 =>
    refine ⟨_, rfl, Eq.trans (b := .ok (.WorkoutTarget ⟨x0,
      ((uint16 (Uint16.shr x1 8).toByte).shl 8).add (uint16 (Uint16.toByte x1))⟩))
      (by with_unfolding_all rfl) ?_⟩
    simp only [Uint16.join_split]

/-- Parsing the frame that `EncodeMessage` wrote for a `MessageMaxIncline` gives it back. -/
theorem MessageMaxIncline_parse_encode (x : MessageMaxIncline) :
    ∃ f, EncodeMessage (Message.MaxIncline x) = .ok f ∧ ParseMessage f = .ok (Message.MaxIncline x) := by
  cases x with
  | mk x0 =>
    exact ⟨_, rfl, by with_unfolding_all rfl⟩

/-- Parsing the frame that `EncodeMessage` wrote for a `MessageErrorCode` gives it back. -/
theorem MessageErrorCode_parse_encode (x : MessageErrorCode) :
    ∃ f, EncodeMessage (Message.ErrorCode x) = .ok f ∧ ParseMessage f = .ok (Message.ErrorCode x) := by
  cases x with
  | mk x0 =>
    exact ⟨_, rfl, by with_unfolding_all rfl⟩

/-- Parsing the frame that `EncodeMessage` wrote for a `MessageSpeed` gives it back. -/
theorem MessageSpeed_parse_encode (x : MessageSpeed) :
    ∃ f, EncodeMessage (Message.Speed x) = .ok f ∧ ParseMessage f = .ok (Message.Speed x) := by
  cases x with
  | mk x0 =>
    exact ⟨_, rfl, by with_unfolding_all rfl⟩

/-- Parsing the frame that `EncodeMessage` wrote for a `MessageIncline` gives it back. -/
theorem MessageIncline_parse_encode (x : MessageIncline) :
    ∃ f, EncodeMessage (Message.Incline x) = .ok f ∧ ParseMessage f = .ok (Message.Incline x) := by
  cases x with
  | mk x0 =>
    exact ⟨_, rfl, by with_unfolding_all rfl⟩

/-- Parsing the frame that `EncodeMessage` wrote for a `MessageLevel` gives it back. -/
theorem MessageLevel_parse_encode (x : MessageLevel) :
    ∃ f, EncodeMessage (Message.Level x) = .ok f ∧ ParseMessage f = .ok (Message.Level x) := by
  cases x with
  | mk x0 =>
    exact ⟨_, rfl, by with_unfolding_all rfl⟩

/-- Parsing the frame that `EncodeMessage` wrote for a `MessageRPM` gives it back. -/
theorem MessageRPM_parse_encode (x : MessageRPM) :
    ∃ f, EncodeMessage (Message.RPM x) = .ok f ∧ ParseMessage f = .ok (Message.RPM x) := by
  cases x with
  | mk x0 =>
    exact ⟨_, rfl, by with_unfolding_all rfl⟩

/-- Parsing the frame that `EncodeMessage` wrote for a `MessageHeartRate` gives it back. -/
theorem MessageHeartRate_parse_encode (x : MessageHeartRate) :
    ∃ f, EncodeMessage (Message.HeartRate x) = .ok f ∧ ParseMessage f = .ok (Message.HeartRate x) := by
  cases x with
  | mk x0 =>
    exact ⟨_, rfl, by with_unfolding_all rfl⟩

/-- Parsing the frame that `EncodeMessage` wrote for a `MessageTargetHeartRate` gives it back. -/
theorem MessageTargetHeartRate_parse_encode (x : MessageTargetHeartRate) :
    ∃ f, EncodeMessage (Message.TargetHeartRate x) = .ok f ∧ ParseMessage f = .ok (Message.TargetHeartRate x) := by
  cases x with
  | mk x0 =>
    exact ⟨_, rfl, by with_unfolding_all rfl⟩

/-- Parsing the frame that `EncodeMessage` wrote for a `MessageMaxSpeed` gives it back. -/
theorem MessageMaxSpeed_parse_encode (x : MessageMaxSpeed) :
    ∃ f, EncodeMessage (Message.MaxSpeed x) = .ok f ∧ ParseMessage f = .ok (Message.MaxSpeed x) := by
  cases x with
  | mk x0 =>
    exact ⟨_, rfl, by with_unfolding_all rfl⟩

/-- Parsing the frame that `EncodeMessage` wrote for a `MessageMaxLevel` gives it back. -/
theorem MessageMaxLevel_parse_encode (x : MessageMaxLevel) :
    ∃ f, EncodeMessage (Message.MaxLevel x) = .ok f ∧ ParseMessage f = .ok (Message.MaxLevel x) := by
  cases x with
  | mk x0 =>
    exact ⟨_, rfl, by with_unfolding_all rfl⟩

/-- Parsing the frame that `EncodeMessage` wrote for a `MessageUserLevel` gives it back. -/
theorem MessageUserLevel_parse_encode (x : MessageUserLevel) :
    ∃ f, EncodeMessage (Message.UserLevel x) = .ok f ∧ ParseMessage f = .ok (Message.UserLevel x) := by
  cases x with
  | mk x0 =>
    exact ⟨_, rfl, by with_unfolding_all rfl⟩

/-- Parsing the frame that `EncodeMessage` wrote for a `MessageEndWorkout` gives it back. -/
theorem MessageEndWorkout_parse_encode (x : MessageEndWorkout) :
    ∃ f, EncodeMessage (Message.EndWorkout x) = .ok f ∧ ParseMessage f = .ok (Message.EndWorkout x) := by
  cases x with
  | mk x0 x1 x2 x3 x4 x5 =>
    refine ⟨_, rfl, Eq.trans (b := .ok (.EndWorkout ⟨((uint16 (Uint16.shr x0 8).toByte).shl 8).add (uint16 (Uint16.toByte x0)),
      ((uint16 (Uint16.shr x1 8).toByte).shl 8).add (uint16 (Uint16.toByte x1)),
      ((uint16 (Uint16.shr x2 8).toByte).shl 8).add (uint16 (Uint16.toByte x2)),
      x3,
      x4,
      x5⟩))
      (by with_unfolding_all rfl) ?_⟩
    simp only [Uint16.join_split]

/-- Parsing the frame that `EncodeMessage` wrote for a `MessageProgramGraphics` gives it back. -/
theorem MessageProgramGraphics_parse_encode (x : MessageProgramGraphics) :
    ∃ f, EncodeMessage (Message.ProgramGraphics x) = .ok f ∧ ParseMessage f = .ok (Message.ProgramGraphics x) := by
  cases x with
  | mk x0 =>
    refine ⟨_, rfl, Eq.trans (b := .ok (.ProgramGraphics ⟨![x0 0, x0 1, x0 2, x0 3, x0 4, x0 5, x0 6, x0 7, x0 8, x0 9, x0 10, x0 11,
        x0 12, x0 13, x0 14, x0 15, x0 16, x0 17]⟩))
      (by with_unfolding_all rfl) ?_⟩
    rw [graph_eta]

/-- Parsing the frame that `EncodeMessage` wrote for a `MessageCommand` gives it back. -/
theorem MessageCommand_parse_encode (x : MessageCommand) :
    ∃ f, EncodeMessage (Message.Command x) = .ok f ∧ ParseMessage f = .ok (Message.Command x) := by
  cases x with
  | mk x0 =>
    exact ⟨_, rfl, by with_unfolding_all rfl⟩

/-- Parsing the frame that `EncodeMessage` wrote for a `MessageProgram` gives it back. -/
theorem MessageProgram_parse_encode (x : MessageProgram) :
    ∃ f, EncodeMessage (Message.Program x) = .ok f ∧ ParseMessage f = .ok (Message.Program x) := by
  cases x with
  | mk x0 =>
    refine ⟨_, rfl, Eq.trans (b := .ok (.Program ⟨((uint16 (Uint16.shr x0 8).toByte).shl 8).add (uint16 (Uint16.toByte x0))⟩))
      (by with_unfolding_all rfl) ?_⟩
    simp only [Uint16.join_split]

/-- Parsing the frame that `EncodeMessage` wrote gives the message back, for
every variant but `DeviceInfo` and `UserIncline`. -/
theorem ParseMessage_EncodeMessage (m : Message)
    (hDI : m.MessageType ≠ MessageTypeDeviceInfo)
    (hUI : m.MessageType ≠ MessageTypeUserIncline) :
    ∃ f, EncodeMessage m = .ok f ∧ ParseMessage f = .ok m := by
  cases m with
  | DeviceInfo x => exact absurd rfl hDI
  | WorkoutMode x => exact MessageWorkoutMode_parse_encode x
  | SetWorkoutMode x => exact MessageSetWorkoutMode_parse_encode x
  | HeartRateType x => exact MessageHeartRateType_parse_encode x
  | WorkoutData x => exact MessageWorkoutData_parse_encode x
  | UserProfile x => exact MessageUserProfile_parse_encode x
  | ACK x => exact MessageACK_parse_encode x
  | WorkoutTarget x => exact MessageWorkoutTarget_parse_encode x
  | MaxIncline x => exact MessageMaxIncline_parse_encode x
  | ErrorCode x => exact MessageErrorCode_parse_encode x
  | Speed x => exact MessageSpeed_parse_encode x
  | Incline x => exact MessageIncline_parse_encode x
  | Level x => exact MessageLevel_parse_encode x
  | RPM x => exact MessageRPM_parse_encode x
  | HeartRate x => exact MessageHeartRate_parse_encode x
  | TargetHeartRate x => exact MessageTargetHeartRate_parse_encode x
  | MaxSpeed x => exact MessageMaxSpeed_parse_encode x
  | MaxLevel x => exact MessageMaxLevel_parse_encode x
  | UserIncline x => exact absurd rfl hUI
  | UserLevel x => exact MessageUserLevel_parse_encode x
  | EndWorkout x => exact MessageEndWorkout_parse_encode x
  | ProgramGraphics x => exact MessageProgramGraphics_parse_encode x
  | Command x => exact MessageCommand_parse_encode x
  | Program x => exact MessageProgram_parse_encode x
/-! ## Well-framed byte strings -/

theorem byte_val_of_le (n : Int) (h0 : 0 ≤ n) (h : n ≤ 255) : ((byte n).val : Int) = n := by
  unfold byte
  simp only
  omega

theorem byte_val (n : Int) : ((byte n).val : Int) = n % 256 := by
  unfold byte
  simp only
  omega

theorem getLast?_frame (a b t z : Byte) (rest : List Byte) :
    (a :: b :: t :: (rest ++ [z])).getLast? = some z := by
  have h : a :: b :: t :: (rest ++ [z]) = (a :: b :: t :: rest) ++ [z] := by simp
  rw [h, List.getLast?_append]
  simp

/-- A well-framed byte string is `0x5B, n, payload…, 0x5D` with a payload of
`n` bytes, `1 ≤ n ≤ 255`. -/
theorem WellFramed.frame {data : List Byte} (h : WellFramed data) :
    ∃ t rest, data = startOfMessage :: byte (len (t :: rest)) :: t :: (rest ++ [endOfMessage])
      ∧ len (t :: rest) ≤ 255 := by
  obtain ⟨hlen, h0, hz, h1⟩ := h
  obtain ⟨a, b, t, rest, z, rfl⟩ := frame_decomp data hlen
  rw [getLast?_frame] at hz
  rw [len_frame] at h1
  simp only [List.getElem?_cons_zero, List.getElem?_cons_succ, Option.some.injEq,
    Option.map_some'] at h0 h1 hz
  have hb := b.isLt
  have hn := len_nonneg (t :: rest)
  have hle : len (t :: rest) ≤ 255 := by omega
  refine ⟨t, rest, ?_, hle⟩
  have hbb : b = byte (len (t :: rest)) := by
    apply Fin.ext
    have := byte_val_of_le _ hn hle
    omega
  subst h0 hz
  rw [← hbb]
  rfl

/-- The framing check accepts every well-framed byte string. -/
theorem sanityCheckRecv_frame_ok (t : Byte) (rest : List Byte) :
    sanityCheckRecv (startOfMessage :: byte (len (t :: rest)) :: t :: (rest ++ [endOfMessage]))
      = .ok () := by
  rw [sanityCheckRecv_frame]
  simp

/-- On a frame `0x5B, n mod 256, payload…, 0x5D` the result of `ParseMessage`
is decided by the payload alone. -/
theorem ParseMessage_frame_ok (t : Byte) (rest : List Byte) :
    ParseMessage (startOfMessage :: byte (len (t :: rest)) :: t :: (rest ++ [endOfMessage])) =
      match MessageType.Create t with
      | none => .error (.err (.unknownMessageId t.val (t :: rest)))
      | some msg => msg.UnmarshalBinary (t :: rest) := by
  rw [ParseMessage_frame, sanityCheckRecv_frame_ok]

/-! ## The closed tag set, continued -/

set_option maxRecDepth 100000 in
/-- For a tag outside the closed set `Create` returns nil. -/
theorem Create_none_of_not_mem :
    ∀ t : Byte, t ∉ closedTagSet → MessageType.Create t = none := by
  decide

theorem Create_some_of_specExpectedLength (t : Byte) (n : Int)
    (h : specExpectedLength t = some n) :
    ∃ msg, MessageType.Create t = some msg ∧ msg.ExpectedLength = n := by
  have hc := Create_expectedLength t
  rw [h] at hc
  cases hm : MessageType.Create t with
  | none => rw [hm] at hc; cases hc
  | some msg =>
    rw [hm] at hc
    simp only [Option.map_some', Option.some.injEq] at hc
    exact ⟨msg, rfl, hc⟩

/-! ## Framing and tag errors -/

/-- The framing check never panics: it accepts, or returns an error that wraps
`ErrInvalidMessage`. -/
theorem sanityCheckRecv_ok_or_invalid (data : List Byte) :
    sanityCheckRecv data = .ok () ∨
      ∃ e, sanityCheckRecv data = .error (.err e) ∧ e.Is .ErrInvalidMessage = true := by
  by_cases hl : len data ≤ 3
  · right
    refine ⟨.recvTooShort (len data) data, ?_, rfl⟩
    simp [sanityCheckRecv, hl, throw, throwThe, MonadExceptOf.throw]
  · obtain ⟨a, b, t, rest, z, rfl⟩ := frame_decomp data (by omega)
    rw [sanityCheckRecv_frame]
    by_cases ha : a = startOfMessage
    · by_cases hz : z = endOfMessage
      · by_cases hb : b = byte (len (t :: rest))
        · left; simp [ha, hz, hb]
        · right
          refine ⟨.recvBadLength b (len (t :: rest)) (a :: b :: t :: (rest ++ [z])), ?_, rfl⟩
          simp [ha, hz, hb]
      · right
        refine ⟨.recvBadEnd endOfMessage z (a :: b :: t :: (rest ++ [z])), ?_, rfl⟩
        simp [ha, hz]
    · right
      refine ⟨.recvBadStart startOfMessage a (a :: b :: t :: (rest ++ [z])), ?_, rfl⟩
      simp [ha]

/-- The framing check accepts exactly the byte strings of more than three
bytes that start with 0x5B, end with 0x5D and whose second byte is the length
minus three reduced modulo 256. -/
theorem sanityCheckRecv_ok_iff (data : List Byte) :
    sanityCheckRecv data = .ok () ↔
      3 < len data ∧ data[0]? = some 0x5B ∧ data.getLast? = some 0x5D ∧
        data[1]? = some (byte (len data - 3)) := by
  by_cases hl : len data ≤ 3
  · constructor
    · intro h
      simp [sanityCheckRecv, hl, throw, throwThe, MonadExceptOf.throw] at h
    · intro h; omega
  · obtain ⟨a, b, t, rest, z, rfl⟩ := frame_decomp data (by omega)
    have h3 : len (a :: b :: t :: (rest ++ [z])) - 3 = len (t :: rest) := by
      rw [len_frame]; omega
    have hgt : 3 < len (a :: b :: t :: (rest ++ [z])) := by omega
    rw [sanityCheckRecv_frame, getLast?_frame, h3]
    simp only [List.getElem?_cons_zero, List.getElem?_cons_succ, Option.some.injEq,
      startOfMessage, endOfMessage, hgt, true_and]
    by_cases ha : a = 0x5B
    · by_cases hz : z = 0x5D
      · by_cases hb : b = byte (len (t :: rest))
        · simp [ha, hz, hb]
        · simp [ha, hz, hb]
      · simp [ha, hz]
    · simp [ha]

/-- Claim C3. A byte string that has fewer than four bytes, or whose first byte
is not 0x5B, or whose last byte is not 0x5D, or whose second byte differs as
an integer from the length minus three, is refused by `ParseMessage`: the
result is no message but an error that wraps `ErrInvalidMessage`. -/
theorem ParseMessage_rejects_bad_framing (data : List Byte)
    (h : len data < 4 ∨ data[0]? ≠ some 0x5B ∨ data.getLast? ≠ some 0x5D ∨
      data[1]?.map (fun b => (b.val : Int)) ≠ some (len data - 3)) :
    ∃ e, ParseMessage data = .error (.err e) ∧ e.Is .ErrInvalidMessage = true := by
  by_cases hl : len data ≤ 3
  · refine ⟨.recvTooShort (len data) data, ?_, rfl⟩
    simp [ParseMessage, sanityCheckRecv, hl, bind, Except.bind, throw, throwThe,
      MonadExceptOf.throw]
  · obtain ⟨a, b, t, rest, z, rfl⟩ := frame_decomp data (by omega)
    rw [ParseMessage_frame]
    rcases sanityCheckRecv_ok_or_invalid (a :: b :: t :: (rest ++ [z])) with hs | ⟨e, hs, he⟩
    · -- the framing check passed: the payload has 256 bytes or more
      have hiff := (sanityCheckRecv_ok_iff _).mp hs
      obtain ⟨_, h0, hz, h1⟩ := hiff
      have hbig : 255 < len (t :: rest) := by
        rcases h with h | h | h | h
        · omega
        · exact absurd h0 h
        · exact absurd hz h
        · rw [h1] at h
          simp only [Option.map_some', ne_eq, Option.some.injEq] at h
          by_contra hle
          apply h
          rw [len_frame] at *
          have hn := len_nonneg (t :: rest)
          have := byte_val_of_le (len (t :: rest) + 3 - 3) (by omega) (by omega)
          omega
      rw [hs]
      cases hc : MessageType.Create t with
      | none => exact ⟨_, rfl, rfl⟩
      | some msg =>
        have hb := Message.ExpectedLength_bounds msg
        simp only
        rw [Message.UnmarshalBinary_wrongLength msg _ (by omega)]
        exact ⟨_, rfl, rfl⟩
    · rw [hs]
      exact ⟨e, rfl, he⟩

/-- The witness of claim C3: a frame whose end marker is wrong. -/
theorem ParseMessage_rejects_bad_framing_witness :
    ∃ e, ParseMessage [0x5B, 0x02, 0x03, 0x01, 0x5C] = .error (.err e) ∧
      e.Is .ErrInvalidMessage = true :=
  ParseMessage_rejects_bad_framing [0x5B, 0x02, 0x03, 0x01, 0x5C]
    (Or.inr (Or.inr (Or.inl (by decide))))

/-- Claim C4. A well-framed byte string whose tag byte is not one of the
twenty-four tags of the closed set is refused by `ParseMessage`: the result is
no message but the unknown-message-id error, which wraps `ErrInvalidMessage`. -/
theorem ParseMessage_rejects_unknown_tag (data : List Byte) (t : Byte)
    (hf : WellFramed data) (ht : data[2]? = some t) (hn : t ∉ closedTagSet) :
    ∃ hex, ParseMessage data = .error (.err (.unknownMessageId t.val hex)) ∧
      (Error.unknownMessageId t.val hex).Is .ErrInvalidMessage = true := by
  obtain ⟨t0, rest, rfl, _⟩ := hf.frame
  simp only [List.getElem?_cons_zero, List.getElem?_cons_succ, Option.some.injEq] at ht
  subst ht
  rw [ParseMessage_frame_ok, Create_none_of_not_mem t0 hn]
  exact ⟨_, rfl, rfl⟩

/-- The witness of claim C4: a well-framed byte string with tag 0x01. -/
theorem ParseMessage_rejects_unknown_tag_witness :
    ∃ hex, ParseMessage [0x5B, 0x02, 0x01, 0x00, 0x5D] =
        .error (.err (.unknownMessageId (0x01 : Byte).val hex)) ∧
      (Error.unknownMessageId (0x01 : Byte).val hex).Is .ErrInvalidMessage = true :=
  ParseMessage_rejects_unknown_tag [0x5B, 0x02, 0x01, 0x00, 0x5D] 0x01
    (by decide) (by decide) (by decide)

/-- Claim C5. A well-framed byte string whose tag is in the closed set and whose
payload length differs from the length the table of the specification declares
for that tag is refused by `ParseMessage` with an error that wraps
`ErrInvalidMessage`; and `UnmarshalBinary` of every variant refuses, with an
error that wraps `ErrInvalidMessage`, every payload whose length is not
`ExpectedLength()` or whose first byte is not `MessageType()`. -/
theorem length_or_tag_mismatch_rejected :
    (∀ (data : List Byte) (t : Byte) (n : Int),
        WellFramed data → data[2]? = some t → specExpectedLength t = some n →
        len data - 3 ≠ n →
        ∃ e, ParseMessage data = .error (.err e) ∧ e.Is .ErrInvalidMessage = true) ∧
    (∀ (m : Message) (data : List Byte),
        (len data ≠ m.ExpectedLength ∨ data[0]? ≠ some m.MessageType) →
        ∃ e, m.UnmarshalBinary data = .error (.err e) ∧ e.Is .ErrInvalidMessage = true) := by
  constructor
  · intro data t n hf ht hs hne
    obtain ⟨t0, rest, rfl, _⟩ := hf.frame
    simp only [List.getElem?_cons_zero, List.getElem?_cons_succ, Option.some.injEq] at ht
    subst ht
    obtain ⟨msg, hc, hlen⟩ := Create_some_of_specExpectedLength t0 n hs
    rw [len_frame] at hne
    rw [ParseMessage_frame_ok, hc]
    simp only
    rw [Message.UnmarshalBinary_wrongLength msg _ (by omega)]
    exact ⟨_, rfl, rfl⟩
  · intro m data h
    by_cases hl : len data = m.ExpectedLength
    · have hb := Message.ExpectedLength_bounds m
      cases data with
      | nil => simp [len] at hl; omega
      | cons t rest =>
        have ht : t ≠ m.MessageType := by
          rcases h with h | h
          · exact absurd hl h
          · intro heq; apply h; simp [heq]
        rw [Message.UnmarshalBinary_wrongCommand m t rest hl ht]
        exact ⟨_, rfl, rfl⟩
    · rw [Message.UnmarshalBinary_wrongLength m data hl]
      exact ⟨_, rfl, rfl⟩

/-- The witness of claim C5: a `Speed` frame with a three-byte payload, and a
`Program` receiver given a payload that starts with another tag. -/
theorem length_or_tag_mismatch_rejected_witness :
    (∃ e, ParseMessage [0x5B, 0x03, 0x11, 0x01, 0x02, 0x5D] = .error (.err e) ∧
      e.Is .ErrInvalidMessage = true) ∧
    (∃ e, (Message.Program MessageProgram.zero).UnmarshalBinary [0x09, 0x10, 0x01]
        = .error (.err e) ∧ e.Is .ErrInvalidMessage = true) :=
  ⟨length_or_tag_mismatch_rejected.1 [0x5B, 0x03, 0x11, 0x01, 0x02, 0x5D] 0x11 2
      (by decide) (by decide) (by decide) (by decide),
   length_or_tag_mismatch_rejected.2 (Message.Program MessageProgram.zero) [0x09, 0x10, 0x01]
      (Or.inr (by decide))⟩

/-! ## The ACK trailer -/

/-- What `ParseMessage` does with a well-framed ACK frame: it is refused only
when both trailer bytes are wrong. -/
theorem ParseMessage_ACK_frame (t a b : Byte) :
    ParseMessage [0x5B, 0x04, 0x00, t, a, b, 0x5D] =
      if a ≠ 0x4F ∧ b ≠ 0x4B then .error (.err (.ackTrailer [a, b]))
      else .ok (.ACK ⟨t⟩) := by
  have hf : ([0x5B, 0x04, 0x00, t, a, b, 0x5D] : List Byte) =
      startOfMessage :: byte (len ([0x00, t, a, b] : List Byte)) :: 0x00 ::
        ([t, a, b] ++ [endOfMessage]) := by with_unfolding_all rfl
  have hc : MessageType.Create 0x00 = some (.ACK MessageACK.zero) := by decide
  have hl : len ([0x00, t, a, b] : List Byte) = 4 := by simp [len]
  rw [hf, ParseMessage_frame_ok, hc]
  by_cases ha : a = 0x4F
  · subst ha
    simp only [ne_eq, not_true_eq_false, false_and, if_false]
    with_unfolding_all rfl
  · by_cases hb : b = 0x4B
    · subst hb
      simp [Message.UnmarshalBinary, MessageACK.UnmarshalBinary, MessageACK.ExpectedLength,
        MessageACK.MessageType, messageSanityCheck_cons _ _ _ _ hl, MessageTypeACK, idx, ha,
        bind, Except.bind, pure, Except.pure]
    · simp [Message.UnmarshalBinary, MessageACK.UnmarshalBinary, MessageACK.ExpectedLength,
        MessageACK.MessageType, messageSanityCheck_cons _ _ _ _ hl, MessageTypeACK, idx, slice,
        len, ha, hb, bind, Except.bind, pure, Except.pure, throw, throwThe, MonadExceptOf.throw]

/-- Claim C6 (the code departs from it). The well-framed ACK frame
`5B 04 00 09 4F 00 5D`, whose second trailer byte is not 0x4B, is accepted by
`ParseMessage`, and so is `5B 04 00 09 00 4B 5D`, whose first trailer byte is
not 0x4F: the test of `MessageACK.UnmarshalBinary` refuses a trailer only when
both bytes are wrong. -/
theorem ParseMessage_ACK_accepts_half_trailer :
    ParseMessage [0x5B, 0x04, 0x00, 0x09, 0x4F, 0x00, 0x5D] = .ok (.ACK ⟨0x09⟩) ∧
    ParseMessage [0x5B, 0x04, 0x00, 0x09, 0x00, 0x4B, 0x5D] = .ok (.ACK ⟨0x09⟩) := by
  decide

/-! ## The frame envelope -/

/-- The frame that `EncodeMessage` builds around a marshalled payload. -/
theorem EncodeMessage_of_marshal {μ : Type} [MessageInterface μ] (m : μ) (p : List Byte)
    (h : MessageInterface.MarshalBinary m = .ok p) :
    EncodeMessage m = .ok (startOfMessage :: byte (len p) :: (p ++ [endOfMessage])) := by
  simp [EncodeMessage, h, bind, Except.bind, pure, Except.pure]

/-- The only failure of `EncodeMessage` is the failure of `MarshalBinary`. -/
theorem EncodeMessage_error_iff {μ : Type} [MessageInterface μ] (m : μ) (fault : Fault) :
    EncodeMessage m = .error fault ↔ MessageInterface.MarshalBinary m = .error fault := by
  cases h : MessageInterface.MarshalBinary m with
  | error f => simp [EncodeMessage, h, bind, Except.bind]
  | ok p => simp [EncodeMessage_of_marshal m p h]

theorem len_long_frame (a b : Byte) (n : Nat) (c z : Byte) :
    len (a :: b :: (List.replicate n c ++ [z])) = n + 3 := by
  unfold len
  simp only [List.length_cons, List.length_append, List.length_replicate,
    List.length_singleton, List.length_nil]
  omega

theorem getLast?_long_frame (a b z : Byte) (l : List Byte) :
    (a :: b :: (l ++ [z])).getLast? = some z := by
  have h : a :: b :: (l ++ [z]) = (a :: b :: l) ++ [z] := by simp
  rw [h, List.getLast?_append]
  simp

theorem len_replicate (n : Nat) (c : Byte) : len (List.replicate n c) = n := by
  unfold len
  rw [List.length_replicate]

/-- Claim C7 (the code departs from it). The 259-byte string `5B 00 00 .. 00 5D`
(256 zero bytes between the length byte and the end marker) is accepted by
`sanityCheckRecv` although its second byte, 0, is not the
length minus three, 256: the check compares the second byte with the length
minus three reduced modulo 256. -/
theorem sanityCheckRecv_accepts_wrapped_length :
    sanityCheckRecv (0x5B :: 0x00 :: (List.replicate 256 0x00 ++ [0x5D])) = .ok () ∧
    len (0x5B :: 0x00 :: (List.replicate 256 0x00 ++ [0x5D])) - 3 = 256 ∧
    ¬ WellFramed (0x5B :: 0x00 :: (List.replicate 256 0x00 ++ [0x5D])) := by
  have hl : len (0x5B :: 0x00 :: (List.replicate 256 0x00 ++ [0x5D])) = 259 :=
    len_long_frame 0x5B 0x00 256 0x00 0x5D
  refine ⟨?_, by omega, ?_⟩
  · rw [sanityCheckRecv_ok_iff, getLast?_long_frame, hl]
    refine ⟨by decide, ?_, rfl, ?_⟩
    · simp only [List.getElem?_cons_zero]
    · simp only [List.getElem?_cons_succ, List.getElem?_cons_zero]
      decide
  · intro h
    obtain ⟨_, _, _, h1⟩ := h
    rw [hl] at h1
    simp only [List.getElem?_cons_succ, List.getElem?_cons_zero, Option.map_some',
      Option.some.injEq] at h1
    revert h1
    decide

/-- Claim C8 is false as stated: for a message whose `MarshalBinary` returns 300
bytes, `EncodeMessage` returns a frame whose second byte is 0x2C = 44, not the
length of the payload. -/
theorem EncodeMessage_length_byte_wraps :
    MessageInterface.MarshalBinary (RawMessage.mk (List.replicate 300 0x00))
      = .ok (List.replicate 300 0x00) ∧
    EncodeMessage (RawMessage.mk (List.replicate 300 0x00))
      = .ok (0x5B :: 0x2C :: (List.replicate 300 0x00 ++ [0x5D])) ∧
    ((0x2C : Byte).val : Int) ≠ len (List.replicate 300 0x00) := by
  refine ⟨rfl, ?_, ?_⟩
  · rw [EncodeMessage_of_marshal _ (List.replicate 300 0x00) rfl]
    rw [len_replicate]
    rfl
  · rw [len_replicate]
    decide

/-- Claim C8, amended. For every message, of whatever implementation of the
interface, whose `MarshalBinary` returns the payload `p` without error,
`EncodeMessage` returns the bytes 0x5B, `len(p)` modulo 256, `p`, 0x5D: the
frame has `len(p) + 3` bytes, its first byte is 0x5B, its last byte is 0x5D,
and its second byte is `len(p)` modulo 256, which is `len(p)` when the payload
has at most 255 bytes. -/
theorem EncodeMessage_frame {μ : Type} [MessageInterface μ] (m : μ) (p : List Byte)
    (h : MessageInterface.MarshalBinary m = .ok p) :
    ∃ f, EncodeMessage m = .ok f ∧
      f = startOfMessage :: byte (len p) :: (p ++ [endOfMessage]) ∧
      len f = len p + 3 ∧ f[0]? = some 0x5B ∧ f.getLast? = some 0x5D ∧
      f[1]?.map (fun b => (b.val : Int)) = some (len p % 256) ∧
      (len p ≤ 255 → f[1]?.map (fun b => (b.val : Int)) = some (len p)) := by
  refine ⟨_, EncodeMessage_of_marshal m p h, rfl, ?_, rfl, ?_, ?_, ?_⟩
  · simp [len]; omega
  · have hc : startOfMessage :: byte (len p) :: (p ++ [endOfMessage])
        = (startOfMessage :: byte (len p) :: p) ++ [endOfMessage] := by simp
    rw [hc, List.getLast?_append]
    simp [endOfMessage]
  · simp [byte_val]
  · intro hle
    simp [byte_val_of_le _ (len_nonneg p) hle]

/-- The witness of the amended claim C8: a `UserProfile`. -/
theorem EncodeMessage_frame_witness :
    ∃ f, EncodeMessage (Message.UserProfile ⟨1, 35, 155, 67⟩) = .ok f ∧
      f = startOfMessage :: byte (len [0x07, 0x01, 0x23, 0x00, 0x9B, 0x43]) ::
        ([0x07, 0x01, 0x23, 0x00, 0x9B, 0x43] ++ [endOfMessage]) ∧
      len f = len [0x07, 0x01, 0x23, 0x00, 0x9B, 0x43] + 3 ∧ f[0]? = some 0x5B ∧
      f.getLast? = some 0x5D ∧
      f[1]?.map (fun b => (b.val : Int)) = some (len [0x07, 0x01, 0x23, 0x00, 0x9B, 0x43] % 256) ∧
      (len [0x07, 0x01, 0x23, 0x00, 0x9B, 0x43] ≤ 255 →
        f[1]?.map (fun b => (b.val : Int)) = some (len [0x07, 0x01, 0x23, 0x00, 0x9B, 0x43])) :=
  EncodeMessage_frame (Message.UserProfile ⟨1, 35, 155, 67⟩)
    [0x07, 0x01, 0x23, 0x00, 0x9B, 0x43] (by decide)

/-- Claim C9 is false as stated: for a message whose `MarshalBinary` returns 256
bytes, `EncodeMessage` does not fail; it returns a frame of 259 bytes whose
length byte is 0. -/
theorem EncodeMessage_accepts_long_payload :
    MessageInterface.MarshalBinary (RawMessage.mk (List.replicate 256 0x00))
      = .ok (List.replicate 256 0x00) ∧
    255 < len (List.replicate 256 0x00) ∧
    EncodeMessage (RawMessage.mk (List.replicate 256 0x00))
      = .ok (0x5B :: 0x00 :: (List.replicate 256 0x00 ++ [0x5D])) := by
  have hl : len (List.replicate 256 0x00) = 256 := len_replicate 256 0x00
  refine ⟨rfl, by omega, ?_⟩
  rw [EncodeMessage_of_marshal _ (List.replicate 256 0x00) rfl, hl]
  rfl

/-- Claim C9, amended. `EncodeMessage` has no check of the payload length: for
every message whose `MarshalBinary` returns a payload longer than 255 bytes
it does not fail, and returns the frame 0x5B, `len(p)` modulo 256, `p`, 0x5D,
whose length byte is not the length of the payload. -/
theorem EncodeMessage_long_payload {μ : Type} [MessageInterface μ] (m : μ) (p : List Byte)
    (h : MessageInterface.MarshalBinary m = .ok p) (hlong : 255 < len p) :
    EncodeMessage m = .ok (startOfMessage :: byte (len p) :: (p ++ [endOfMessage])) ∧
      ((byte (len p)).val : Int) = len p % 256 ∧ ((byte (len p)).val : Int) ≠ len p ∧
      ∀ fault, EncodeMessage m ≠ .error fault := by
  refine ⟨EncodeMessage_of_marshal m p h, byte_val _, ?_, ?_⟩
  · rw [byte_val]; omega
  · intro fault hf
    rw [EncodeMessage_of_marshal m p h] at hf
    cases hf

/-- The witness of the amended claim C9: a payload of 257 bytes. -/
theorem EncodeMessage_long_payload_witness :
    EncodeMessage (RawMessage.mk (List.replicate 257 0x01)) =
        .ok (startOfMessage :: byte (len (List.replicate 257 0x01)) ::
          (List.replicate 257 0x01 ++ [endOfMessage])) ∧
      ((byte (len (List.replicate 257 0x01))).val : Int) = len (List.replicate 257 0x01) % 256 ∧
      ((byte (len (List.replicate 257 0x01))).val : Int) ≠ len (List.replicate 257 0x01) ∧
      ∀ fault, EncodeMessage (RawMessage.mk (List.replicate 257 0x01)) ≠ .error fault :=
  EncodeMessage_long_payload (RawMessage.mk (List.replicate 257 0x01))
    (List.replicate 257 0x01) rfl (by rw [len_replicate]; decide)

/-! ## Tags and expected lengths -/

/-- Claim C10. For each of the twenty-four variants `MessageType()` returns the
tag and `ExpectedLength()` the length that the table of the specification
gives for it, whatever the fields hold. -/
theorem variant_tags_and_lengths :
    (∀ m : MessageACK, (Message.ACK m).MessageType = 0x00 ∧ m.MessageType = 0x00 ∧
      (Message.ACK m).ExpectedLength = 4 ∧ m.ExpectedLength = 4) ∧
    (∀ m : MessageSetWorkoutMode, (Message.SetWorkoutMode m).MessageType = 0x02 ∧ m.MessageType = 0x02 ∧
      (Message.SetWorkoutMode m).ExpectedLength = 2 ∧ m.ExpectedLength = 2) ∧
    (∀ m : MessageWorkoutMode, (Message.WorkoutMode m).MessageType = 0x03 ∧ m.MessageType = 0x03 ∧
      (Message.WorkoutMode m).ExpectedLength = 2 ∧ m.ExpectedLength = 2) ∧
    (∀ m : MessageWorkoutTarget, (Message.WorkoutTarget m).MessageType = 0x04 ∧ m.MessageType = 0x04 ∧
      (Message.WorkoutTarget m).ExpectedLength = 5 ∧ m.ExpectedLength = 5) ∧
    (∀ m : MessageWorkoutData, (Message.WorkoutData m).MessageType = 0x06 ∧ m.MessageType = 0x06 ∧
      (Message.WorkoutData m).ExpectedLength = 15 ∧ m.ExpectedLength = 15) ∧
    (∀ m : MessageUserProfile, (Message.UserProfile m).MessageType = 0x07 ∧ m.MessageType = 0x07 ∧
      (Message.UserProfile m).ExpectedLength = 6 ∧ m.ExpectedLength = 6) ∧
    (∀ m : MessageProgram, (Message.Program m).MessageType = 0x08 ∧ m.MessageType = 0x08 ∧
      (Message.Program m).ExpectedLength = 3 ∧ m.ExpectedLength = 3) ∧
    (∀ m : MessageHeartRateType, (Message.HeartRateType m).MessageType = 0x09 ∧ m.MessageType = 0x09 ∧
      (Message.HeartRateType m).ExpectedLength = 3 ∧ m.ExpectedLength = 3) ∧
    (∀ m : MessageErrorCode, (Message.ErrorCode m).MessageType = 0x10 ∧ m.MessageType = 0x10 ∧
      (Message.ErrorCode m).ExpectedLength = 2 ∧ m.ExpectedLength = 2) ∧
    (∀ m : MessageSpeed, (Message.Speed m).MessageType = 0x11 ∧ m.MessageType = 0x11 ∧
      (Message.Speed m).ExpectedLength = 2 ∧ m.ExpectedLength = 2) ∧
    (∀ m : MessageIncline, (Message.Incline m).MessageType = 0x12 ∧ m.MessageType = 0x12 ∧
      (Message.Incline m).ExpectedLength = 2 ∧ m.ExpectedLength = 2) ∧
    (∀ m : MessageLevel, (Message.Level m).MessageType = 0x13 ∧ m.MessageType = 0x13 ∧
      (Message.Level m).ExpectedLength = 2 ∧ m.ExpectedLength = 2) ∧
    (∀ m : MessageRPM, (Message.RPM m).MessageType = 0x14 ∧ m.MessageType = 0x14 ∧
      (Message.RPM m).ExpectedLength = 2 ∧ m.ExpectedLength = 2) ∧
    (∀ m : MessageHeartRate, (Message.HeartRate m).MessageType = 0x15 ∧ m.MessageType = 0x15 ∧
      (Message.HeartRate m).ExpectedLength = 2 ∧ m.ExpectedLength = 2) ∧
    (∀ m : MessageTargetHeartRate, (Message.TargetHeartRate m).MessageType = 0x20 ∧ m.MessageType = 0x20 ∧
      (Message.TargetHeartRate m).ExpectedLength = 2 ∧ m.ExpectedLength = 2) ∧
    (∀ m : MessageMaxSpeed, (Message.MaxSpeed m).MessageType = 0x21 ∧ m.MessageType = 0x21 ∧
      (Message.MaxSpeed m).ExpectedLength = 2 ∧ m.ExpectedLength = 2) ∧
    (∀ m : MessageMaxIncline, (Message.MaxIncline m).MessageType = 0x22 ∧ m.MessageType = 0x22 ∧
      (Message.MaxIncline m).ExpectedLength = 2 ∧ m.ExpectedLength = 2) ∧
    (∀ m : MessageMaxLevel, (Message.MaxLevel m).MessageType = 0x23 ∧ m.MessageType = 0x23 ∧
      (Message.MaxLevel m).ExpectedLength = 2 ∧ m.ExpectedLength = 2) ∧
    (∀ m : MessageUserIncline, (Message.UserIncline m).MessageType = 0x25 ∧ m.MessageType = 0x25 ∧
      (Message.UserIncline m).ExpectedLength = 2 ∧ m.ExpectedLength = 2) ∧
    (∀ m : MessageUserLevel, (Message.UserLevel m).MessageType = 0x27 ∧ m.MessageType = 0x27 ∧
      (Message.UserLevel m).ExpectedLength = 2 ∧ m.ExpectedLength = 2) ∧
    (∀ m : MessageEndWorkout, (Message.EndWorkout m).MessageType = 0x32 ∧ m.MessageType = 0x32 ∧
      (Message.EndWorkout m).ExpectedLength = 10 ∧ m.ExpectedLength = 10) ∧
    (∀ m : MessageProgramGraphics, (Message.ProgramGraphics m).MessageType = 0x40 ∧ m.MessageType = 0x40 ∧
      (Message.ProgramGraphics m).ExpectedLength = 19 ∧ m.ExpectedLength = 19) ∧
    (∀ m : MessageDeviceInfo, (Message.DeviceInfo m).MessageType = 0xF0 ∧ m.MessageType = 0xF0 ∧
      (Message.DeviceInfo m).ExpectedLength = 8 ∧ m.ExpectedLength = 8) ∧
    (∀ m : MessageCommand, (Message.Command m).MessageType = 0xF1 ∧ m.MessageType = 0xF1 ∧
      (Message.Command m).ExpectedLength = 2 ∧ m.ExpectedLength = 2) :=
  ⟨fun _ => ⟨rfl, rfl, rfl, rfl⟩,
   fun _ => ⟨rfl, rfl, rfl, rfl⟩,
   fun _ => ⟨rfl, rfl, rfl, rfl⟩,
   fun _ => ⟨rfl, rfl, rfl, rfl⟩,
   fun _ => ⟨rfl, rfl, rfl, rfl⟩,
   fun _ => ⟨rfl, rfl, rfl, rfl⟩,
   fun _ => ⟨rfl, rfl, rfl, rfl⟩,
   fun _ => ⟨rfl, rfl, rfl, rfl⟩,
   fun _ => ⟨rfl, rfl, rfl, rfl⟩,
   fun _ => ⟨rfl, rfl, rfl, rfl⟩,
   fun _ => ⟨rfl, rfl, rfl, rfl⟩,
   fun _ => ⟨rfl, rfl, rfl, rfl⟩,
   fun _ => ⟨rfl, rfl, rfl, rfl⟩,
   fun _ => ⟨rfl, rfl, rfl, rfl⟩,
   fun _ => ⟨rfl, rfl, rfl, rfl⟩,
   fun _ => ⟨rfl, rfl, rfl, rfl⟩,
   fun _ => ⟨rfl, rfl, rfl, rfl⟩,
   fun _ => ⟨rfl, rfl, rfl, rfl⟩,
   fun _ => ⟨rfl, rfl, rfl, rfl⟩,
   fun _ => ⟨rfl, rfl, rfl, rfl⟩,
   fun _ => ⟨rfl, rfl, rfl, rfl⟩,
   fun _ => ⟨rfl, rfl, rfl, rfl⟩,
   fun _ => ⟨rfl, rfl, rfl, rfl⟩,
   fun _ => ⟨rfl, rfl, rfl, rfl⟩⟩
/-! ## Re-encoding a parsed frame -/

/-- A payload that `UnmarshalBinary` accepts has the expected length and starts
with the tag of the receiver. -/
theorem Message.UnmarshalBinary_ok_inv (m0 m : Message) (data : List Byte)
    (h : m0.UnmarshalBinary data = .ok m) :
    len data = m0.ExpectedLength ∧ data[0]? = some m0.MessageType := by
  by_cases hl : len data = m0.ExpectedLength
  · refine ⟨hl, ?_⟩
    have hb := Message.ExpectedLength_bounds m0
    cases data with
    | nil => simp [len] at hl; omega
    | cons t rest =>
      by_cases ht : t = m0.MessageType
      · simp [ht]
      · rw [Message.UnmarshalBinary_wrongCommand m0 t rest hl ht] at h
        cases h
  · rw [Message.UnmarshalBinary_wrongLength m0 data hl] at h
    cases h

theorem Message.ExpectedLength_of_WorkoutTarget (m0 : Message)
    (h : m0.MessageType = MessageTypeWorkoutTarget) : m0.ExpectedLength = 5 := by
  cases m0 <;> first
    | rfl
    | (simp [Message.MessageType,
      MessageDeviceInfo.MessageType, MessageWorkoutMode.MessageType,
      MessageSetWorkoutMode.MessageType, MessageHeartRateType.MessageType,
      MessageWorkoutData.MessageType, MessageUserProfile.MessageType, MessageACK.MessageType,
      MessageWorkoutTarget.MessageType, MessageMaxIncline.MessageType,
      MessageErrorCode.MessageType, MessageSpeed.MessageType, MessageIncline.MessageType,
      MessageLevel.MessageType, MessageRPM.MessageType, MessageHeartRate.MessageType,
      MessageTargetHeartRate.MessageType, MessageMaxSpeed.MessageType,
      MessageMaxLevel.MessageType, MessageUserIncline.MessageType,
      MessageUserLevel.MessageType, MessageEndWorkout.MessageType,
      MessageProgramGraphics.MessageType, MessageCommand.MessageType, MessageProgram.MessageType,
      MessageTypeDeviceInfo, MessageTypeWorkoutMode, MessageTypeSetWorkoutMode,
      MessageTypeHeartRateType, MessageTypeWorkoutData, MessageTypeUserProfile, MessageTypeACK,
      MessageTypeWorkoutTarget, MessageTypeMaxIncline, MessageTypeErrorCode, MessageTypeSpeed,
      MessageTypeIncline, MessageTypeLevel, MessageTypeRPM, MessageTypeHeartRate,
      MessageTypeTargetHeartRate, MessageTypeMaxSpeed, MessageTypeMaxLevel,
      MessageTypeUserIncline, MessageTypeUserLevel, MessageTypeEndWorkout,
      MessageTypeProgramGraphics, MessageTypeCommand, MessageTypeProgram] at h)

theorem Message.ExpectedLength_of_ACK (m0 : Message)
    (h : m0.MessageType = MessageTypeACK) : m0.ExpectedLength = 4 := by
  cases m0 <;> first
    | rfl
    | (simp [Message.MessageType,
      MessageDeviceInfo.MessageType, MessageWorkoutMode.MessageType,
      MessageSetWorkoutMode.MessageType, MessageHeartRateType.MessageType,
      MessageWorkoutData.MessageType, MessageUserProfile.MessageType, MessageACK.MessageType,
      MessageWorkoutTarget.MessageType, MessageMaxIncline.MessageType,
      MessageErrorCode.MessageType, MessageSpeed.MessageType, MessageIncline.MessageType,
      MessageLevel.MessageType, MessageRPM.MessageType, MessageHeartRate.MessageType,
      MessageTargetHeartRate.MessageType, MessageMaxSpeed.MessageType,
      MessageMaxLevel.MessageType, MessageUserIncline.MessageType,
      MessageUserLevel.MessageType, MessageEndWorkout.MessageType,
      MessageProgramGraphics.MessageType, MessageCommand.MessageType, MessageProgram.MessageType,
      MessageTypeDeviceInfo, MessageTypeWorkoutMode, MessageTypeSetWorkoutMode,
      MessageTypeHeartRateType, MessageTypeWorkoutData, MessageTypeUserProfile, MessageTypeACK,
      MessageTypeWorkoutTarget, MessageTypeMaxIncline, MessageTypeErrorCode, MessageTypeSpeed,
      MessageTypeIncline, MessageTypeLevel, MessageTypeRPM, MessageTypeHeartRate,
      MessageTypeTargetHeartRate, MessageTypeMaxSpeed, MessageTypeMaxLevel,
      MessageTypeUserIncline, MessageTypeUserLevel, MessageTypeEndWorkout,
      MessageTypeProgramGraphics, MessageTypeCommand, MessageTypeProgram] at h)

/-- Claim C2 is false as stated: the `WorkoutTarget` frame `5B 05 04 0A 01 00 00 5D`,
whose reserved byte is 1, is accepted by `ParseMessage`, its tag is not 0xF0,
and encoding the parsed message gives `5B 05 04 0A 00 00 00 5D`, another byte
string. -/
theorem WorkoutTarget_reserved_byte_not_preserved :
    ParseMessage [0x5B, 0x05, 0x04, 0x0A, 0x01, 0x00, 0x00, 0x5D]
      = .ok (.WorkoutTarget ⟨0x0A, 0⟩) ∧
    ([0x5B, 0x05, 0x04, 0x0A, 0x01, 0x00, 0x00, 0x5D] : List Byte)[2]? ≠ some 0xF0 ∧
    EncodeMessage (Message.WorkoutTarget ⟨0x0A, 0⟩)
      = .ok [0x5B, 0x05, 0x04, 0x0A, 0x00, 0x00, 0x00, 0x5D] ∧
    EncodeMessage (Message.WorkoutTarget ⟨0x0A, 0⟩)
      ≠ .ok [0x5B, 0x05, 0x04, 0x0A, 0x01, 0x00, 0x00, 0x5D] := by
  decide

/-- Claim C2, amended. For every byte string `f` that `ParseMessage` accepts,
whose tag byte `f[2]` is not 0xF0 (DeviceInfo), whose reserved byte `f[4]` is
zero when the tag is 0x04 (WorkoutTarget), and whose trailer bytes `f[4]`,
`f[5]` are 0x4F, 0x4B when the tag is 0x00 (ACK), encoding the parsed message
returns a byte string identical to `f`. -/
theorem EncodeMessage_ParseMessage (f : List Byte) (m : Message)
    (h : ParseMessage f = .ok m)
    (hDI : f[2]? ≠ some 0xF0)
    (hWT : f[2]? = some 0x04 → f[4]? = some 0x00)
    (hACK : f[2]? = some 0x00 → f[4]? = some 0x4F ∧ f[5]? = some 0x4B) :
    EncodeMessage m = .ok f := by
  have hs : sanityCheckRecv f = .ok () := by
    cases hs : sanityCheckRecv f with
    | ok u => rfl
    | error e => simp [ParseMessage, hs, bind, Except.bind] at h
  obtain ⟨hlen, h0, hz, h1⟩ := (sanityCheckRecv_ok_iff f).mp hs
  obtain ⟨a, b, t, rest, z, rfl⟩ := frame_decomp f hlen
  have h3 : len (a :: b :: t :: (rest ++ [z])) - 3 = len (t :: rest) := by
    rw [len_frame]; omega
  rw [getLast?_frame] at hz
  rw [h3] at h1
  simp only [List.getElem?_cons_zero, List.getElem?_cons_succ, Option.some.injEq, ne_eq]
    at h0 h1 hz hDI hWT hACK
  rw [ParseMessage_frame, hs] at h
  cases hc : MessageType.Create t with
  | none => rw [hc] at h; cases h
  | some m0 =>
    rw [hc] at h
    simp only at h
    obtain ⟨hl, ht⟩ := Message.UnmarshalBinary_ok_inv m0 m _ h
    simp only [List.getElem?_cons_zero, Option.some.injEq] at ht
    have hm : m.MarshalBinary = .ok (t :: rest) := by
      apply Message.marshal_of_unmarshal m0 m (t :: rest) h
      · rw [← ht]; exact hDI
      · intro h4
        have h5 := Message.ExpectedLength_of_WorkoutTarget m0 h4
        have hr : 1 < rest.length := by
          rw [h5] at hl; simp [len] at hl; omega
        have := hWT (ht.trans h4)
        rw [List.getElem?_append_left hr] at this
        simpa using this
      · intro h4
        have h5 := Message.ExpectedLength_of_ACK m0 h4
        have hr1 : 1 < rest.length := by
          rw [h5] at hl; simp [len] at hl; omega
        have hr2 : 2 < rest.length := by
          rw [h5] at hl; simp [len] at hl; omega
        have := hACK (ht.trans h4)
        rw [List.getElem?_append_left hr1, List.getElem?_append_left hr2] at this
        simpa using this
    have he := EncodeMessage_of_marshal m (t :: rest) hm
    rw [he, h0, h1, hz]
    rfl

/-- The witness of the amended claim C2: the `UserProfile` frame of the tests. -/
theorem EncodeMessage_ParseMessage_witness :
    EncodeMessage (Message.UserProfile ⟨1, 35, 155, 67⟩)
      = .ok [0x5B, 0x06, 0x07, 0x01, 0x23, 0x00, 0x9B, 0x43, 0x5D] :=
  EncodeMessage_ParseMessage [0x5B, 0x06, 0x07, 0x01, 0x23, 0x00, 0x9B, 0x43, 0x5D]
    (Message.UserProfile ⟨1, 35, 155, 67⟩) (by decide) (by decide) (by decide) (by decide)

/-- Claim C1 (the code departs from it). `EncodeMessage` writes the `UserIncline`
message with incline 5 as `5B 02 25 05 5D`, and `ParseMessage` refuses that
frame: `Create` makes a `MessageUserLevel` for tag 0x25, whose sanity check
expects tag 0x27. -/
theorem UserIncline_frame_not_parsed :
    EncodeMessage (Message.UserIncline ⟨0x05⟩) = .ok [0x5B, 0x02, 0x25, 0x05, 0x5D] ∧
    ParseMessage [0x5B, 0x02, 0x25, 0x05, 0x5D]
      = .error (.err (.wrongCommand MessageTypeUserLevel MessageTypeUserIncline)) := by
  decide

/-! ## The layout of each variant on the wire -/

/-- The high byte that `MarshalBinary` writes for a `uint16` is the value
divided by 256. -/
theorem Uint16.hi_val (x : Uint16) : ((x.shr 8).toByte).val = x.val / 256 := by
  have hx := x.isLt
  simp only [Uint16.shr, Uint16.toByte, Nat.shiftRight_eq_div_pow]
  omega

/-- The low byte that `MarshalBinary` writes for a `uint16` is the value
modulo 256. -/
theorem Uint16.lo_val (x : Uint16) : x.toByte.val = x.val % 256 := by
  simp only [Uint16.toByte]

/-- Claim C11. `DeviceInfo` is the only variant whose encoded length differs from
its expected length: `MarshalBinary` of a `DeviceInfo` returns the one byte
0xF0 although `ExpectedLength()` is 8, and for every other variant and every
field assignment `MarshalBinary` returns exactly `ExpectedLength()` bytes, the
first of which is the tag of the variant. -/
theorem marshal_length_expected_except_DeviceInfo :
    (∀ x : MessageDeviceInfo,
        (Message.DeviceInfo x).MarshalBinary = .ok [0xF0] ∧ len ([0xF0] : List Byte) = 1 ∧
        (Message.DeviceInfo x).ExpectedLength = 8) ∧
    (∀ m : Message, (∀ x, m ≠ Message.DeviceInfo x) →
        ∃ p, m.MarshalBinary = .ok p ∧ len p = m.ExpectedLength ∧
          p[0]? = some m.MessageType) := by
  refine ⟨fun x => ⟨rfl, rfl, rfl⟩, ?_⟩
  intro m hm
  cases m with
  | DeviceInfo x => exact absurd rfl (hm x)
  | WorkoutMode x => exact ⟨_, rfl, rfl, rfl⟩
  | SetWorkoutMode x => exact ⟨_, rfl, rfl, rfl⟩
  | HeartRateType x => exact ⟨_, rfl, rfl, rfl⟩
  | WorkoutData x => exact ⟨_, rfl, rfl, rfl⟩
  | UserProfile x => exact ⟨_, rfl, rfl, rfl⟩
  | ACK x => exact ⟨_, rfl, rfl, rfl⟩
  | WorkoutTarget x => exact ⟨_, rfl, rfl, rfl⟩
  | MaxIncline x => exact ⟨_, rfl, rfl, rfl⟩
  | ErrorCode x => exact ⟨_, rfl, rfl, rfl⟩
  | Speed x => exact ⟨_, rfl, rfl, rfl⟩
  | Incline x => exact ⟨_, rfl, rfl, rfl⟩
  | Level x => exact ⟨_, rfl, rfl, rfl⟩
  | RPM x => exact ⟨_, rfl, rfl, rfl⟩
  | HeartRate x => exact ⟨_, rfl, rfl, rfl⟩
  | TargetHeartRate x => exact ⟨_, rfl, rfl, rfl⟩
  | MaxSpeed x => exact ⟨_, rfl, rfl, rfl⟩
  | MaxLevel x => exact ⟨_, rfl, rfl, rfl⟩
  | UserIncline x => exact ⟨_, rfl, rfl, rfl⟩
  | UserLevel x => exact ⟨_, rfl, rfl, rfl⟩
  | EndWorkout x => exact ⟨_, rfl, rfl, rfl⟩
  | ProgramGraphics x => exact ⟨_, rfl, rfl, rfl⟩
  | Command x => exact ⟨_, rfl, rfl, rfl⟩
  | Program x => exact ⟨_, rfl, rfl, rfl⟩

/-- The witness of claim C11: an empty `DeviceInfo` and a `Speed`. -/
theorem marshal_length_expected_except_DeviceInfo_witness :
    ((Message.DeviceInfo MessageDeviceInfo.zero).MarshalBinary = .ok [0xF0] ∧
        len ([0xF0] : List Byte) = 1 ∧
        (Message.DeviceInfo MessageDeviceInfo.zero).ExpectedLength = 8) ∧
    (∃ p, (Message.Speed ⟨5⟩).MarshalBinary = .ok p ∧
        len p = (Message.Speed ⟨5⟩).ExpectedLength ∧
        p[0]? = some (Message.Speed ⟨5⟩).MessageType) :=
  ⟨marshal_length_expected_except_DeviceInfo.1 MessageDeviceInfo.zero,
   marshal_length_expected_except_DeviceInfo.2 (Message.Speed ⟨5⟩)
     (fun _ h => Message.noConfusion h)⟩

/-- Claim C12. For every seven bytes `b1 .. b7` the frame `5B 08 F0 b1 .. b7 5D`
is parsed to a `DeviceInfo` with Model = b1, Version = b2, Units = b3,
MaxSpeed = b4, MinSpeed = b5, InclineMax = b6, UserSegment = b7; the frame
`5B 08 F0 92 00 01 78 05 0F 12 5D` gives model 146, version 0, units 1,
max speed 120, min speed 5, incline max 15, user segment 18. -/
theorem ParseMessage_DeviceInfo_frame (b1 b2 b3 b4 b5 b6 b7 : Byte) :
    (∃ m : MessageDeviceInfo,
      ParseMessage [0x5B, 0x08, 0xF0, b1, b2, b3, b4, b5, b6, b7, 0x5D] = .ok (.DeviceInfo m) ∧
      m.Model = b1 ∧ m.Version = b2 ∧ m.Units = b3 ∧ m.MaxSpeed = b4 ∧ m.MinSpeed = b5 ∧
      m.InclineMax = b6 ∧ m.UserSegment = b7) ∧
    (∃ m : MessageDeviceInfo,
      ParseMessage [0x5B, 0x08, 0xF0, 0x92, 0x00, 0x01, 0x78, 0x05, 0x0F, 0x12, 0x5D]
        = .ok (.DeviceInfo m) ∧
      m.Model = 146 ∧ m.Version = 0 ∧ m.Units = 1 ∧ m.MaxSpeed = 120 ∧ m.MinSpeed = 5 ∧
      m.InclineMax = 15 ∧ m.UserSegment = 18) := by
  constructor
  · exact ⟨⟨b1, b2, b3, b4, b5, b6, b7⟩, by with_unfolding_all rfl,
      rfl, rfl, rfl, rfl, rfl, rfl, rfl⟩
  · exact ⟨⟨146, 0, 1, 120, 5, 15, 18⟩, by decide, rfl, rfl, rfl, rfl, rfl, rfl, rfl⟩

/-- Claim C13. For every `DeviceInfo` value, whatever its seven fields hold,
`EncodeMessage` returns exactly the four bytes `5B 01 F0 5D` without error. -/
theorem EncodeMessage_DeviceInfo_request (x : MessageDeviceInfo) :
    EncodeMessage (Message.DeviceInfo x) = .ok [0x5B, 0x01, 0xF0, 0x5D] := by
  with_unfolding_all rfl

/-- Claim C14. For every fourteen bytes `b1 .. b14` the frame `5B 0F 06 b1 .. b14 5D`
is parsed to a `WorkoutData` with Minute = b1, Second = b2,
Distance = 256*b3 + b4, Calories = 256*b5 + b6, HeartRate = b7, Speed = b8,
Incline = b9, HRType = b10, IntervalTime = b11, RecoveryTime = b12,
ProgramRow = b13, ProgramColumn = b14, and `EncodeMessage` of that message
returns the identical 18-byte frame. -/
theorem ParseMessage_WorkoutData_frame
    (b1 b2 b3 b4 b5 b6 b7 b8 b9 b10 b11 b12 b13 b14 : Byte) :
    ∃ m : MessageWorkoutData,
      ParseMessage [0x5B, 0x0F, 0x06, b1, b2, b3, b4, b5, b6, b7, b8, b9, b10, b11, b12, b13,
        b14, 0x5D] = .ok (.WorkoutData m) ∧
      m.Minute = b1 ∧ m.Second = b2 ∧ m.Distance.val = 256 * b3.val + b4.val ∧
      m.Calories.val = 256 * b5.val + b6.val ∧ m.HeartRate = b7 ∧ m.Speed = b8 ∧
      m.Incline = b9 ∧ m.HRType = b10 ∧ m.IntervalTime = b11 ∧ m.RecoveryTime = b12 ∧
      m.ProgramRow = b13 ∧ m.ProgramColumn = b14 ∧
      EncodeMessage (Message.WorkoutData m) =
        .ok [0x5B, 0x0F, 0x06, b1, b2, b3, b4, b5, b6, b7, b8, b9, b10, b11, b12, b13, b14,
          0x5D] ∧
      (List.length (α := Byte)
        [0x5B, 0x0F, 0x06, b1, b2, b3, b4, b5, b6, b7, b8, b9, b10, b11, b12, b13, b14,
          0x5D]) = 18 := by
  refine ⟨⟨b1, b2, ((uint16 b3).shl 8).add (uint16 b4), ((uint16 b5).shl 8).add (uint16 b6),
    b7, b8, b9, b10, b11, b12, b13, b14⟩, by with_unfolding_all rfl, rfl, rfl,
    Uint16.join_val _ _, Uint16.join_val _ _, rfl, rfl, rfl, rfl, rfl, rfl, rfl, rfl, ?_, rfl⟩
  refine Eq.trans (b := .ok
    [0x5B, 0x0F, 0x06, b1, b2, (Uint16.shr (((uint16 b3).shl 8).add (uint16 b4)) 8).toByte,
      Uint16.toByte (((uint16 b3).shl 8).add (uint16 b4)),
      (Uint16.shr (((uint16 b5).shl 8).add (uint16 b6)) 8).toByte,
      Uint16.toByte (((uint16 b5).shl 8).add (uint16 b6)), b7, b8, b9, b10, b11, b12, b13, b14,
      0x5D])
    (by with_unfolding_all rfl) ?_
  simp only [Uint16.split_join_hi, Uint16.split_join_lo]

/-- Claim C15. For every sex byte `s`, age byte `a`, 16-bit weight `w` and height
byte `h`, `EncodeMessage` of `UserProfile{s, a, w, h}` is
`5B 06 07 s a (w div 256) (w mod 256) h 5D`, `ParseMessage` of that frame
returns `UserProfile{s, a, w, h}`, and encoding the parsed message returns the
same bytes; `5B 06 07 01 23 00 9B 43 5D` is sex 1, age 35, weight 155,
height 67. -/
theorem UserProfile_round_trip (s a : Byte) (w : Uint16) (h : Byte) :
    (∃ hi lo : Byte, hi.val = w.val / 256 ∧ lo.val = w.val % 256 ∧
      EncodeMessage (Message.UserProfile ⟨s, a, w, h⟩) =
        .ok [0x5B, 0x06, 0x07, s, a, hi, lo, h, 0x5D] ∧
      ParseMessage [0x5B, 0x06, 0x07, s, a, hi, lo, h, 0x5D] =
        .ok (Message.UserProfile ⟨s, a, w, h⟩) ∧
      (ParseMessage [0x5B, 0x06, 0x07, s, a, hi, lo, h, 0x5D] >>= fun m => EncodeMessage m) =
        .ok [0x5B, 0x06, 0x07, s, a, hi, lo, h, 0x5D]) ∧
    ParseMessage [0x5B, 0x06, 0x07, 0x01, 0x23, 0x00, 0x9B, 0x43, 0x5D] =
      .ok (Message.UserProfile ⟨1, 35, 155, 67⟩) ∧
    EncodeMessage (Message.UserProfile ⟨1, 35, 155, 67⟩) =
      .ok [0x5B, 0x06, 0x07, 0x01, 0x23, 0x00, 0x9B, 0x43, 0x5D] := by
  have hp : ParseMessage [0x5B, 0x06, 0x07, s, a, (w.shr 8).toByte, w.toByte, h, 0x5D] =
      .ok (Message.UserProfile ⟨s, a, w, h⟩) := by
    refine Eq.trans (b := .ok (Message.UserProfile ⟨s, a,
      ((uint16 (w.shr 8).toByte).shl 8).add (uint16 w.toByte), h⟩))
      (by with_unfolding_all rfl) ?_
    rw [Uint16.join_split]
  have he : EncodeMessage (Message.UserProfile ⟨s, a, w, h⟩) =
      .ok [0x5B, 0x06, 0x07, s, a, (w.shr 8).toByte, w.toByte, h, 0x5D] := by
    with_unfolding_all rfl
  refine ⟨⟨(w.shr 8).toByte, w.toByte, Uint16.hi_val w, Uint16.lo_val w, he, hp, ?_⟩,
    by decide, by decide⟩
  rw [hp]
  exact he

/-- Claim C16. For every tag byte `t`, `EncodeMessage` of `ACK{Acknowledged = t}`
is `5B 04 00 t 4F 4B 5D`, and `ParseMessage` of that frame returns
`ACK{Acknowledged = t}`; `5B 04 00 09 4F 4B 5D` acknowledges HeartRateType
(0x09) and is encoded back to the same bytes. -/
theorem ACK_round_trip (t : Byte) :
    EncodeMessage (Message.ACK ⟨t⟩) = .ok [0x5B, 0x04, 0x00, t, 0x4F, 0x4B, 0x5D] ∧
    ParseMessage [0x5B, 0x04, 0x00, t, 0x4F, 0x4B, 0x5D] = .ok (Message.ACK ⟨t⟩) ∧
    ParseMessage [0x5B, 0x04, 0x00, 0x09, 0x4F, 0x4B, 0x5D]
      = .ok (Message.ACK ⟨MessageTypeHeartRateType⟩) ∧
    EncodeMessage (Message.ACK ⟨MessageTypeHeartRateType⟩)
      = .ok [0x5B, 0x04, 0x00, 0x09, 0x4F, 0x4B, 0x5D] := by
  refine ⟨by with_unfolding_all rfl, by with_unfolding_all rfl, by decide, by decide⟩

/-- Claim C17. The `Program` field is big-endian on the wire: for every 16-bit
value `p`, `EncodeMessage` of `Program{p}` is `5B 03 08 (p div 256) (p mod 256) 5D`;
for every two bytes `hi`, `lo`, `ParseMessage` of `5B 03 08 hi lo 5D` returns
`Program{256*hi + lo}`, with no 16-bit overflow; and `5B 03 08 10 01 5D` is
parsed to 0x1001 (Manual) and encoded back to the same bytes. -/
theorem Program_big_endian :
    (∀ p : Uint16, ∃ hi lo : Byte, hi.val = p.val / 256 ∧ lo.val = p.val % 256 ∧
      EncodeMessage (Message.Program ⟨p⟩) = .ok [0x5B, 0x03, 0x08, hi, lo, 0x5D]) ∧
    (∀ hi lo : Byte, ∃ p : Uint16, p.val = 256 * hi.val + lo.val ∧
      ParseMessage [0x5B, 0x03, 0x08, hi, lo, 0x5D] = .ok (Message.Program ⟨p⟩)) ∧
    ParseMessage [0x5B, 0x03, 0x08, 0x10, 0x01, 0x5D] = .ok (Message.Program ⟨0x1001⟩) ∧
    EncodeMessage (Message.Program ⟨0x1001⟩) = .ok [0x5B, 0x03, 0x08, 0x10, 0x01, 0x5D] := by
  refine ⟨fun p => ⟨(p.shr 8).toByte, p.toByte, Uint16.hi_val p, Uint16.lo_val p,
      by with_unfolding_all rfl⟩,
    fun hi lo => ⟨((uint16 hi).shl 8).add (uint16 lo), Uint16.join_val hi lo,
      by with_unfolding_all rfl⟩,
    by decide, by decide⟩

/-- Claim C18. For every time byte `t` and 16-bit calories `c`, `EncodeMessage` of
`WorkoutTarget{t, c}` is `5B 05 04 t 00 (c div 256) (c mod 256) 5D`, the
reserved byte always 0; and for every four bytes `t`, `r`, `hi`, `lo`,
`ParseMessage` of `5B 05 04 t r hi lo 5D` returns
`WorkoutTarget{Time = t, Calories = 256*hi + lo}` whatever the reserved byte `r`
is. -/
theorem WorkoutTarget_layout :
    (∀ (t : Byte) (c : Uint16), ∃ hi lo : Byte, hi.val = c.val / 256 ∧ lo.val = c.val % 256 ∧
      EncodeMessage (Message.WorkoutTarget ⟨t, c⟩) =
        .ok [0x5B, 0x05, 0x04, t, 0x00, hi, lo, 0x5D]) ∧
    (∀ t r hi lo : Byte, ∃ c : Uint16, c.val = 256 * hi.val + lo.val ∧
      ParseMessage [0x5B, 0x05, 0x04, t, r, hi, lo, 0x5D] =
        .ok (Message.WorkoutTarget ⟨t, c⟩)) := by
  refine ⟨fun t c => ⟨(c.shr 8).toByte, c.toByte, Uint16.hi_val c, Uint16.lo_val c,
      by with_unfolding_all rfl⟩,
    fun t r hi lo => ⟨((uint16 hi).shl 8).add (uint16 lo), Uint16.join_val hi lo,
      by with_unfolding_all rfl⟩⟩

/-- Claim C19. For every nine bytes `b1 .. b9` the frame `5B 0A 32 b1 .. b9 5D` is
parsed to an `EndWorkout` with Seconds = 256*b1 + b2, Distance = 256*b3 + b4,
Calories = 256*b5 + b6, Speed = b7, HeartRate = b8, Incline = b9, and
`EncodeMessage` of that message returns the identical 13-byte frame. -/
theorem ParseMessage_EndWorkout_frame (b1 b2 b3 b4 b5 b6 b7 b8 b9 : Byte) :
    ∃ m : MessageEndWorkout,
      ParseMessage [0x5B, 0x0A, 0x32, b1, b2, b3, b4, b5, b6, b7, b8, b9,
        0x5D] = .ok (.EndWorkout m) ∧
      m.Seconds.val = 256 * b1.val + b2.val ∧ m.Distance.val = 256 * b3.val + b4.val ∧
      m.Calories.val = 256 * b5.val + b6.val ∧ m.Speed = b7 ∧ m.HeartRate = b8 ∧
      m.Incline = b9 ∧
      EncodeMessage (Message.EndWorkout m) =
        .ok [0x5B, 0x0A, 0x32, b1, b2, b3, b4, b5, b6, b7, b8, b9, 0x5D] ∧
      (List.length (α := Byte) [0x5B, 0x0A, 0x32, b1, b2, b3, b4, b5, b6, b7, b8, b9,
        0x5D]) = 13 := by
  refine ⟨⟨((uint16 b1).shl 8).add (uint16 b2), ((uint16 b3).shl 8).add (uint16 b4),
    ((uint16 b5).shl 8).add (uint16 b6), b7, b8, b9⟩, by with_unfolding_all rfl,
    Uint16.join_val _ _, Uint16.join_val _ _, Uint16.join_val _ _, rfl, rfl, rfl, ?_, rfl⟩
  refine Eq.trans (b := .ok
    [0x5B, 0x0A, 0x32, (Uint16.shr (((uint16 b1).shl 8).add (uint16 b2)) 8).toByte,
      Uint16.toByte (((uint16 b1).shl 8).add (uint16 b2)),
      (Uint16.shr (((uint16 b3).shl 8).add (uint16 b4)) 8).toByte,
      Uint16.toByte (((uint16 b3).shl 8).add (uint16 b4)),
      (Uint16.shr (((uint16 b5).shl 8).add (uint16 b6)) 8).toByte,
      Uint16.toByte (((uint16 b5).shl 8).add (uint16 b6)), b7, b8, b9, 0x5D])
    (by with_unfolding_all rfl) ?_
  simp only [Uint16.split_join_hi, Uint16.split_join_lo]

/-- Claim C20. For every eighteen bytes `g0 .. g17` the frame `5B 13 40 g0 .. g17 5D`
is parsed to a `ProgramGraphics` whose `Graph[i]` is `gi` for every `i` from 0
to 17, in order, and `EncodeMessage` of that message returns the identical
22-byte frame. -/
theorem ParseMessage_ProgramGraphics_frame
    (g0 g1 g2 g3 g4 g5 g6 g7 g8 g9 g10 g11 g12 g13 g14 g15 g16 g17 : Byte) :
    ∃ m : MessageProgramGraphics,
      ParseMessage [0x5B, 0x13, 0x40, g0, g1, g2, g3, g4, g5, g6, g7, g8, g9, g10, g11, g12, g13,
        g14, g15, g16, g17, 0x5D] = .ok (.ProgramGraphics m) ∧
      m.Graph 0 = g0 ∧ m.Graph 1 = g1 ∧ m.Graph 2 = g2 ∧ m.Graph 3 = g3 ∧ m.Graph 4 = g4 ∧
      m.Graph 5 = g5 ∧ m.Graph 6 = g6 ∧ m.Graph 7 = g7 ∧ m.Graph 8 = g8 ∧ m.Graph 9 = g9 ∧
      m.Graph 10 = g10 ∧ m.Graph 11 = g11 ∧ m.Graph 12 = g12 ∧ m.Graph 13 = g13 ∧
      m.Graph 14 = g14 ∧ m.Graph 15 = g15 ∧ m.Graph 16 = g16 ∧ m.Graph 17 = g17 ∧
      (∀ i : Fin 18, m.Graph i =
        [g0, g1, g2, g3, g4, g5, g6, g7, g8, g9, g10, g11, g12, g13, g14, g15, g16,
          g17].getD i.val 0) ∧
      EncodeMessage (Message.ProgramGraphics m) =
        .ok [0x5B, 0x13, 0x40, g0, g1, g2, g3, g4, g5, g6, g7, g8, g9, g10, g11, g12, g13, g14,
          g15, g16, g17, 0x5D] ∧
      (List.length (α := Byte) [0x5B, 0x13, 0x40, g0, g1, g2, g3, g4, g5, g6, g7, g8, g9, g10,
        g11, g12, g13, g14, g15, g16, g17, 0x5D]) = 22 := by
  refine ⟨⟨![g0, g1, g2, g3, g4, g5, g6, g7, g8, g9, g10, g11, g12, g13, g14, g15, g16,
    g17]⟩, by with_unfolding_all rfl,
    rfl, rfl, rfl, rfl, rfl, rfl, rfl, rfl, rfl, rfl, rfl, rfl, rfl, rfl, rfl, rfl, rfl, rfl,
    ?_, by with_unfolding_all rfl, rfl⟩
  intro i
  fin_cases i <;> rfl

/-! ## The one-field variants -/

/-- The frame `5B 02 02 x 5D` is a `SetWorkoutMode` with its field equal to `x`, in both
directions. -/
theorem MessageSetWorkoutMode_frame (x : Byte) :
    ParseMessage [0x5B, 0x02, 0x02, x, 0x5D] = .ok (Message.SetWorkoutMode ⟨x⟩) ∧
    EncodeMessage (Message.SetWorkoutMode ⟨x⟩) = .ok [0x5B, 0x02, 0x02, x, 0x5D] :=
  ⟨by with_unfolding_all rfl, by with_unfolding_all rfl⟩

/-- The frame `5B 02 03 x 5D` is a `WorkoutMode` with its field equal to `x`, in both
directions. -/
theorem MessageWorkoutMode_frame (x : Byte) :
    ParseMessage [0x5B, 0x02, 0x03, x, 0x5D] = .ok (Message.WorkoutMode ⟨x⟩) ∧
    EncodeMessage (Message.WorkoutMode ⟨x⟩) = .ok [0x5B, 0x02, 0x03, x, 0x5D] :=
  ⟨by with_unfolding_all rfl, by with_unfolding_all rfl⟩

/-- The frame `5B 02 10 x 5D` is a `ErrorCode` with its field equal to `x`, in both
directions. -/
theorem MessageErrorCode_frame (x : Byte) :
    ParseMessage [0x5B, 0x02, 0x10, x, 0x5D] = .ok (Message.ErrorCode ⟨x⟩) ∧
    EncodeMessage (Message.ErrorCode ⟨x⟩) = .ok [0x5B, 0x02, 0x10, x, 0x5D] :=
  ⟨by with_unfolding_all rfl, by with_unfolding_all rfl⟩

/-- The frame `5B 02 11 x 5D` is a `Speed` with its field equal to `x`, in both
directions. -/
theorem MessageSpeed_frame (x : Byte) :
    ParseMessage [0x5B, 0x02, 0x11, x, 0x5D] = .ok (Message.Speed ⟨x⟩) ∧
    EncodeMessage (Message.Speed ⟨x⟩) = .ok [0x5B, 0x02, 0x11, x, 0x5D] :=
  ⟨by with_unfolding_all rfl, by with_unfolding_all rfl⟩

/-- The frame `5B 02 12 x 5D` is a `Incline` with its field equal to `x`, in both
directions. -/
theorem MessageIncline_frame (x : Byte) :
    ParseMessage [0x5B, 0x02, 0x12, x, 0x5D] = .ok (Message.Incline ⟨x⟩) ∧
    EncodeMessage (Message.Incline ⟨x⟩) = .ok [0x5B, 0x02, 0x12, x, 0x5D] :=
  ⟨by with_unfolding_all rfl, by with_unfolding_all rfl⟩

/-- The frame `5B 02 13 x 5D` is a `Level` with its field equal to `x`, in both
directions. -/
theorem MessageLevel_frame (x : Byte) :
    ParseMessage [0x5B, 0x02, 0x13, x, 0x5D] = .ok (Message.Level ⟨x⟩) ∧
    EncodeMessage (Message.Level ⟨x⟩) = .ok [0x5B, 0x02, 0x13, x, 0x5D] :=
  ⟨by with_unfolding_all rfl, by with_unfolding_all rfl⟩

/-- The frame `5B 02 14 x 5D` is a `RPM` with its field equal to `x`, in both
directions. -/
theorem MessageRPM_frame (x : Byte) :
    ParseMessage [0x5B, 0x02, 0x14, x, 0x5D] = .ok (Message.RPM ⟨x⟩) ∧
    EncodeMessage (Message.RPM ⟨x⟩) = .ok [0x5B, 0x02, 0x14, x, 0x5D] :=
  ⟨by with_unfolding_all rfl, by with_unfolding_all rfl⟩

/-- The frame `5B 02 15 x 5D` is a `HeartRate` with its field equal to `x`, in both
directions. -/
theorem MessageHeartRate_frame (x : Byte) :
    ParseMessage [0x5B, 0x02, 0x15, x, 0x5D] = .ok (Message.HeartRate ⟨x⟩) ∧
    EncodeMessage (Message.HeartRate ⟨x⟩) = .ok [0x5B, 0x02, 0x15, x, 0x5D] :=
  ⟨by with_unfolding_all rfl, by with_unfolding_all rfl⟩

/-- The frame `5B 02 20 x 5D` is a `TargetHeartRate` with its field equal to `x`, in both
directions. -/
theorem MessageTargetHeartRate_frame (x : Byte) :
    ParseMessage [0x5B, 0x02, 0x20, x, 0x5D] = .ok (Message.TargetHeartRate ⟨x⟩) ∧
    EncodeMessage (Message.TargetHeartRate ⟨x⟩) = .ok [0x5B, 0x02, 0x20, x, 0x5D] :=
  ⟨by with_unfolding_all rfl, by with_unfolding_all rfl⟩

/-- The frame `5B 02 21 x 5D` is a `MaxSpeed` with its field equal to `x`, in both
directions. -/
theorem MessageMaxSpeed_frame (x : Byte) :
    ParseMessage [0x5B, 0x02, 0x21, x, 0x5D] = .ok (Message.MaxSpeed ⟨x⟩) ∧
    EncodeMessage (Message.MaxSpeed ⟨x⟩) = .ok [0x5B, 0x02, 0x21, x, 0x5D] :=
  ⟨by with_unfolding_all rfl, by with_unfolding_all rfl⟩

/-- The frame `5B 02 22 x 5D` is a `MaxIncline` with its field equal to `x`, in both
directions. -/
theorem MessageMaxIncline_frame (x : Byte) :
    ParseMessage [0x5B, 0x02, 0x22, x, 0x5D] = .ok (Message.MaxIncline ⟨x⟩) ∧
    EncodeMessage (Message.MaxIncline ⟨x⟩) = .ok [0x5B, 0x02, 0x22, x, 0x5D] :=
  ⟨by with_unfolding_all rfl, by with_unfolding_all rfl⟩

/-- The frame `5B 02 23 x 5D` is a `MaxLevel` with its field equal to `x`, in both
directions. -/
theorem MessageMaxLevel_frame (x : Byte) :
    ParseMessage [0x5B, 0x02, 0x23, x, 0x5D] = .ok (Message.MaxLevel ⟨x⟩) ∧
    EncodeMessage (Message.MaxLevel ⟨x⟩) = .ok [0x5B, 0x02, 0x23, x, 0x5D] :=
  ⟨by with_unfolding_all rfl, by with_unfolding_all rfl⟩

/-- The frame `5B 02 27 x 5D` is a `UserLevel` with its field equal to `x`, in both
directions. -/
theorem MessageUserLevel_frame (x : Byte) :
    ParseMessage [0x5B, 0x02, 0x27, x, 0x5D] = .ok (Message.UserLevel ⟨x⟩) ∧
    EncodeMessage (Message.UserLevel ⟨x⟩) = .ok [0x5B, 0x02, 0x27, x, 0x5D] :=
  ⟨by with_unfolding_all rfl, by with_unfolding_all rfl⟩

/-- The frame `5B 02 F1 x 5D` is a `Command` with its field equal to `x`, in both
directions. -/
theorem MessageCommand_frame (x : Byte) :
    ParseMessage [0x5B, 0x02, 0xF1, x, 0x5D] = .ok (Message.Command ⟨x⟩) ∧
    EncodeMessage (Message.Command ⟨x⟩) = .ok [0x5B, 0x02, 0xF1, x, 0x5D] :=
  ⟨by with_unfolding_all rfl, by with_unfolding_all rfl⟩

/-- Claim C21. For every two bytes `a` and `b`, the frame `5B 03 09 a b 5D` is
parsed to `HeartRateType{Type1 = a, Type2 = b}`, and `EncodeMessage` of that
message returns the same frame; `5B 03 09 01 00 5D` is the frame of the tests. -/
theorem HeartRateType_round_trip (a b : Byte) :
    (∃ m : MessageHeartRateType,
      ParseMessage [0x5B, 0x03, 0x09, a, b, 0x5D] = .ok (Message.HeartRateType m) ∧
      m.Type1 = a ∧ m.Type2 = b ∧
      EncodeMessage (Message.HeartRateType m) = .ok [0x5B, 0x03, 0x09, a, b, 0x5D]) ∧
    ParseMessage [0x5B, 0x03, 0x09, 0x01, 0x00, 0x5D] = .ok (Message.HeartRateType ⟨1, 0⟩) ∧
    EncodeMessage (Message.HeartRateType ⟨1, 0⟩) = .ok [0x5B, 0x03, 0x09, 0x01, 0x00, 0x5D] :=
  ⟨⟨⟨a, b⟩, by with_unfolding_all rfl, rfl, rfl, by with_unfolding_all rfl⟩,
    by decide, by decide⟩

/-- Claim C22. For each of the fourteen one-field variants SetWorkoutMode 0x02,
WorkoutMode 0x03, ErrorCode 0x10, Speed 0x11, Incline 0x12, Level 0x13, RPM 0x14,
HeartRate 0x15, TargetHeartRate 0x20, MaxSpeed 0x21, MaxIncline 0x22,
MaxLevel 0x23, UserLevel 0x27, Command 0xF1, of tag `t`, and for every byte `x`,
the frame `5B 02 t x 5D` is parsed to the variant of tag `t` with its single
field equal to `x`, and `EncodeMessage` of that message returns the same five
bytes. -/
theorem one_field_variants_round_trip (x : Byte) :
    (∃ m : MessageSetWorkoutMode, ParseMessage [0x5B, 0x02, 0x02, x, 0x5D] = .ok (Message.SetWorkoutMode m) ∧
      (Message.SetWorkoutMode m).MessageType = 0x02 ∧ m.Mode = x ∧
      EncodeMessage (Message.SetWorkoutMode m) = .ok [0x5B, 0x02, 0x02, x, 0x5D]) ∧
    (∃ m : MessageWorkoutMode, ParseMessage [0x5B, 0x02, 0x03, x, 0x5D] = .ok (Message.WorkoutMode m) ∧
      (Message.WorkoutMode m).MessageType = 0x03 ∧ m.Mode = x ∧
      EncodeMessage (Message.WorkoutMode m) = .ok [0x5B, 0x02, 0x03, x, 0x5D]) ∧
    (∃ m : MessageErrorCode, ParseMessage [0x5B, 0x02, 0x10, x, 0x5D] = .ok (Message.ErrorCode m) ∧
      (Message.ErrorCode m).MessageType = 0x10 ∧ m.Code = x ∧
      EncodeMessage (Message.ErrorCode m) = .ok [0x5B, 0x02, 0x10, x, 0x5D]) ∧
    (∃ m : MessageSpeed, ParseMessage [0x5B, 0x02, 0x11, x, 0x5D] = .ok (Message.Speed m) ∧
      (Message.Speed m).MessageType = 0x11 ∧ m.Speed = x ∧
      EncodeMessage (Message.Speed m) = .ok [0x5B, 0x02, 0x11, x, 0x5D]) ∧
    (∃ m : MessageIncline, ParseMessage [0x5B, 0x02, 0x12, x, 0x5D] = .ok (Message.Incline m) ∧
      (Message.Incline m).MessageType = 0x12 ∧ m.Incline = x ∧
      EncodeMessage (Message.Incline m) = .ok [0x5B, 0x02, 0x12, x, 0x5D]) ∧
    (∃ m : MessageLevel, ParseMessage [0x5B, 0x02, 0x13, x, 0x5D] = .ok (Message.Level m) ∧
      (Message.Level m).MessageType = 0x13 ∧ m.Level = x ∧
      EncodeMessage (Message.Level m) = .ok [0x5B, 0x02, 0x13, x, 0x5D]) ∧
    (∃ m : MessageRPM, ParseMessage [0x5B, 0x02, 0x14, x, 0x5D] = .ok (Message.RPM m) ∧
      (Message.RPM m).MessageType = 0x14 ∧ m.RPM = x ∧
      EncodeMessage (Message.RPM m) = .ok [0x5B, 0x02, 0x14, x, 0x5D]) ∧
    (∃ m : MessageHeartRate, ParseMessage [0x5B, 0x02, 0x15, x, 0x5D] = .ok (Message.HeartRate m) ∧
      (Message.HeartRate m).MessageType = 0x15 ∧ m.HeartRate = x ∧
      EncodeMessage (Message.HeartRate m) = .ok [0x5B, 0x02, 0x15, x, 0x5D]) ∧
    (∃ m : MessageTargetHeartRate, ParseMessage [0x5B, 0x02, 0x20, x, 0x5D] = .ok (Message.TargetHeartRate m) ∧
      (Message.TargetHeartRate m).MessageType = 0x20 ∧ m.HeartRate = x ∧
      EncodeMessage (Message.TargetHeartRate m) = .ok [0x5B, 0x02, 0x20, x, 0x5D]) ∧
    (∃ m : MessageMaxSpeed, ParseMessage [0x5B, 0x02, 0x21, x, 0x5D] = .ok (Message.MaxSpeed m) ∧
      (Message.MaxSpeed m).MessageType = 0x21 ∧ m.Speed = x ∧
      EncodeMessage (Message.MaxSpeed m) = .ok [0x5B, 0x02, 0x21, x, 0x5D]) ∧
    (∃ m : MessageMaxIncline, ParseMessage [0x5B, 0x02, 0x22, x, 0x5D] = .ok (Message.MaxIncline m) ∧
      (Message.MaxIncline m).MessageType = 0x22 ∧ m.MaxIncline = x ∧
      EncodeMessage (Message.MaxIncline m) = .ok [0x5B, 0x02, 0x22, x, 0x5D]) ∧
    (∃ m : MessageMaxLevel, ParseMessage [0x5B, 0x02, 0x23, x, 0x5D] = .ok (Message.MaxLevel m) ∧
      (Message.MaxLevel m).MessageType = 0x23 ∧ m.Level = x ∧
      EncodeMessage (Message.MaxLevel m) = .ok [0x5B, 0x02, 0x23, x, 0x5D]) ∧
    (∃ m : MessageUserLevel, ParseMessage [0x5B, 0x02, 0x27, x, 0x5D] = .ok (Message.UserLevel m) ∧
      (Message.UserLevel m).MessageType = 0x27 ∧ m.Level = x ∧
      EncodeMessage (Message.UserLevel m) = .ok [0x5B, 0x02, 0x27, x, 0x5D]) ∧
    (∃ m : MessageCommand, ParseMessage [0x5B, 0x02, 0xF1, x, 0x5D] = .ok (Message.Command m) ∧
      (Message.Command m).MessageType = 0xF1 ∧ m.Command = x ∧
      EncodeMessage (Message.Command m) = .ok [0x5B, 0x02, 0xF1, x, 0x5D]) :=
  ⟨⟨⟨x⟩, (MessageSetWorkoutMode_frame x).1, rfl, rfl, (MessageSetWorkoutMode_frame x).2⟩,
   ⟨⟨x⟩, (MessageWorkoutMode_frame x).1, rfl, rfl, (MessageWorkoutMode_frame x).2⟩,
   ⟨⟨x⟩, (MessageErrorCode_frame x).1, rfl, rfl, (MessageErrorCode_frame x).2⟩,
   ⟨⟨x⟩, (MessageSpeed_frame x).1, rfl, rfl, (MessageSpeed_frame x).2⟩,
   ⟨⟨x⟩, (MessageIncline_frame x).1, rfl, rfl, (MessageIncline_frame x).2⟩,
   ⟨⟨x⟩, (MessageLevel_frame x).1, rfl, rfl, (MessageLevel_frame x).2⟩,
   ⟨⟨x⟩, (MessageRPM_frame x).1, rfl, rfl, (MessageRPM_frame x).2⟩,
   ⟨⟨x⟩, (MessageHeartRate_frame x).1, rfl, rfl, (MessageHeartRate_frame x).2⟩,
   ⟨⟨x⟩, (MessageTargetHeartRate_frame x).1, rfl, rfl, (MessageTargetHeartRate_frame x).2⟩,
   ⟨⟨x⟩, (MessageMaxSpeed_frame x).1, rfl, rfl, (MessageMaxSpeed_frame x).2⟩,
   ⟨⟨x⟩, (MessageMaxIncline_frame x).1, rfl, rfl, (MessageMaxIncline_frame x).2⟩,
   ⟨⟨x⟩, (MessageMaxLevel_frame x).1, rfl, rfl, (MessageMaxLevel_frame x).2⟩,
   ⟨⟨x⟩, (MessageUserLevel_frame x).1, rfl, rfl, (MessageUserLevel_frame x).2⟩,
   ⟨⟨x⟩, (MessageCommand_frame x).1, rfl, rfl, (MessageCommand_frame x).2⟩⟩

/-- Claim C23 (the code departs from it). For every byte `x` the well-framed
`UserIncline` frame `5B 02 25 x 5D` is refused by `ParseMessage`: `Create`
makes a `MessageUserLevel` for tag 0x25, and the sanity check of that variant
expects tag 0x27. No message carrying `x` is returned. -/
theorem ParseMessage_UserIncline_tag_refused (x : Byte) :
    WellFramed [0x5B, 0x02, 0x25, x, 0x5D] ∧
    MessageType.Create MessageTypeUserIncline = some (Message.UserLevel MessageUserLevel.zero) ∧
    ParseMessage [0x5B, 0x02, 0x25, x, 0x5D] =
      .error (.err (.wrongCommand MessageTypeUserLevel MessageTypeUserIncline)) ∧
    ParseMessage [0x5B, 0x02, 0x25, 0x05, 0x5D] =
      .error (.err (.wrongCommand MessageTypeUserLevel MessageTypeUserIncline)) := by
  refine ⟨?_, by decide, by with_unfolding_all rfl, by decide⟩
  unfold WellFramed
  refine ⟨by simp [len], rfl, rfl, rfl⟩

/-! ## The names of the enumerations -/

/-- The codes of `Program` that the specification lists. -/
theorem Program_String_unknown_iff (p : Program) :
    Program.String p = "Unknown" ↔
      p ∉ [ProgramManual, ProgramHill, ProgramFatBurn, ProgramCardio, ProgramStrength,
        ProgramInterval, ProgramUser1, ProgramUser2, ProgramHR1, ProgramHR2, ProgramFusion] := by
  constructor
  · intro h hmem
    simp only [List.mem_cons, List.mem_singleton, List.not_mem_nil, or_false] at hmem
    rcases hmem with rfl | rfl | rfl | rfl | rfl | rfl | rfl | rfl | rfl | rfl | rfl <;>
      exact absurd h (by decide)
  · intro hnot
    simp only [List.mem_cons, List.mem_singleton, List.not_mem_nil, or_false, not_or] at hnot
    obtain ⟨h1, h2, h3, h4, h5, h6, h7, h8, h9, h10, h11⟩ := hnot
    unfold Program.String
    simp only [h1, h2, h3, h4, h5, h6, h7, h8, h9, h10, h11, if_false]

set_option maxRecDepth 100000 in
/-- Claim C24. The enumerations are named as the specification lists them:
UnitsType 0 Metric, 1 Imperial; SexType 1 Male, 2 Female; WorkoutMode 1 Idle,
2 Start, 4 Running, 6 Pause, 7 Done; CommandType 1 Start, 2 LevelUp, 3 LevelDown,
6 Stop; Program 0x1001 Manual, 0x2002 Hill, 0x2003 FatBurn, 0x2004 Cardio,
0x2005 Strength, 0x2006 Interval, 0x3007 User1, 0x3008 User2, 0x3009 HR1,
0x300A HR2, 0x600C Fusion; DeviceModel 146 F80. `String()` returns "Unknown"
for a code if and only if the code is outside its list, and a frame that
carries any code, listed or not, is parsed with the raw code preserved. -/
theorem enumeration_names :
    (UnitsType.String 0 = "Metric" ∧ UnitsType.String 1 = "Imperial") ∧
    (SexType.String 1 = "Male" ∧ SexType.String 2 = "Female") ∧
    (WorkoutMode.String 1 = "Idle" ∧ WorkoutMode.String 2 = "Start" ∧
      WorkoutMode.String 4 = "Running" ∧ WorkoutMode.String 6 = "Pause" ∧
      WorkoutMode.String 7 = "Done") ∧
    (CommandType.String 1 = "Start" ∧ CommandType.String 2 = "LevelUp" ∧
      CommandType.String 3 = "LevelDown" ∧ CommandType.String 6 = "Stop") ∧
    (Program.String 0x1001 = "Manual" ∧ Program.String 0x2002 = "Hill" ∧
      Program.String 0x2003 = "FatBurn" ∧ Program.String 0x2004 = "Cardio" ∧
      Program.String 0x2005 = "Strength" ∧ Program.String 0x2006 = "Interval" ∧
      Program.String 0x3007 = "User1" ∧ Program.String 0x3008 = "User2" ∧
      Program.String 0x3009 = "HR1" ∧ Program.String 0x300A = "HR2" ∧
      Program.String 0x600C = "Fusion") ∧
    DeviceModel.String 146 = "F80" ∧
    (∀ u : Byte, UnitsType.String u = "Unknown" ↔ u ∉ [(0 : Byte), 1]) ∧
    (∀ s : Byte, SexType.String s = "Unknown" ↔ s ∉ [(1 : Byte), 2]) ∧
    (∀ m : Byte, WorkoutMode.String m = "Unknown" ↔ m ∉ [(1 : Byte), 2, 4, 6, 7]) ∧
    (∀ c : Byte, CommandType.String c = "Unknown" ↔ c ∉ [(1 : Byte), 2, 3, 6]) ∧
    (∀ p : Uint16, Program.String p = "Unknown" ↔
      p ∉ [(0x1001 : Uint16), 0x2002, 0x2003, 0x2004, 0x2005, 0x2006, 0x3007, 0x3008, 0x3009,
        0x300A, 0x600C]) ∧
    (∀ d : Byte, DeviceModel.String d = "Unknown" ↔ d ∉ [(146 : Byte)]) ∧
    (∀ model version units maxSpeed minSpeed inclineMax userSegment : Byte,
      ParseMessage [0x5B, 0x08, 0xF0, model, version, units, maxSpeed, minSpeed, inclineMax,
          userSegment, 0x5D] =
        .ok (Message.DeviceInfo
          ⟨model, version, units, maxSpeed, minSpeed, inclineMax, userSegment⟩)) ∧
    (∀ mode : Byte,
      ParseMessage [0x5B, 0x02, 0x03, mode, 0x5D] = .ok (Message.WorkoutMode ⟨mode⟩) ∧
      ParseMessage [0x5B, 0x02, 0x02, mode, 0x5D] = .ok (Message.SetWorkoutMode ⟨mode⟩)) ∧
    (∀ sex age hi lo height : Byte, ∃ weight : Uint16,
      ParseMessage [0x5B, 0x06, 0x07, sex, age, hi, lo, height, 0x5D] =
        .ok (Message.UserProfile ⟨sex, age, weight, height⟩)) ∧
    (∀ command : Byte,
      ParseMessage [0x5B, 0x02, 0xF1, command, 0x5D] = .ok (Message.Command ⟨command⟩)) ∧
    (∀ hi lo : Byte, ∃ p : Uint16, p.val = 256 * hi.val + lo.val ∧
      ParseMessage [0x5B, 0x03, 0x08, hi, lo, 0x5D] = .ok (Message.Program ⟨p⟩)) := by
  refine ⟨by decide, by decide, by decide, by decide, by decide, by decide,
    by decide, by decide, by decide, by decide, Program_String_unknown_iff, by decide,
    fun _ _ _ _ _ _ _ => by with_unfolding_all rfl,
    fun mode => ⟨(MessageWorkoutMode_frame mode).1, (MessageSetWorkoutMode_frame mode).1⟩,
    fun sex age hi lo height => ⟨((uint16 hi).shl 8).add (uint16 lo),
      by with_unfolding_all rfl⟩,
    fun command => (MessageCommand_frame command).1,
    fun hi lo => ⟨((uint16 hi).shl 8).add (uint16 lo), Uint16.join_val hi lo,
      by with_unfolding_all rfl⟩⟩

/-! ## The auto-reply of `recv` -/

/-- Claim C25. The auto-reply that `recv` chooses for a frame that was decoded to
`msg` depends on the tag alone: ACK, SetWorkoutMode and DeviceInfo give no reply;
a WorkoutMode gives exactly one reply, the same WorkoutMode; each of
WorkoutData, HeartRateType, ErrorCode, Speed, Incline, Level, RPM, HeartRate,
TargetHeartRate, MaxSpeed, MaxIncline, MaxLevel, EndWorkout, ProgramGraphics
gives exactly one reply, an ACK whose `Acknowledged` is the tag of the inbound
message; every other tag (WorkoutTarget, UserProfile, Program, UserIncline,
UserLevel, Command) gives no reply. In every case the listeners are called
with the message and a nil error. The ACK for a WorkoutData is the frame
`5B 04 00 06 4F 4B 5D`. -/
theorem recv_auto_reply (data : List Byte) (msg : Message) :
    ParseMessage data = .ok msg →
    recv data = .ok
      ⟨(match msg with
        | .ACK _ => []
        | .SetWorkoutMode _ => []
        | .DeviceInfo _ => []
        | .WorkoutMode wm => [Message.WorkoutMode wm]
        | .WorkoutData _ => [Message.ACK ⟨MessageTypeWorkoutData⟩]
        | .HeartRateType _ => [Message.ACK ⟨MessageTypeHeartRateType⟩]
        | .ErrorCode _ => [Message.ACK ⟨MessageTypeErrorCode⟩]
        | .Speed _ => [Message.ACK ⟨MessageTypeSpeed⟩]
        | .Incline _ => [Message.ACK ⟨MessageTypeIncline⟩]
        | .Level _ => [Message.ACK ⟨MessageTypeLevel⟩]
        | .RPM _ => [Message.ACK ⟨MessageTypeRPM⟩]
        | .HeartRate _ => [Message.ACK ⟨MessageTypeHeartRate⟩]
        | .TargetHeartRate _ => [Message.ACK ⟨MessageTypeTargetHeartRate⟩]
        | .MaxSpeed _ => [Message.ACK ⟨MessageTypeMaxSpeed⟩]
        | .MaxIncline _ => [Message.ACK ⟨MessageTypeMaxIncline⟩]
        | .MaxLevel _ => [Message.ACK ⟨MessageTypeMaxLevel⟩]
        | .EndWorkout _ => [Message.ACK ⟨MessageTypeEndWorkout⟩]
        | .ProgramGraphics _ => [Message.ACK ⟨MessageTypeProgramGraphics⟩]
        | .WorkoutTarget _ => []
        | .UserProfile _ => []
        | .Program _ => []
        | .UserIncline _ => []
        | .UserLevel _ => []
        | .Command _ => []
        ), (some msg, none)⟩ ∧
    EncodeMessage (Message.ACK ⟨MessageTypeWorkoutData⟩)
      = .ok [0x5B, 0x04, 0x00, 0x06, 0x4F, 0x4B, 0x5D] := by
  intro h
  refine ⟨?_, by decide⟩
  unfold recv
  rw [h]
  cases msg <;> rfl

/-- The witness of claim C25: the `WorkoutData` frame of the tests is answered
by one ACK of tag 0x06. -/
theorem recv_auto_reply_witness :
    recv [0x5B, 0x0F, 0x06, 0x09, 0x3B, 0x00, 0x00, 0x00, 0x00, 0x00, 0x05, 0x00, 0x00, 0x00,
        0x00, 0x00, 0x01, 0x5D] =
      .ok ⟨[Message.ACK ⟨MessageTypeWorkoutData⟩],
        (some (Message.WorkoutData ⟨9, 0x3B, 0, 0, 0, 5, 0, 0, 0, 0, 0, 1⟩), none)⟩ ∧
    EncodeMessage (Message.ACK ⟨MessageTypeWorkoutData⟩)
      = .ok [0x5B, 0x04, 0x00, 0x06, 0x4F, 0x4B, 0x5D] :=
  recv_auto_reply
    [0x5B, 0x0F, 0x06, 0x09, 0x3B, 0x00, 0x00, 0x00, 0x00, 0x00, 0x05, 0x00, 0x00, 0x00,
      0x00, 0x00, 0x01, 0x5D]
    (Message.WorkoutData ⟨9, 0x3B, 0, 0, 0, 5, 0, 0, 0, 0, 0, 1⟩) (by decide)

/-! ## The pending-response registry -/

theorem WaitMap.get_set_self (m : WaitMap) (k : MessageType) (v : List Chan) :
    (m.set k v).get k = v := by
  induction m with
  | nil => simp [WaitMap.set, WaitMap.get]
  | cons kv rest ih =>
    obtain ⟨k1, v1⟩ := kv
    by_cases hk : k1 = k
    · simp [WaitMap.set, WaitMap.get, hk]
    · simp [WaitMap.set, WaitMap.get, hk, ih]

theorem WaitMap.get_set_of_ne (m : WaitMap) (k k2 : MessageType) (v : List Chan)
    (h : k2 ≠ k) : (m.set k v).get k2 = m.get k2 := by
  induction m with
  | nil => simp [WaitMap.set, WaitMap.get, Ne.symm h]
  | cons kv rest ih =>
    obtain ⟨k1, v1⟩ := kv
    by_cases hk : k1 = k
    · subst hk
      simp [WaitMap.set, WaitMap.get, Ne.symm h]
    · by_cases hk2 : k1 = k2
      · subst hk2
        simp [WaitMap.set, WaitMap.get, hk]
      · simp [WaitMap.set, WaitMap.get, hk, hk2, ih]

/-- A channel in the bucket of a key is a channel of an entry of the map. -/
theorem WaitMap.mem_of_mem_get (m : WaitMap) (k : MessageType) (c : Chan)
    (h : c ∈ m.get k) : ∃ kv ∈ m, c ∈ kv.2 := by
  induction m with
  | nil => simp [WaitMap.get] at h
  | cons kv rest ih =>
    obtain ⟨k1, v1⟩ := kv
    by_cases hk : k1 = k
    · simp only [WaitMap.get, hk, if_true] at h
      exact ⟨(k1, v1), List.mem_cons_self _ _, h⟩
    · simp only [WaitMap.get, hk, if_false] at h
      obtain ⟨kv, hkv, hc⟩ := ih h
      exact ⟨kv, List.mem_cons_of_mem _ hkv, hc⟩

/-- Sends on open channels all complete, in the order of the slice. -/
theorem Runtime.sendEach_open (rt : Runtime) (chans : List Chan) (v : Signal)
    (h : ∀ c ∈ chans, c ∉ rt.closed) :
    rt.sendEach chans v =
      .ok { rt with sent := rt.sent ++ chans.map (fun c => (c, v)) } := by
  induction chans generalizing rt with
  | nil => simp [Runtime.sendEach]
  | cons c rest ih =>
    have hc : c ∉ rt.closed := h c (List.mem_cons_self _ _)
    have hrest : ∀ c2 ∈ rest, c2 ∉ rt.closed := fun c2 h2 => h c2 (List.mem_cons_of_mem _ h2)
    simp only [Runtime.sendEach, Runtime.send, hc, if_false]
    rw [ih { closed := rt.closed, sent := rt.sent ++ [(c, v)] } hrest]
    simp

/-- One send on a closed channel makes the whole loop panic. -/
theorem Runtime.sendEach_closed_head (rt : Runtime) (c : Chan) (chans : List Chan) (v : Signal)
    (h : c ∈ rt.closed) : rt.sendEach (c :: chans) v = .error Fault.panic := by
  simp [Runtime.sendEach, Runtime.send, h]

theorem Runtime.sendAll_open (rt : Runtime) (m : WaitMap) (v : Signal)
    (h : ∀ kv ∈ m, ∀ c ∈ kv.2, c ∉ rt.closed) :
    rt.sendAll m v =
      .ok { rt with sent := rt.sent ++ m.flatMap (fun kv => kv.2.map (fun c => (c, v))) } := by
  induction m generalizing rt with
  | nil => simp [Runtime.sendAll]
  | cons kv rest ih =>
    obtain ⟨k1, v1⟩ := kv
    have h1 : ∀ c ∈ v1, c ∉ rt.closed := h (k1, v1) (List.mem_cons_self _ _)
    have hrest : ∀ kv ∈ rest, ∀ c ∈ kv.2, c ∉ rt.closed :=
      fun kv hkv => h kv (List.mem_cons_of_mem _ hkv)
    simp only [Runtime.sendAll]
    rw [Runtime.sendEach_open rt v1 v h1]
    simp only
    rw [ih { closed := rt.closed, sent := rt.sent ++ v1.map (fun c => (c, v)) } hrest]
    simp

/-- When every channel of the bucket of the tag of `msg` is open, delivering `msg`
sends it to the channels of that bucket in the order of the slice, empties the
bucket, and leaves every other bucket as it was. -/
theorem waitForResponseListener_delivers_of_open (t : Treadmill) (rt : Runtime) (msg : Message)
    (hopen : ∀ c ∈ t.waitMap.get msg.MessageType, c ∉ rt.closed) :
    ∃ t1 rt1, t.waitForResponseListener rt (some msg) none = .ok (t1, rt1) ∧
      rt1.sent = rt.sent ++
        (t.waitMap.get msg.MessageType).map (fun c => (c, Signal.message msg)) ∧
      t1.waitMap.get msg.MessageType = [] ∧
      (∀ k, k ≠ msg.MessageType → t1.waitMap.get k = t.waitMap.get k) ∧
      rt1.closed = rt.closed ∧
      (∀ waitChan, waitChan ∉ t.waitMap.get msg.MessageType →
        (t1.WaitForResponse_register waitChan msg.MessageType).waitMap.get msg.MessageType
          = [waitChan] ∧
        ∀ s, (waitChan, s) ∈ rt1.sent → (waitChan, s) ∈ rt.sent) := by
  refine ⟨{ t with waitMap := t.waitMap.set msg.MessageType [] },
    { rt with sent := rt.sent ++
        (t.waitMap.get msg.MessageType).map (fun c => (c, Signal.message msg)) },
    ?_, rfl, WaitMap.get_set_self _ _ _,
    fun k hk => WaitMap.get_set_of_ne _ _ _ _ hk, rfl, ?_⟩
  · simp only [Treadmill.waitForResponseListener, Runtime.sendEach_open rt _ _ hopen, bind,
      Except.bind, pure, Except.pure]
  · intro waitChan hw
    constructor
    · simp only [Treadmill.WaitForResponse_register, WaitMap.get_set_self, List.nil_append]
    · intro s hs
      simp only [List.mem_append, List.mem_map, Prod.mk.injEq] at hs
      rcases hs with hs | ⟨c, hc, hcw, _⟩
      · exact hs
      · exact absurd (hcw ▸ hc) hw

/-- When every registered channel is open, delivering an error sends it once to
every registered channel and leaves the registry empty. -/
theorem waitForResponseListener_fails_all_of_open (t : Treadmill) (rt : Runtime)
    (msg : Option Message) (err : Error)
    (hopen : ∀ kv ∈ t.waitMap, ∀ c ∈ kv.2, c ∉ rt.closed) :
    ∃ t1 rt1, t.waitForResponseListener rt msg (some err) = .ok (t1, rt1) ∧
      rt1.sent = rt.sent ++
        t.waitMap.flatMap (fun kv => kv.2.map (fun c => (c, Signal.error err))) ∧
      (∀ k c, c ∈ t.waitMap.get k → (c, Signal.error err) ∈ rt1.sent) ∧
      t1.waitMap = [] ∧ (∀ k, t1.waitMap.get k = []) ∧
      rt1.closed = rt.closed := by
  refine ⟨{ t with waitMap := [] },
    { rt with sent := rt.sent ++
        t.waitMap.flatMap (fun kv => kv.2.map (fun c => (c, Signal.error err))) },
    ?_, rfl, ?_, rfl, fun k => rfl, rfl⟩
  · simp only [Treadmill.waitForResponseListener, Runtime.sendAll_open rt _ _ hopen, bind,
      Except.bind, pure, Except.pure]
  · intro k c hc
    obtain ⟨kv, hkv, hckv⟩ := WaitMap.mem_of_mem_get _ _ _ hc
    exact List.mem_append.mpr (Or.inr (List.mem_flatMap.mpr
      ⟨kv, hkv, List.mem_map.mpr ⟨c, hckv, rfl⟩⟩))

/-! ## Channels and the listener -/

theorem le_foldr_max (l : List Nat) (c : Nat) (h : c ∈ l) : c ≤ l.foldr max 0 := by
  induction l with
  | nil => cases h
  | cons a l ih =>
    simp only [List.foldr_cons]
    rcases List.mem_cons.mp h with rfl | h
    · exact le_max_left _ _
    · exact le_trans (ih h) (le_max_right _ _)

/-- The channel that `make` returns was not closed. -/
theorem makeChan_not_closed (t : Treadmill) (rt : Runtime) : makeChan t rt ∉ rt.closed := by
  intro h
  have := le_foldr_max (rt.closed ++ rt.sent.map Prod.fst ++ t.waitMap.flatMap Prod.snd) _
    (List.mem_append.mpr (Or.inl (List.mem_append.mpr (Or.inl h))))
  unfold makeChan at this
  omega

/-- Nothing was sent on the channel that `make` returns. -/
theorem makeChan_not_sent (t : Treadmill) (rt : Runtime) (v : Signal) :
    (makeChan t rt, v) ∉ rt.sent := by
  intro h
  have hm : makeChan t rt ∈ rt.sent.map Prod.fst := List.mem_map.mpr ⟨_, h, rfl⟩
  have := le_foldr_max (rt.closed ++ rt.sent.map Prod.fst ++ t.waitMap.flatMap Prod.snd) _
    (List.mem_append.mpr (Or.inl (List.mem_append.mpr (Or.inr hm))))
  unfold makeChan at this
  omega

/-- The channel that `make` returns is not registered. -/
theorem makeChan_not_registered (t : Treadmill) (rt : Runtime) (kv : MessageType × List Chan)
    (hkv : kv ∈ t.waitMap) : makeChan t rt ∉ kv.2 := by
  intro h
  have hm : makeChan t rt ∈ t.waitMap.flatMap Prod.snd := List.mem_flatMap.mpr ⟨kv, hkv, h⟩
  have := le_foldr_max (rt.closed ++ rt.sent.map Prod.fst ++ t.waitMap.flatMap Prod.snd) _
    (List.mem_append.mpr (Or.inr hm))
  unfold makeChan at this
  omega

/-- A loop of sends that completes has sent to every channel of the slice, in
order, and closed nothing. -/
theorem Runtime.sendEach_ok (rt rt1 : Runtime) (chans : List Chan) (v : Signal)
    (h : rt.sendEach chans v = .ok rt1) :
    rt1.closed = rt.closed ∧ rt1.sent = rt.sent ++ chans.map (fun c => (c, v)) := by
  induction chans generalizing rt with
  | nil =>
    simp only [Runtime.sendEach, Except.ok.injEq] at h
    subst h
    simp
  | cons c rest ih =>
    by_cases hc : c ∈ rt.closed
    · simp [Runtime.sendEach, Runtime.send, hc] at h
    · simp only [Runtime.sendEach, Runtime.send, hc, if_false] at h
      obtain ⟨h1, h2⟩ := ih _ h
      exact ⟨h1, by rw [h2]; simp⟩

/-- A loop of sends panics when one of the channels is closed. -/
theorem Runtime.sendEach_closed (rt : Runtime) (chans : List Chan) (v : Signal) (c : Chan)
    (hc : c ∈ chans) (hcl : c ∈ rt.closed) : rt.sendEach chans v = .error Fault.panic := by
  induction chans generalizing rt with
  | nil => cases hc
  | cons a rest ih =>
    by_cases ha : a ∈ rt.closed
    · simp [Runtime.sendEach, Runtime.send, ha]
    · have hne : c ≠ a := fun h => ha (h ▸ hcl)
      have hrest : c ∈ rest := by
        rcases List.mem_cons.mp hc with h | h
        · exact absurd h hne
        · exact h
      simp only [Runtime.sendEach, Runtime.send, ha, if_false]
      exact ih _ hrest hcl

theorem Runtime.sendAll_ok (rt rt1 : Runtime) (m : WaitMap) (v : Signal)
    (h : rt.sendAll m v = .ok rt1) :
    rt1.closed = rt.closed ∧
      rt1.sent = rt.sent ++ m.flatMap (fun kv => kv.2.map (fun c => (c, v))) := by
  induction m generalizing rt with
  | nil =>
    simp only [Runtime.sendAll, Except.ok.injEq] at h
    subst h
    simp
  | cons kv rest ih =>
    obtain ⟨k1, v1⟩ := kv
    simp only [Runtime.sendAll] at h
    cases hs : rt.sendEach v1 v with
    | error f => rw [hs] at h; cases h
    | ok rt2 =>
      rw [hs] at h
      obtain ⟨h1, h2⟩ := Runtime.sendEach_ok _ _ _ _ hs
      obtain ⟨h3, h4⟩ := ih _ h
      exact ⟨by rw [h3, h1], by rw [h4, h2]; simp⟩

/-- The broadcast panics when one registered channel is closed. -/
theorem Runtime.sendAll_closed (rt : Runtime) (m : WaitMap) (v : Signal)
    (kv : MessageType × List Chan) (c : Chan) (hkv : kv ∈ m) (hc : c ∈ kv.2)
    (hcl : c ∈ rt.closed) : rt.sendAll m v = .error Fault.panic := by
  induction m generalizing rt with
  | nil => cases hkv
  | cons kv1 rest ih =>
    obtain ⟨k1, v1⟩ := kv1
    simp only [Runtime.sendAll]
    cases hs : rt.sendEach v1 v with
    | error f =>
      by_cases hex : ∃ a ∈ v1, a ∈ rt.closed
      · obtain ⟨a, ha, hacl⟩ := hex
        rw [Runtime.sendEach_closed rt v1 v a ha hacl] at hs
        cases hs
        rfl
      · have hopen : ∀ a ∈ v1, a ∉ rt.closed := fun a ha hacl => hex ⟨a, ha, hacl⟩
        rw [Runtime.sendEach_open rt v1 v hopen] at hs
        cases hs
    | ok rt2 =>
      simp only
      obtain ⟨h1, -⟩ := Runtime.sendEach_ok _ _ _ _ hs
      rcases List.mem_cons.mp hkv with h | h
      · subst h
        rw [Runtime.sendEach_closed rt _ v c hc hcl] at hs
        cases hs
      · exact ih rt2 h (h1 ▸ hcl)

theorem WaitMap.mem_set (m : WaitMap) (k : MessageType) (v : List Chan)
    (kv : MessageType × List Chan) (h : kv ∈ m.set k v) : kv = (k, v) ∨ kv ∈ m := by
  induction m with
  | nil =>
    simp only [WaitMap.set, List.mem_singleton] at h
    exact Or.inl h
  | cons kv1 rest ih =>
    obtain ⟨k1, v1⟩ := kv1
    by_cases hk : k1 = k
    · simp only [WaitMap.set, hk, if_true, List.mem_cons] at h
      rcases h with h | h
      · exact Or.inl h
      · exact Or.inr (List.mem_cons_of_mem _ h)
    · simp only [WaitMap.set, hk, if_false, List.mem_cons] at h
      rcases h with h | h
      · exact Or.inr (h ▸ List.mem_cons_self _ _)
      · rcases ih h with h | h
        · exact Or.inl h
        · exact Or.inr (List.mem_cons_of_mem _ h)

/-- A channel in the bucket of a key is a channel of an entry with that key. -/
theorem WaitMap.mem_get (m : WaitMap) (k : MessageType) (c : Chan)
    (h : c ∈ m.get k) : ∃ kv ∈ m, kv.1 = k ∧ c ∈ kv.2 := by
  induction m with
  | nil => simp [WaitMap.get] at h
  | cons kv rest ih =>
    obtain ⟨k1, v1⟩ := kv
    by_cases hk : k1 = k
    · simp only [WaitMap.get, hk, if_true] at h
      exact ⟨(k1, v1), List.mem_cons_self _ _, hk, h⟩
    · simp only [WaitMap.get, hk, if_false] at h
      obtain ⟨kv, hkv, hk2, hc⟩ := ih h
      exact ⟨kv, List.mem_cons_of_mem _ hkv, hk2, hc⟩

/-- What a call of the listener that returns has done. -/
theorem waitForResponseListener_ok (t t1 : Treadmill) (rt rt1 : Runtime)
    (msg : Option Message) (err : Option Error)
    (h : t.waitForResponseListener rt msg err = .ok (t1, rt1)) :
    rt1.closed = rt.closed ∧ t1.client = t.client ∧
    ((∃ e, err = some e ∧ t1.waitMap = [] ∧
        rt1.sent = rt.sent ++
          t.waitMap.flatMap (fun kv => kv.2.map (fun c => (c, Signal.error e)))) ∨
      (∃ m, err = none ∧ msg = some m ∧ t1.waitMap = t.waitMap.set m.MessageType [] ∧
        rt1.sent = rt.sent ++
          (t.waitMap.get m.MessageType).map (fun c => (c, Signal.message m)))) := by
  cases err with
  | some e =>
    simp only [Treadmill.waitForResponseListener, bind, Except.bind, pure, Except.pure] at h
    cases hs : rt.sendAll t.waitMap (Signal.error e) with
    | error f => rw [hs] at h; cases h
    | ok rt2 =>
      rw [hs] at h
      simp only [Except.ok.injEq, Prod.mk.injEq] at h
      obtain ⟨ht, hrt⟩ := h
      subst ht hrt
      obtain ⟨h1, h2⟩ := Runtime.sendAll_ok _ _ _ _ hs
      exact ⟨h1, rfl, Or.inl ⟨e, rfl, rfl, h2⟩⟩
  | none =>
    cases msg with
    | none => simp [Treadmill.waitForResponseListener] at h
    | some m =>
      simp only [Treadmill.waitForResponseListener, bind, Except.bind, pure, Except.pure] at h
      cases hs : rt.sendEach (t.waitMap.get m.MessageType) (Signal.message m) with
      | error f => rw [hs] at h; cases h
      | ok rt2 =>
        rw [hs] at h
        simp only [Except.ok.injEq, Prod.mk.injEq] at h
        obtain ⟨ht, hrt⟩ := h
        subst ht hrt
        obtain ⟨h1, h2⟩ := Runtime.sendEach_ok _ _ _ _ hs
        exact ⟨h1, rfl, Or.inr ⟨m, rfl, rfl, rfl, h2⟩⟩

/-- Delivering a message panics when the bucket of its tag holds a closed
channel: no state is returned, so the bucket is not emptied and the waiters
behind the closed channel are sent nothing. -/
theorem waitForResponseListener_closed_in_bucket (t : Treadmill) (rt : Runtime)
    (msg : Message) (c : Chan) (hc : c ∈ t.waitMap.get msg.MessageType)
    (hcl : c ∈ rt.closed) :
    t.waitForResponseListener rt (some msg) none = .error Fault.panic := by
  simp only [Treadmill.waitForResponseListener,
    Runtime.sendEach_closed rt _ (Signal.message msg) c hc hcl, bind, Except.bind]

/-- Delivering an error panics when a closed channel is registered under any
tag, in whatever order the map is visited: the map is not cleared. -/
theorem waitForResponseListener_closed_in_registry (t : Treadmill) (rt : Runtime)
    (msg : Option Message) (err : Error) (kv : MessageType × List Chan) (c : Chan)
    (hkv : kv ∈ t.waitMap) (hc : c ∈ kv.2) (hcl : c ∈ rt.closed) :
    t.waitForResponseListener rt msg (some err) = .error Fault.panic := by
  simp only [Treadmill.waitForResponseListener,
    Runtime.sendAll_closed rt _ (Signal.error err) kv c hkv hc hcl, bind, Except.bind]

/-- Claim C26 (the code departs from it). A wait for ACK is cancelled, which
leaves its closed channel 0 in the bucket of ACK, and a second waiter registers
its channel 1 under ACK. Delivering an ACK then panics in the send on channel
0: the waiter of channel 1, registered under the tag of the message, is not
sent the message, and the bucket is not emptied. Seen from the second waiter,
its `WaitForResponse` ends in that panic. -/
theorem waitForResponseListener_panics_behind_cancelled_waiter :
    (Treadmill.mk (some Handle.mk) (some Handle.mk) (some Handle.mk) (some Handle.mk)
        []).WaitForResponse ⟨[], []⟩ 0 MessageTypeACK (.done (Error.foreign "context canceled"))
      = .ok ((Treadmill.mk (some Handle.mk) (some Handle.mk) (some Handle.mk) (some Handle.mk)
          [(MessageTypeACK, [0])], ⟨[0], []⟩),
        (none, some (Error.foreign "context canceled"))) ∧
    (Treadmill.mk (some Handle.mk) (some Handle.mk) (some Handle.mk) (some Handle.mk)
        [(MessageTypeACK, [0])]).WaitForResponse_register 1 MessageTypeACK
      = Treadmill.mk (some Handle.mk) (some Handle.mk) (some Handle.mk) (some Handle.mk)
          [(MessageTypeACK, [0, 1])] ∧
    (Treadmill.mk (some Handle.mk) (some Handle.mk) (some Handle.mk) (some Handle.mk)
        [(MessageTypeACK, [0, 1])]).waitForResponseListener ⟨[0], []⟩
        (some (Message.ACK ⟨MessageTypeProgram⟩)) none
      = .error Fault.panic ∧
    (Treadmill.mk (some Handle.mk) (some Handle.mk) (some Handle.mk) (some Handle.mk)
        [(MessageTypeACK, [0])]).WaitForResponse ⟨[0], []⟩ 1 MessageTypeACK
        (.listener (some (Message.ACK ⟨MessageTypeProgram⟩)) none
          (.done (Error.foreign "context canceled")))
      = .error Fault.panic := by
  decide

/-- Claim C27 (the code departs from it). A wait for ACK is cancelled, which
leaves its closed channel 0 in the bucket of ACK, and a waiter registers its
channel 1 under Speed. Delivering an error then panics in the send on channel
0, whichever of the two entries the loop over the map visits first: the
registry is not cleared, and when ACK is visited first the waiter of channel 1
is not sent the error. -/
theorem waitForResponseListener_broadcast_panics_on_cancelled_waiter :
    (Treadmill.mk (some Handle.mk) (some Handle.mk) (some Handle.mk) (some Handle.mk)
        []).WaitForResponse ⟨[], []⟩ 0 MessageTypeACK (.done (Error.foreign "context canceled"))
      = .ok ((Treadmill.mk (some Handle.mk) (some Handle.mk) (some Handle.mk) (some Handle.mk)
          [(MessageTypeACK, [0])], ⟨[0], []⟩),
        (none, some (Error.foreign "context canceled"))) ∧
    (Treadmill.mk (some Handle.mk) (some Handle.mk) (some Handle.mk) (some Handle.mk)
        [(MessageTypeACK, [0])]).WaitForResponse_register 1 MessageTypeSpeed
      = Treadmill.mk (some Handle.mk) (some Handle.mk) (some Handle.mk) (some Handle.mk)
          [(MessageTypeACK, [0]), (MessageTypeSpeed, [1])] ∧
    (Treadmill.mk (some Handle.mk) (some Handle.mk) (some Handle.mk) (some Handle.mk)
        [(MessageTypeACK, [0]), (MessageTypeSpeed, [1])]).waitForResponseListener ⟨[0], []⟩
        none (some (Error.recvTooShort 0 []))
      = .error Fault.panic ∧
    (Treadmill.mk (some Handle.mk) (some Handle.mk) (some Handle.mk) (some Handle.mk)
        [(MessageTypeSpeed, [1]), (MessageTypeACK, [0])]).waitForResponseListener ⟨[0], []⟩
        none (some (Error.recvTooShort 0 []))
      = .error Fault.panic ∧
    (Treadmill.mk (some Handle.mk) (some Handle.mk) (some Handle.mk) (some Handle.mk)
        [(MessageTypeACK, [0])]).WaitForResponse ⟨[0], []⟩ 1 MessageTypeSpeed
        (.listener none (some (Error.recvTooShort 0 []))
          (.done (Error.foreign "context canceled")))
      = .error Fault.panic := by
  decide

/-- After `WaitForResponse` has returned because the context was cancelled, its
channel is closed and is still in the bucket it was registered in. -/
theorem WaitForResponse_done (t : Treadmill) (rt : Runtime) (waitChan : Chan)
    (msgType : MessageType) (ctxErr : Error) (h : waitChan ∉ rt.closed) :
    ∃ t1 rt1, t.WaitForResponse rt waitChan msgType (.done ctxErr)
        = .ok ((t1, rt1), (none, some ctxErr)) ∧
      waitChan ∈ t1.waitMap.get msgType ∧ waitChan ∈ rt1.closed := by
  refine ⟨t.WaitForResponse_register waitChan msgType,
    { rt with closed := waitChan :: rt.closed }, ?_, ?_, List.mem_cons_self _ _⟩
  · simp [Treadmill.WaitForResponse, Treadmill.WaitForResponse_blocked, WaitForResponse_select,
      Runtime.close, h, bind, Except.bind, pure, Except.pure]
  · simp [Treadmill.WaitForResponse_register, WaitMap.get_set_self]

/-- Claim C28 (the code departs from it). `WaitForResponse` for tag ACK on an
empty registry, returning because the context was cancelled, returns the
error of the context and leaves its channel, now closed, in the bucket of ACK:
nothing removes it. The next ACK that is delivered is sent on that closed
channel, and the delivery panics. -/
theorem WaitForResponse_cancelled_waiter_retained :
    (Treadmill.mk (some Handle.mk) (some Handle.mk) (some Handle.mk) (some Handle.mk)
        []).WaitForResponse ⟨[], []⟩ 0 MessageTypeACK (.done (Error.foreign "context canceled"))
      = .ok ((Treadmill.mk (some Handle.mk) (some Handle.mk) (some Handle.mk) (some Handle.mk)
          [(MessageTypeACK, [0])], ⟨[0], []⟩),
        (none, some (Error.foreign "context canceled"))) ∧
    WaitMap.get [(MessageTypeACK, [0])] MessageTypeACK = [0] ∧
    (Treadmill.mk (some Handle.mk) (some Handle.mk) (some Handle.mk) (some Handle.mk)
        [(MessageTypeACK, [0])]).waitForResponseListener ⟨[0], []⟩
        (some (Message.ACK ⟨MessageTypeProgram⟩)) none
      = .error Fault.panic := by
  decide

/-- Claim C29 is false as stated: with one waiter registered under ACK, `Close`
returns nil and the waiter is still registered; `Close` performs no send. -/
theorem Close_leaves_waiter_registered :
    (Treadmill.mk (some Handle.mk) (some Handle.mk) (some Handle.mk) (some Handle.mk)
        [(MessageTypeACK, [0])]).Close none none none
      = (Treadmill.mk none none none none [(MessageTypeACK, [0])], none) ∧
    WaitMap.get [(MessageTypeACK, [0])] MessageTypeACK = [0] := by
  decide

/-- Claim C29, amended. `Close` clears the handles of the transport only: whatever
the three calls into the BLE library return, the pending-response registry
after `Close` is the registry before it, every outstanding waiter still
registered and none signalled. -/
theorem Close_keeps_registry (t : Treadmill)
    (clearSubscriptions cancelConnection stop : Option GoString) :
    (t.Close clearSubscriptions cancelConnection stop).1.waitMap = t.waitMap ∧
    ∀ k, (t.Close clearSubscriptions cancelConnection stop).1.waitMap.get k = t.waitMap.get k := by
  have h : (t.Close clearSubscriptions cancelConnection stop).1.waitMap = t.waitMap := by
    unfold Treadmill.Close
    cases t.client <;> cases clearSubscriptions <;> cases cancelConnection <;>
      cases hb : t.bleDevice <;> cases stop <;> simp [hb]
  exact ⟨h, fun k => by rw [h]⟩

/-! ## The state of `writeWithResponse` -/

theorem Runtime.received_mem (rt : Runtime) (c : Chan) (v : Signal)
    (h : rt.received c = some v) : (c, v) ∈ rt.sent := by
  unfold Runtime.received at h
  cases hf : rt.sent.find? (fun p => decide (p.1 = c)) with
  | none => rw [hf] at h; cases h
  | some p =>
    rw [hf] at h
    simp only [Option.map_some', Option.some.injEq] at h
    have hp := List.find?_some hf
    have hm := List.mem_of_find?_eq_some hf
    simp only [decide_eq_true_eq] at hp
    obtain ⟨p1, p2⟩ := p
    simp only at hp h
    subst hp h
    exact hm

/-- The state in which `writeWithResponse` enters its loop satisfies the
invariant. -/
theorem WriteState.Inv_init (t : Treadmill) (rt : Runtime) (expect : MessageType) :
    WriteState.Inv (makeChan t rt) expect
      ⟨t.WaitForResponse_register (makeChan t rt) expect, rt, none, none, false⟩ := by
  refine ⟨by simp, fun _ => makeChan_not_closed t rt, ?_, ?_, by simp⟩
  · intro kv hkv hc
    simp only [Treadmill.WaitForResponse_register] at hkv
    rcases WaitMap.mem_set _ _ _ _ hkv with h | h
    · rw [h]
    · exact absurd hc (makeChan_not_registered t rt kv h)
  · intro m hm
    exact absurd hm (makeChan_not_sent t rt _)

/-- A call of the listener during a sleep keeps the invariant. -/
theorem WriteState.Inv_sleepStep (c : Chan) (expect : MessageType) (s s1 : WriteState)
    (call : Option Message × Option Error) (hInv : WriteState.Inv c expect s)
    (h : writeWithResponse_sleepStep c s call = .ok s1) : WriteState.Inv c expect s1 := by
  obtain ⟨hJ, hN, hI1, hI2, hI3⟩ := hInv
  unfold writeWithResponse_sleepStep at h
  cases hl : s.t.waitForResponseListener s.rt call.1 call.2 with
  | error f => simp [hl, bind, Except.bind] at h
  | ok p =>
    obtain ⟨t1, rt1⟩ := p
    obtain ⟨hcl, -, hcase⟩ := waitForResponseListener_ok _ _ _ _ _ _ hl
    -- the registry and the log after the call
    have hI1' : ∀ kv ∈ t1.waitMap, c ∈ kv.2 → kv.1 = expect := by
      intro kv hkv hc
      rcases hcase with ⟨e, -, hw, -⟩ | ⟨m, -, -, hw, -⟩
      · rw [hw] at hkv; cases hkv
      · rw [hw] at hkv
        rcases WaitMap.mem_set _ _ _ _ hkv with h1 | h1
        · rw [h1] at hc; cases hc
        · exact hI1 kv h1 hc
    have hI2' : ∀ m, (c, Signal.message m) ∈ rt1.sent → m.MessageType = expect := by
      intro m hm
      rcases hcase with ⟨e, -, -, hs⟩ | ⟨m1, -, -, -, hs⟩
      · rw [hs] at hm
        rcases List.mem_append.mp hm with h1 | h1
        · exact hI2 m h1
        · simp only [List.mem_flatMap, List.mem_map, Prod.mk.injEq] at h1
          obtain ⟨_, _, _, _, _, h2⟩ := h1
          cases h2
      · rw [hs] at hm
        rcases List.mem_append.mp hm with h1 | h1
        · exact hI2 m h1
        · simp only [List.mem_map, Prod.mk.injEq, Signal.message.injEq] at h1
          obtain ⟨c1, hc1, hcc, hmm⟩ := h1
          subst hcc hmm
          obtain ⟨kv, hkv, hk, hckv⟩ := WaitMap.mem_get _ _ _ hc1
          rw [← hk]
          exact hI1 kv hkv hckv
    simp only [hl, bind, Except.bind, pure, Except.pure] at h
    obtain ⟨t0, rt0, resp, rerr, ret⟩ := s
    cases ret with
    | true =>
      simp only [if_true, Except.ok.injEq] at h
      subst h
      exact ⟨hJ, fun hf => by simp at hf, hI1', hI2', hI3⟩
    | false =>
      simp only [Bool.false_eq_true, if_false] at h
      cases hrec : rt1.received c with
      | none =>
        simp only [hrec, Except.ok.injEq] at h
        subst h
        exact ⟨hJ, fun _ => hcl ▸ hN rfl, hI1', hI2', hI3⟩
      | some v =>
        have hopen : c ∉ rt1.closed := hcl ▸ hN rfl
        have hmem := Runtime.received_mem _ _ _ hrec
        cases v with
        | message m =>
          simp only [hrec, WaitForResponse_select, Runtime.close, hopen, if_false, bind,
            Except.bind, pure, Except.pure, Except.ok.injEq] at h
          subst h
          exact ⟨by simp, by simp, hI1', hI2', by
            intro m2 hm2
            simp only [Option.some.injEq] at hm2
            subst hm2
            exact hI2' _ hmem⟩
        | error e =>
          simp only [hrec, WaitForResponse_select, Runtime.close, hopen, if_false, bind,
            Except.bind, pure, Except.pure, Except.ok.injEq] at h
          subst h
          exact ⟨by simp, by simp, hI1', hI2', by simp⟩

/-- A sleep keeps the invariant. -/
theorem WriteState.Inv_sleep (c : Chan) (expect : MessageType) (s s1 : WriteState)
    (calls : List (Option Message × Option Error)) (hInv : WriteState.Inv c expect s)
    (h : writeWithResponse_sleep c s calls = .ok s1) : WriteState.Inv c expect s1 := by
  induction calls generalizing s with
  | nil =>
    simp only [writeWithResponse_sleep, pure, Except.pure, Except.ok.injEq] at h
    exact h ▸ hInv
  | cons call rest ih =>
    simp only [writeWithResponse_sleep, bind, Except.bind] at h
    cases hs : writeWithResponse_sleepStep c s call with
    | error f => rw [hs] at h; cases h
    | ok s2 =>
      rw [hs] at h
      exact ih s2 (WriteState.Inv_sleepStep c expect s s2 call hInv hs) h

/-! ## The retry loop -/

/-- A frame that `t.write` has written is the encoding of the message. -/
theorem Treadmill.write_ok (t : Treadmill) (w : List Byte → Option Error) (msg : Message)
    (data : List Byte) (h : t.write w msg = .ok data) : EncodeMessage msg = .ok data := by
  unfold Treadmill.write at h
  cases he : EncodeMessage msg with
  | error f => simp [he, bind, Except.bind] at h
  | ok d =>
    simp only [he, bind, Except.bind] at h
    cases hc : t.client with
    | none => simp [hc, throw, throwThe, MonadExceptOf.throw] at h
    | some _ =>
      simp only [hc] at h
      cases hw : w d with
      | some err => simp [hw, throw, throwThe, MonadExceptOf.throw] at h
      | none =>
        simp only [hw, pure, Except.pure, Except.ok.injEq] at h
        rw [h]

/-- A `return` from a state that satisfies the invariant: the deferred `cancel()`
does not panic. -/
theorem writeWithResponse_return_of_Inv (c : Chan) (expect : MessageType) (s : WriteState)
    (writes : Nat) (wire : List (List Byte)) (result : Option Message × Option Error)
    (hInv : WriteState.Inv c expect s) :
    (writeWithResponse_return c s writes wire result).writes = writes ∧
    (writeWithResponse_return c s writes wire result).wire = wire ∧
    (writeWithResponse_return c s writes wire result).result = .ok result := by
  obtain ⟨-, hN, -⟩ := hInv
  obtain ⟨t0, rt0, resp, rerr, ret⟩ := s
  cases ret with
  | true => simp [writeWithResponse_return, writeWithResponse_cancel, pure, Except.pure]
  | false =>
    have hopen : c ∉ rt0.closed := hN rfl
    simp [writeWithResponse_return, writeWithResponse_cancel, WaitForResponse_select,
      Runtime.close, hopen, bind, Except.bind, pure, Except.pure]

/-- What holds of every run of the loop: the number of writes, the frames
written, and the tag of a message that is returned. -/
theorem writeWithResponse_loop_facts (env : WriteEnv) (msg : Message) (expect : MessageType)
    (c : Chan) (fuel idx : Nat) (s : WriteState) (wire : List (List Byte))
    (hInv : WriteState.Inv c expect s) :
    (writeWithResponse_loop env msg expect c fuel idx s wire).writes ≤ idx + fuel ∧
    (∃ extra, (writeWithResponse_loop env msg expect c fuel idx s wire).wire = wire ++ extra ∧
      (∀ f ∈ extra, EncodeMessage msg = .ok f) ∧
      extra.length + idx ≤ (writeWithResponse_loop env msg expect c fuel idx s wire).writes) ∧
    (∀ m e, (writeWithResponse_loop env msg expect c fuel idx s wire).result = .ok (some m, e) →
      m.MessageType = expect) := by
  induction fuel generalizing idx s wire with
  | zero =>
    obtain ⟨h1, h2, h3⟩ := writeWithResponse_return_of_Inv c expect s idx wire
      (none, some (Error.ackTimeout expect msg.MessageType)) hInv
    simp only [writeWithResponse_loop]
    refine ⟨by rw [h1]; omega, ⟨[], by rw [h2]; simp, by simp, by rw [h1]; simp⟩, ?_⟩
    intro m e hme
    rw [h3] at hme
    cases hme
  | succ fuel ih =>
    unfold writeWithResponse_loop
    cases hw : s.t.write (env.writeCharacteristic idx) msg with
    | error f =>
      cases f with
      | panic =>
        refine ⟨by simp only; omega, ⟨[], by simp, by simp, by simp⟩, ?_⟩
        intro m e hme
        cases hme
      | err err =>
        obtain ⟨h1, h2, h3⟩ := writeWithResponse_return_of_Inv c expect s (idx + 1) wire
          (none, some err) hInv
        simp only
        refine ⟨by rw [h1]; omega, ⟨[], by rw [h2]; simp, by simp, by rw [h1]; simp⟩, ?_⟩
        intro m e hme
        rw [h3] at hme
        cases hme
    | ok data =>
      have henc := Treadmill.write_ok _ _ _ _ hw
      simp only
      cases hs : writeWithResponse_sleep c s (env.listener idx) with
      | error f =>
        refine ⟨by simp only; omega, ⟨[data], rfl, by simpa using henc, by simp; omega⟩, ?_⟩
        intro m e hme
        cases hme
      | ok s1 =>
        have hInv1 := WriteState.Inv_sleep c expect s s1 _ hInv hs
        simp only
        by_cases hobs : s1.response ≠ none ∨ s1.responseError ≠ none
        · rw [if_pos hobs]
          obtain ⟨h1, h2, h3⟩ := writeWithResponse_return_of_Inv c expect s1 (idx + 1)
            (wire ++ [data]) (s1.response, s1.responseError) hInv1
          refine ⟨by rw [h1]; omega,
            ⟨[data], by rw [h2], by simpa using henc, by rw [h1]; simp; omega⟩, ?_⟩
          intro m e hme
          rw [h3] at hme
          simp only [Except.ok.injEq, Prod.mk.injEq] at hme
          exact hInv1.2.2.2.2 m hme.1
        · rw [if_neg hobs]
          obtain ⟨h1, ⟨extra, h2, h3, h4⟩, h5⟩ := ih (idx + 1) s1 (wire ++ [data]) hInv1
          refine ⟨by omega, ⟨data :: extra, by rw [h2]; simp, ?_, by simp; omega⟩, h5⟩
          intro f hf
          rcases List.mem_cons.mp hf with h | h
          · rw [h]; exact henc
          · exact h3 f h

/-- While the writes succeed and the sleeps leave the variables nil the loop
goes on. -/
theorem writeWithResponse_loop_skip (env : WriteEnv) (msg : Message) (expect : MessageType)
    (c : Chan) (st : Nat → WriteState) (fuel i n : Nat) (wire : List (List Byte))
    (hq : ∀ j, j < n →
      (∃ data, (st (i + j)).t.write (env.writeCharacteristic (i + j)) msg = .ok data) ∧
      writeWithResponse_sleep c (st (i + j)) (env.listener (i + j)) = .ok (st (i + j + 1)) ∧
      (st (i + j + 1)).response = none ∧ (st (i + j + 1)).responseError = none) :
    ∃ extra, extra.length = n ∧
      writeWithResponse_loop env msg expect c (fuel + n) i (st i) wire =
        writeWithResponse_loop env msg expect c fuel (i + n) (st (i + n)) (wire ++ extra) := by
  induction n generalizing i wire with
  | zero => exact ⟨[], rfl, by simp⟩
  | succ n ih =>
    obtain ⟨⟨data, hw⟩, hs, hr1, hr2⟩ := hq 0 (Nat.succ_pos n)
    simp only [Nat.add_zero] at hw hs hr1 hr2
    have hstep : writeWithResponse_loop env msg expect c (fuel + n + 1) i (st i) wire =
        writeWithResponse_loop env msg expect c (fuel + n) (i + 1) (st (i + 1))
          (wire ++ [data]) := by
      conv => lhs; unfold writeWithResponse_loop
      simp [hw, hs, hr1, hr2]
    obtain ⟨extra, hlen, heq⟩ := ih (i + 1) (wire ++ [data]) (by
      intro j hj
      have := hq (j + 1) (by omega)
      rw [show i + 1 + j = i + (j + 1) by omega]
      exact this)
    refine ⟨data :: extra, by simp [hlen], ?_⟩
    rw [show fuel + (n + 1) = fuel + n + 1 from rfl, hstep, heq]
    rw [show i + 1 + n = i + (n + 1) by omega]
    simp

/-- The states of a run whose sleeps return satisfy the invariant. -/
theorem WriteState.Inv_chain (env : WriteEnv) (c : Chan) (expect : MessageType)
    (st : Nat → WriteState) (n : Nat) (h0 : WriteState.Inv c expect (st 0))
    (hq : ∀ j, j < n → writeWithResponse_sleep c (st j) (env.listener j) = .ok (st (j + 1))) :
    WriteState.Inv c expect (st n) := by
  induction n with
  | zero => exact h0
  | succ n ih =>
    exact WriteState.Inv_sleep c expect _ _ _ (ih (fun j hj => hq j (by omega))) (hq n (by omega))

/-- On a `Treadmill` whose client is nil the first call of `t.write` panics
(`tread.go:327`), and `writeWithResponse` with it. -/
theorem writeWithResponse_nil_client (t : Treadmill) (rt : Runtime) (env : WriteEnv)
    (msg : Message) (expect : MessageType) (hc : t.client = none) :
    (t.writeWithResponse rt env msg expect).result = .error Fault.panic ∧
    (t.writeWithResponse rt env msg expect).writes = 1 ∧
    (t.writeWithResponse rt env msg expect).wire = [] := by
  obtain ⟨p, hp, -, -⟩ := Message.MarshalBinary_ok msg
  have henc := EncodeMessage_of_marshal msg p hp
  have hw : (t.WaitForResponse_register (makeChan t rt) expect).write
      (env.writeCharacteristic 0) msg = .error Fault.panic := by
    simp only [Treadmill.write, henc, bind, Except.bind, Treadmill.WaitForResponse_register, hc]
    rfl
  simp only [Treadmill.writeWithResponse]
  unfold writeWithResponse_loop
  simp [hw]

/-- Claim C30. `writeWithResponse(msg, expect)` writes the request at most 10
times, and every frame it writes is the encoding of `msg`; a message it returns
has the tag `expect`. Let `st j` be the state in which round `j` starts, the
rounds before round `k` having written without error and having left the
variables `response` and `responseError` nil. If the write of round `k` fails, that
error is returned after exactly `k + 1` calls of `t.write`. If the write of
round `k` succeeds and the sleep after it leaves a response, message or error,
in the variables, that response is returned after exactly `k + 1` writes, so no
further write is made; if a call of the listener panics during that sleep, the
run ends in that panic. If ten rounds pass in this way without a response, no
message and an error that wraps `ErrAckTimeout` are returned after 10 writes.
On a `Treadmill` whose client is nil the first call of `t.write` panics. -/
theorem writeWithResponse_retry (t : Treadmill) (rt : Runtime) (env : WriteEnv)
    (msg : Message) (expect : MessageType) :
    ((t.writeWithResponse rt env msg expect).writes ≤ 10 ∧
      (t.writeWithResponse rt env msg expect).wire.length ≤ (t.writeWithResponse rt env msg expect).writes ∧
      (∀ f ∈ (t.writeWithResponse rt env msg expect).wire, EncodeMessage msg = .ok f) ∧
      (∀ m e, (t.writeWithResponse rt env msg expect).result = .ok (some m, e) → m.MessageType = expect)) ∧
    (∀ (st : Nat → WriteState) (k : Nat), k < 10 →
      st 0 = ⟨t.WaitForResponse_register (makeChan t rt) expect, rt, none, none, false⟩ →
      (∀ j, j < k →
        (∃ data, (st j).t.write (env.writeCharacteristic j) msg = .ok data) ∧
        writeWithResponse_sleep (makeChan t rt) (st j) (env.listener j) = .ok (st (j + 1)) ∧
        (st (j + 1)).response = none ∧ (st (j + 1)).responseError = none) →
      (∀ err, (st k).t.write (env.writeCharacteristic k) msg = .error (.err err) →
        (t.writeWithResponse rt env msg expect).result = .ok (none, some err) ∧
        (t.writeWithResponse rt env msg expect).writes = k + 1 ∧
        (t.writeWithResponse rt env msg expect).wire.length = k) ∧
      (∀ data s1, (st k).t.write (env.writeCharacteristic k) msg = .ok data →
        writeWithResponse_sleep (makeChan t rt) (st k) (env.listener k) = .ok s1 →
        (s1.response ≠ none ∨ s1.responseError ≠ none) →
        (t.writeWithResponse rt env msg expect).result = .ok (s1.response, s1.responseError) ∧
        (t.writeWithResponse rt env msg expect).writes = k + 1 ∧
        (t.writeWithResponse rt env msg expect).wire.length = k + 1) ∧
      (∀ data f, (st k).t.write (env.writeCharacteristic k) msg = .ok data →
        writeWithResponse_sleep (makeChan t rt) (st k) (env.listener k) = .error f →
        (t.writeWithResponse rt env msg expect).result = .error f ∧
        (t.writeWithResponse rt env msg expect).writes = k + 1)) ∧
    (∀ (st : Nat → WriteState),
      st 0 = ⟨t.WaitForResponse_register (makeChan t rt) expect, rt, none, none, false⟩ →
      (∀ j, j < 10 →
        (∃ data, (st j).t.write (env.writeCharacteristic j) msg = .ok data) ∧
        writeWithResponse_sleep (makeChan t rt) (st j) (env.listener j) = .ok (st (j + 1)) ∧
        (st (j + 1)).response = none ∧ (st (j + 1)).responseError = none) →
      (t.writeWithResponse rt env msg expect).result =
        .ok (none, some (Error.ackTimeout expect msg.MessageType)) ∧
      (Error.ackTimeout expect msg.MessageType).Is .ErrAckTimeout = true ∧
      (t.writeWithResponse rt env msg expect).writes = 10 ∧
      (t.writeWithResponse rt env msg expect).wire.length = 10) ∧
    (t.client = none →
      (t.writeWithResponse rt env msg expect).result = .error Fault.panic ∧
      (t.writeWithResponse rt env msg expect).writes = 1 ∧
      (t.writeWithResponse rt env msg expect).wire = []) := by
  have hInv0 := WriteState.Inv_init t rt expect
  refine ⟨?_, ?_, ?_, ?_⟩
  · obtain ⟨h1, ⟨extra, h2, h3, h4⟩, h5⟩ :=
      writeWithResponse_loop_facts env msg expect (makeChan t rt) 10 0 _ [] hInv0
    simp only [List.nil_append] at h2
    refine ⟨by simpa [Treadmill.writeWithResponse] using h1, ?_, ?_, h5⟩
    · simp only [Treadmill.writeWithResponse]
      rw [h2]
      omega
    · simp only [Treadmill.writeWithResponse]
      rw [h2]
      exact h3
  · intro st k hk h0 hq
    rw [← h0] at hInv0
    have hInvk := WriteState.Inv_chain env (makeChan t rt) expect st k hInv0
      (fun j hj => (hq j hj).2.1)
    obtain ⟨extra, hlen, heq⟩ := writeWithResponse_loop_skip env msg expect (makeChan t rt) st
      (10 - k) 0 k [] (by intro j hj; simpa using hq j hj)
    have h10 : 10 - k + k = 10 := by omega
    rw [h10] at heq
    obtain ⟨f, hf⟩ : ∃ f, 10 - k = f + 1 := ⟨10 - k - 1, by omega⟩
    simp only [Nat.zero_add, List.nil_append, hf] at heq
    have hO : t.writeWithResponse rt env msg expect =
        writeWithResponse_loop env msg expect (makeChan t rt) (f + 1) k (st k) extra := by
      simp only [Treadmill.writeWithResponse]
      rw [← h0, heq]
    rw [hO]
    refine ⟨?_, ?_, ?_⟩
    · intro err hw
      unfold writeWithResponse_loop
      simp only [hw]
      obtain ⟨h1, h2, h3⟩ := writeWithResponse_return_of_Inv (makeChan t rt) expect (st k)
        (k + 1) extra (none, some err) hInvk
      exact ⟨h3, h1, by rw [h2, hlen]⟩
    · intro data s1 hw hs hobs
      have hInv1 := WriteState.Inv_sleep (makeChan t rt) expect _ _ _ hInvk hs
      unfold writeWithResponse_loop
      simp only [hw, hs, if_pos hobs]
      obtain ⟨h1, h2, h3⟩ := writeWithResponse_return_of_Inv (makeChan t rt) expect s1
        (k + 1) (extra ++ [data]) (s1.response, s1.responseError) hInv1
      exact ⟨h3, h1, by rw [h2]; simp [hlen]⟩
    · intro data f1 hw hs
      unfold writeWithResponse_loop
      simp [hw, hs]
  · intro st h0 hq
    rw [← h0] at hInv0
    have hInvk := WriteState.Inv_chain env (makeChan t rt) expect st 10 hInv0
      (fun j hj => (hq j hj).2.1)
    obtain ⟨extra, hlen, heq⟩ := writeWithResponse_loop_skip env msg expect (makeChan t rt) st
      0 0 10 [] (by intro j hj; simpa using hq j hj)
    simp only [Nat.zero_add, List.nil_append] at heq
    have hO : t.writeWithResponse rt env msg expect =
        writeWithResponse_loop env msg expect (makeChan t rt) 0 10 (st 10) extra := by
      simp only [Treadmill.writeWithResponse]
      rw [← h0, heq]
    rw [hO]
    unfold writeWithResponse_loop
    obtain ⟨h1, h2, h3⟩ := writeWithResponse_return_of_Inv (makeChan t rt) expect (st 10)
      10 extra (none, some (Error.ackTimeout expect msg.MessageType)) hInvk
    exact ⟨h3, rfl, h1, by rw [h2, hlen]⟩
  · exact writeWithResponse_nil_client t rt env msg expect

/-- The witness of claim C30: on a connected `Treadmill` with an empty registry
the request `Program(Manual)` is written three times, the sleep after the third
write sees the listener called with an ACK, and that ACK is returned. -/
theorem writeWithResponse_retry_witness :
    ((Treadmill.mk (some Handle.mk) (some Handle.mk) (some Handle.mk) (some Handle.mk)
        []).writeWithResponse ⟨[], []⟩
        ⟨fun _ _ => none,
          fun idx => if idx = 2 then [(some (Message.ACK ⟨MessageTypeProgram⟩), none)] else []⟩
        (Message.Program ⟨0x1001⟩) MessageTypeACK).result =
      .ok (some (Message.ACK ⟨MessageTypeProgram⟩), none) ∧
    ((Treadmill.mk (some Handle.mk) (some Handle.mk) (some Handle.mk) (some Handle.mk)
        []).writeWithResponse ⟨[], []⟩
        ⟨fun _ _ => none,
          fun idx => if idx = 2 then [(some (Message.ACK ⟨MessageTypeProgram⟩), none)] else []⟩
        (Message.Program ⟨0x1001⟩) MessageTypeACK).writes = 2 + 1 ∧
    ((Treadmill.mk (some Handle.mk) (some Handle.mk) (some Handle.mk) (some Handle.mk)
        []).writeWithResponse ⟨[], []⟩
        ⟨fun _ _ => none,
          fun idx => if idx = 2 then [(some (Message.ACK ⟨MessageTypeProgram⟩), none)] else []⟩
        (Message.Program ⟨0x1001⟩) MessageTypeACK).wire.length = 2 + 1 :=
  ((writeWithResponse_retry
      (Treadmill.mk (some Handle.mk) (some Handle.mk) (some Handle.mk) (some Handle.mk) [])
      ⟨[], []⟩
      ⟨fun _ _ => none,
        fun idx => if idx = 2 then [(some (Message.ACK ⟨MessageTypeProgram⟩), none)] else []⟩
      (Message.Program ⟨0x1001⟩) MessageTypeACK).2.1
    (fun _ => ⟨Treadmill.mk (some Handle.mk) (some Handle.mk) (some Handle.mk) (some Handle.mk)
      [(MessageTypeACK, [1])], ⟨[], []⟩, none, none, false⟩)
    2 (by decide) (by decide)
    (fun j hj => ⟨⟨[0x5B, 0x03, 0x08, 0x10, 0x01, 0x5D], by with_unfolding_all rfl⟩,
      by
        have hj2 : j ≠ 2 := by omega
        simp only [hj2, if_false]
        rfl,
      rfl, rfl⟩)).2.1
    [0x5B, 0x03, 0x08, 0x10, 0x01, 0x5D]
    ⟨Treadmill.mk (some Handle.mk) (some Handle.mk) (some Handle.mk) (some Handle.mk)
      [(MessageTypeACK, [])], ⟨[1], [(1, Signal.message (Message.ACK ⟨MessageTypeProgram⟩))]⟩,
      some (Message.ACK ⟨MessageTypeProgram⟩), none, true⟩
    (by decide) (by decide) (Or.inl (by simp))

/-! ## The start sequence -/

/-- `Connect` leaves the registry as it was, and after a `Connect` that returned
nil the client is set. -/
theorem Treadmill.Connect_facts (t : Treadmill) (c : ConnectCalls) :
    (t.Connect c).1.waitMap = t.waitMap ∧
    ((t.Connect c).2 = none → (t.Connect c).1.client = some Handle.mk) := by
  unfold Treadmill.Connect
  cases t.bleDevice <;> cases c.newDevice <;> cases c.connect <;>
    cases c.discoverServices <;> cases c.discoverCharacteristics <;>
    cases c.discoverDescriptors <;> cases c.subscribe <;>
    (simp only []; first | (split_ifs <;> simp) | simp)

/-- The shape of the loop of `Start`: either some attempt of `Connect` succeeds
after fewer than `fuel` failures and `GetDeviceInfo` is called, or all `fuel`
attempts fail and the error of the last one is returned. -/
theorem Start_loop_shape (env : StartEnv) (rt : Runtime) (fuel idx : Nat) (t : Treadmill)
    (trace : List StartEvent) (lastErr : Option Error) :
    (∃ (errs : List Error) (t1 : Treadmill), errs.length < fuel ∧
      t1.client = some Handle.mk ∧ t1.waitMap = t.waitMap ∧
      (Treadmill.Start_loop env rt fuel idx t trace lastErr).trace =
        trace ++ errs.map (fun e => StartEvent.Connect (some e)) ++
          [StartEvent.Connect none,
            StartEvent.GetDeviceInfo (t1.GetDeviceInfo rt (env.call 4)).2] ∧
      (Treadmill.Start_loop env rt fuel idx t trace lastErr).result =
        (t1.GetDeviceInfo rt (env.call 4)).2.map Prod.snd) ∨
    (∃ errs : List Error, errs.length = fuel ∧
      (Treadmill.Start_loop env rt fuel idx t trace lastErr).trace =
        trace ++ errs.map (fun e => StartEvent.Connect (some e)) ∧
      (Treadmill.Start_loop env rt fuel idx t trace lastErr).result =
        .ok ((errs.map some).getLastD lastErr)) := by
  induction fuel generalizing idx t trace lastErr with
  | zero =>
    exact Or.inr ⟨[], rfl, by simp [Treadmill.Start_loop], by simp [Treadmill.Start_loop]⟩
  | succ fuel ih =>
    unfold Treadmill.Start_loop
    have hf := Treadmill.Connect_facts t (env.connect idx)
    cases hC : t.Connect (env.connect idx) with
    | mk t1 r =>
      rw [hC] at hf
      cases r with
      | none =>
        exact Or.inl ⟨[], t1, Nat.succ_pos _, hf.2 rfl, hf.1, by simp, rfl⟩
      | some err =>
        simp only
        rcases ih (idx + 1) t1 (trace ++ [StartEvent.Connect (some err)]) (some err) with
          ⟨errs, t2, hlen, hcl, hwm, htr, hres⟩ | ⟨errs, hlen, htr, hres⟩
        · refine Or.inl ⟨err :: errs, t2, by simp; omega, hcl, hwm.trans hf.1, ?_, hres⟩
          rw [htr]
          simp
        · refine Or.inr ⟨err :: errs, by simp [hlen], ?_, ?_⟩
          · rw [htr]
            simp
          · rw [hres]
            simp only [List.map_cons, List.getLastD_cons]

/-- The runs of `Start`, the outcomes of its four calls of `writeWithResponse`
being named. -/
theorem Start_run_cases (t : Treadmill) (rt : Runtime) (env : StartEnv)
    (o0 o1 o2 o3 : WriteOutcome)
    (h0 : o0 = t.writeWithResponse rt (env.call 0)
      (Message.UserProfile ⟨SexTypeMale, 30, 155, 72⟩) MessageTypeACK)
    (h1 : o1 = o0.t.writeWithResponse o0.rt (env.call 1)
      (Message.Program ⟨ProgramManual⟩) MessageTypeACK)
    (h2 : o2 = o1.t.writeWithResponse o1.rt (env.call 2)
      (Message.WorkoutTarget MessageWorkoutTarget.zero) MessageTypeACK)
    (h3 : o3 = o2.t.writeWithResponse o2.rt (env.call 3)
      (Message.SetWorkoutMode ⟨WorkoutModeStart⟩) MessageTypeSetWorkoutMode) :
    (o0.result.map Prod.snd ≠ .ok none ∧
      (t.Start rt env).trace = [StartEvent.writeWithResponse (Message.UserProfile ⟨SexTypeMale, 30, 155, 72⟩) MessageTypeACK
          (o0.result.map Prod.snd)] ∧
      (t.Start rt env).result = o0.result.map Prod.snd) ∨
    (o0.result.map Prod.snd = .ok none ∧
      o1.result.map Prod.snd ≠ .ok none ∧
      (t.Start rt env).trace = [StartEvent.writeWithResponse (Message.UserProfile ⟨SexTypeMale, 30, 155, 72⟩) MessageTypeACK
          (.ok none),
        StartEvent.writeWithResponse (Message.Program ⟨ProgramManual⟩) MessageTypeACK
          (o1.result.map Prod.snd)] ∧
      (t.Start rt env).result = o1.result.map Prod.snd) ∨
    (o0.result.map Prod.snd = .ok none ∧
      o1.result.map Prod.snd = .ok none ∧
      o2.result.map Prod.snd ≠ .ok none ∧
      (t.Start rt env).trace = [StartEvent.writeWithResponse (Message.UserProfile ⟨SexTypeMale, 30, 155, 72⟩) MessageTypeACK
          (.ok none),
        StartEvent.writeWithResponse (Message.Program ⟨ProgramManual⟩) MessageTypeACK
          (.ok none),
        StartEvent.writeWithResponse (Message.WorkoutTarget MessageWorkoutTarget.zero) MessageTypeACK
          (o2.result.map Prod.snd)] ∧
      (t.Start rt env).result = o2.result.map Prod.snd) ∨
    (o0.result.map Prod.snd = .ok none ∧
      o1.result.map Prod.snd = .ok none ∧
      o2.result.map Prod.snd = .ok none ∧
      o3.result.map Prod.snd ≠ .ok none ∧
      (t.Start rt env).trace = [StartEvent.writeWithResponse (Message.UserProfile ⟨SexTypeMale, 30, 155, 72⟩) MessageTypeACK
          (.ok none),
        StartEvent.writeWithResponse (Message.Program ⟨ProgramManual⟩) MessageTypeACK
          (.ok none),
        StartEvent.writeWithResponse (Message.WorkoutTarget MessageWorkoutTarget.zero) MessageTypeACK
          (.ok none),
        StartEvent.writeWithResponse (Message.SetWorkoutMode ⟨WorkoutModeStart⟩) MessageTypeSetWorkoutMode
          (o3.result.map Prod.snd)] ∧
      (t.Start rt env).result = o3.result.map Prod.snd) ∨
    (o0.result.map Prod.snd = .ok none ∧
      o1.result.map Prod.snd = .ok none ∧
      o2.result.map Prod.snd = .ok none ∧
      o3.result.map Prod.snd = .ok none ∧
      ∃ e, (o3.t.Close env.clearSubscriptions env.cancelConnection env.stop).2 = some e ∧
      (t.Start rt env).trace = [StartEvent.writeWithResponse (Message.UserProfile ⟨SexTypeMale, 30, 155, 72⟩) MessageTypeACK
          (.ok none),
        StartEvent.writeWithResponse (Message.Program ⟨ProgramManual⟩) MessageTypeACK
          (.ok none),
        StartEvent.writeWithResponse (Message.WorkoutTarget MessageWorkoutTarget.zero) MessageTypeACK
          (.ok none),
        StartEvent.writeWithResponse (Message.SetWorkoutMode ⟨WorkoutModeStart⟩) MessageTypeSetWorkoutMode
          (.ok none),
        StartEvent.Close (some e)] ∧
      (t.Start rt env).result = .ok (some e)) ∨
    (o0.result.map Prod.snd = .ok none ∧
      o1.result.map Prod.snd = .ok none ∧
      o2.result.map Prod.snd = .ok none ∧
      o3.result.map Prod.snd = .ok none ∧
      (o3.t.Close env.clearSubscriptions env.cancelConnection env.stop).2 = none ∧
      ∃ (errs : List Error) (t1 : Treadmill), errs.length < 5 ∧
      t1.client = some Handle.mk ∧ t1.waitMap = o3.t.waitMap ∧
      (t.Start rt env).trace = [StartEvent.writeWithResponse (Message.UserProfile ⟨SexTypeMale, 30, 155, 72⟩) MessageTypeACK
          (.ok none),
        StartEvent.writeWithResponse (Message.Program ⟨ProgramManual⟩) MessageTypeACK
          (.ok none),
        StartEvent.writeWithResponse (Message.WorkoutTarget MessageWorkoutTarget.zero) MessageTypeACK
          (.ok none),
        StartEvent.writeWithResponse (Message.SetWorkoutMode ⟨WorkoutModeStart⟩) MessageTypeSetWorkoutMode
          (.ok none),
        StartEvent.Close none,
        StartEvent.Sleep 5] ++
        errs.map (fun e => StartEvent.Connect (some e)) ++
        [StartEvent.Connect none,
          StartEvent.GetDeviceInfo (t1.GetDeviceInfo o3.rt (env.call 4)).2] ∧
      (t.Start rt env).result = (t1.GetDeviceInfo o3.rt (env.call 4)).2.map Prod.snd) ∨
    (o0.result.map Prod.snd = .ok none ∧
      o1.result.map Prod.snd = .ok none ∧
      o2.result.map Prod.snd = .ok none ∧
      o3.result.map Prod.snd = .ok none ∧
      (o3.t.Close env.clearSubscriptions env.cancelConnection env.stop).2 = none ∧
      ∃ e1 e2 e3 e4 e5 : Error,
      (t.Start rt env).trace = [StartEvent.writeWithResponse (Message.UserProfile ⟨SexTypeMale, 30, 155, 72⟩) MessageTypeACK
          (.ok none),
        StartEvent.writeWithResponse (Message.Program ⟨ProgramManual⟩) MessageTypeACK
          (.ok none),
        StartEvent.writeWithResponse (Message.WorkoutTarget MessageWorkoutTarget.zero) MessageTypeACK
          (.ok none),
        StartEvent.writeWithResponse (Message.SetWorkoutMode ⟨WorkoutModeStart⟩) MessageTypeSetWorkoutMode
          (.ok none),
        StartEvent.Close none,
        StartEvent.Sleep 5] ++
        [StartEvent.Connect (some e1), StartEvent.Connect (some e2),
          StartEvent.Connect (some e3), StartEvent.Connect (some e4),
          StartEvent.Connect (some e5)] ∧
      (t.Start rt env).result = .ok (some e5)) := by
  have hS : t.Start rt env =
      (match o0.result.map Prod.snd with
      | .error f => ⟨o0.t, o0.rt, [StartEvent.writeWithResponse (Message.UserProfile ⟨SexTypeMale, 30, 155, 72⟩) MessageTypeACK
          (o0.result.map Prod.snd)], .error f⟩
      | .ok (some err) => ⟨o0.t, o0.rt, [StartEvent.writeWithResponse (Message.UserProfile ⟨SexTypeMale, 30, 155, 72⟩) MessageTypeACK
          (o0.result.map Prod.snd)], .ok (some err)⟩
      | .ok none =>
        match o1.result.map Prod.snd with
        | .error f => ⟨o1.t, o1.rt, [StartEvent.writeWithResponse (Message.UserProfile ⟨SexTypeMale, 30, 155, 72⟩) MessageTypeACK
          (.ok none),
        StartEvent.writeWithResponse (Message.Program ⟨ProgramManual⟩) MessageTypeACK
          (o1.result.map Prod.snd)], .error f⟩
        | .ok (some err) => ⟨o1.t, o1.rt, [StartEvent.writeWithResponse (Message.UserProfile ⟨SexTypeMale, 30, 155, 72⟩) MessageTypeACK
          (.ok none),
        StartEvent.writeWithResponse (Message.Program ⟨ProgramManual⟩) MessageTypeACK
          (o1.result.map Prod.snd)], .ok (some err)⟩
        | .ok none =>
          match o2.result.map Prod.snd with
          | .error f => ⟨o2.t, o2.rt, [StartEvent.writeWithResponse (Message.UserProfile ⟨SexTypeMale, 30, 155, 72⟩) MessageTypeACK
          (.ok none),
        StartEvent.writeWithResponse (Message.Program ⟨ProgramManual⟩) MessageTypeACK
          (.ok none),
        StartEvent.writeWithResponse (Message.WorkoutTarget MessageWorkoutTarget.zero) MessageTypeACK
          (o2.result.map Prod.snd)], .error f⟩
          | .ok (some err) => ⟨o2.t, o2.rt, [StartEvent.writeWithResponse (Message.UserProfile ⟨SexTypeMale, 30, 155, 72⟩) MessageTypeACK
          (.ok none),
        StartEvent.writeWithResponse (Message.Program ⟨ProgramManual⟩) MessageTypeACK
          (.ok none),
        StartEvent.writeWithResponse (Message.WorkoutTarget MessageWorkoutTarget.zero) MessageTypeACK
          (o2.result.map Prod.snd)], .ok (some err)⟩
          | .ok none =>
            match o3.result.map Prod.snd with
            | .error f => ⟨o3.t, o3.rt, [StartEvent.writeWithResponse (Message.UserProfile ⟨SexTypeMale, 30, 155, 72⟩) MessageTypeACK
          (.ok none),
        StartEvent.writeWithResponse (Message.Program ⟨ProgramManual⟩) MessageTypeACK
          (.ok none),
        StartEvent.writeWithResponse (Message.WorkoutTarget MessageWorkoutTarget.zero) MessageTypeACK
          (.ok none),
        StartEvent.writeWithResponse (Message.SetWorkoutMode ⟨WorkoutModeStart⟩) MessageTypeSetWorkoutMode
          (o3.result.map Prod.snd)], .error f⟩
            | .ok (some err) => ⟨o3.t, o3.rt, [StartEvent.writeWithResponse (Message.UserProfile ⟨SexTypeMale, 30, 155, 72⟩) MessageTypeACK
          (.ok none),
        StartEvent.writeWithResponse (Message.Program ⟨ProgramManual⟩) MessageTypeACK
          (.ok none),
        StartEvent.writeWithResponse (Message.WorkoutTarget MessageWorkoutTarget.zero) MessageTypeACK
          (.ok none),
        StartEvent.writeWithResponse (Message.SetWorkoutMode ⟨WorkoutModeStart⟩) MessageTypeSetWorkoutMode
          (o3.result.map Prod.snd)], .ok (some err)⟩
            | .ok none =>
              match o3.t.Close env.clearSubscriptions env.cancelConnection env.stop with
              | (t1, some err) =>
                ⟨t1, o3.rt, [StartEvent.writeWithResponse (Message.UserProfile ⟨SexTypeMale, 30, 155, 72⟩) MessageTypeACK
          (.ok none),
        StartEvent.writeWithResponse (Message.Program ⟨ProgramManual⟩) MessageTypeACK
          (.ok none),
        StartEvent.writeWithResponse (Message.WorkoutTarget MessageWorkoutTarget.zero) MessageTypeACK
          (.ok none),
        StartEvent.writeWithResponse (Message.SetWorkoutMode ⟨WorkoutModeStart⟩) MessageTypeSetWorkoutMode
          (.ok none),
        StartEvent.Close (some err)], .ok (some err)⟩
              | (t1, none) =>
                Treadmill.Start_loop env o3.rt 5 0 t1
                  ([StartEvent.writeWithResponse (Message.UserProfile ⟨SexTypeMale, 30, 155, 72⟩) MessageTypeACK
          (.ok none),
        StartEvent.writeWithResponse (Message.Program ⟨ProgramManual⟩) MessageTypeACK
          (.ok none),
        StartEvent.writeWithResponse (Message.WorkoutTarget MessageWorkoutTarget.zero) MessageTypeACK
          (.ok none),
        StartEvent.writeWithResponse (Message.SetWorkoutMode ⟨WorkoutModeStart⟩) MessageTypeSetWorkoutMode
          (.ok none),
        StartEvent.Close none,
        StartEvent.Sleep 5]) none) := by
    subst h3 h2 h1 h0
    unfold Treadmill.Start
    simp only []
    repeat' split
    all_goals first | rfl | simp_all
  rw [hS]
  clear hS h0 h1 h2 h3
  cases hr0 : o0.result.map Prod.snd with
  | error f => exact Or.inl ⟨by simp, rfl, rfl⟩
  | ok e0 =>
  cases e0 with
  | some err => exact Or.inl ⟨by simp, rfl, rfl⟩
  | none =>
  refine Or.inr ?_
  cases hr1 : o1.result.map Prod.snd with
  | error f => exact Or.inl ⟨rfl, by simp, rfl, rfl⟩
  | ok e1 =>
  cases e1 with
  | some err => exact Or.inl ⟨rfl, by simp, rfl, rfl⟩
  | none =>
  refine Or.inr ?_
  cases hr2 : o2.result.map Prod.snd with
  | error f => exact Or.inl ⟨rfl, rfl, by simp, rfl, rfl⟩
  | ok e2 =>
  cases e2 with
  | some err => exact Or.inl ⟨rfl, rfl, by simp, rfl, rfl⟩
  | none =>
  refine Or.inr ?_
  cases hr3 : o3.result.map Prod.snd with
  | error f => exact Or.inl ⟨rfl, rfl, rfl, by simp, rfl, rfl⟩
  | ok e3 =>
  cases e3 with
  | some err => exact Or.inl ⟨rfl, rfl, rfl, by simp, rfl, rfl⟩
  | none =>
  refine Or.inr ?_
  have hcw : (o3.t.Close env.clearSubscriptions env.cancelConnection env.stop).1.waitMap =
      o3.t.waitMap := by
    unfold Treadmill.Close
    cases o3.t.client <;> cases env.clearSubscriptions <;> cases env.cancelConnection <;>
      cases hb : o3.t.bleDevice <;> cases env.stop <;> simp [hb]
  cases hc : o3.t.Close env.clearSubscriptions env.cancelConnection env.stop with
  | mk t1 r =>
  rw [hc] at hcw
  cases r with
  | some e => exact Or.inl ⟨rfl, rfl, rfl, rfl, e, rfl, rfl, rfl⟩
  | none =>
    refine Or.inr ?_
    rcases Start_loop_shape env o3.rt 5 0 t1
        ([StartEvent.writeWithResponse (Message.UserProfile ⟨SexTypeMale, 30, 155, 72⟩) MessageTypeACK
          (.ok none),
        StartEvent.writeWithResponse (Message.Program ⟨ProgramManual⟩) MessageTypeACK
          (.ok none),
        StartEvent.writeWithResponse (Message.WorkoutTarget MessageWorkoutTarget.zero) MessageTypeACK
          (.ok none),
        StartEvent.writeWithResponse (Message.SetWorkoutMode ⟨WorkoutModeStart⟩) MessageTypeSetWorkoutMode
          (.ok none),
        StartEvent.Close none,
        StartEvent.Sleep 5]) none with
      ⟨errs, t2, hlen, hcl, hwm, htr, hres⟩ | ⟨errs, hlen, htr, hres⟩
    · exact Or.inl ⟨rfl, rfl, rfl, rfl, rfl, errs, t2, hlen, hcl, hwm.trans hcw, htr, hres⟩
    · match errs, hlen with
      | [e1, e2, e3, e4, e5], _ =>
        exact Or.inr ⟨rfl, rfl, rfl, rfl, rfl, e1, e2, e3, e4, e5, htr, hres⟩

/-- Claim C31. `Start` issues, in this order, UserProfile awaiting ACK,
Program(Manual, 0x1001) awaiting ACK, WorkoutTarget with time 0 and calories 0
awaiting ACK, and SetWorkoutMode(Start, 2) awaiting a SetWorkoutMode response,
each call of `writeWithResponse` working on the state the call before it left.
The first of these calls that does not return a nil error ends `Start` with
what that call returned (its error, or its panic), and so does a failing
`Close`; no later call is made. After `Close` and the sleep, `Connect` is
attempted at most 5 times: if all 5 attempts fail the error of the last attempt
is returned, and after the first attempt that succeeds `GetDeviceInfo` is
called once and its error result (or its panic) is the result of `Start`. The
seven cases are all the runs there are. On a `Treadmill` whose client is nil
the first write panics. -/
theorem Start_sequence (t : Treadmill) (rt : Runtime) (env : StartEnv) :
    let o0 := t.writeWithResponse rt (env.call 0)
      (Message.UserProfile ⟨SexTypeMale, 30, 155, 72⟩) MessageTypeACK
    let o1 := o0.t.writeWithResponse o0.rt (env.call 1)
      (Message.Program ⟨ProgramManual⟩) MessageTypeACK
    let o2 := o1.t.writeWithResponse o1.rt (env.call 2)
      (Message.WorkoutTarget MessageWorkoutTarget.zero) MessageTypeACK
    let o3 := o2.t.writeWithResponse o2.rt (env.call 3)
      (Message.SetWorkoutMode ⟨WorkoutModeStart⟩) MessageTypeSetWorkoutMode
    (SexTypeMale = 1 ∧ ProgramManual = 0x1001 ∧ MessageWorkoutTarget.zero = ⟨0, 0⟩ ∧
      WorkoutModeStart = 2) ∧
    ((o0.result.map Prod.snd ≠ .ok none ∧
      (t.Start rt env).trace = [StartEvent.writeWithResponse (Message.UserProfile ⟨SexTypeMale, 30, 155, 72⟩) MessageTypeACK
          (o0.result.map Prod.snd)] ∧
      (t.Start rt env).result = o0.result.map Prod.snd) ∨
    (o0.result.map Prod.snd = .ok none ∧
      o1.result.map Prod.snd ≠ .ok none ∧
      (t.Start rt env).trace = [StartEvent.writeWithResponse (Message.UserProfile ⟨SexTypeMale, 30, 155, 72⟩) MessageTypeACK
          (.ok none),
        StartEvent.writeWithResponse (Message.Program ⟨ProgramManual⟩) MessageTypeACK
          (o1.result.map Prod.snd)] ∧
      (t.Start rt env).result = o1.result.map Prod.snd) ∨
    (o0.result.map Prod.snd = .ok none ∧
      o1.result.map Prod.snd = .ok none ∧
      o2.result.map Prod.snd ≠ .ok none ∧
      (t.Start rt env).trace = [StartEvent.writeWithResponse (Message.UserProfile ⟨SexTypeMale, 30, 155, 72⟩) MessageTypeACK
          (.ok none),
        StartEvent.writeWithResponse (Message.Program ⟨ProgramManual⟩) MessageTypeACK
          (.ok none),
        StartEvent.writeWithResponse (Message.WorkoutTarget MessageWorkoutTarget.zero) MessageTypeACK
          (o2.result.map Prod.snd)] ∧
      (t.Start rt env).result = o2.result.map Prod.snd) ∨
    (o0.result.map Prod.snd = .ok none ∧
      o1.result.map Prod.snd = .ok none ∧
      o2.result.map Prod.snd = .ok none ∧
      o3.result.map Prod.snd ≠ .ok none ∧
      (t.Start rt env).trace = [StartEvent.writeWithResponse (Message.UserProfile ⟨SexTypeMale, 30, 155, 72⟩) MessageTypeACK
          (.ok none),
        StartEvent.writeWithResponse (Message.Program ⟨ProgramManual⟩) MessageTypeACK
          (.ok none),
        StartEvent.writeWithResponse (Message.WorkoutTarget MessageWorkoutTarget.zero) MessageTypeACK
          (.ok none),
        StartEvent.writeWithResponse (Message.SetWorkoutMode ⟨WorkoutModeStart⟩) MessageTypeSetWorkoutMode
          (o3.result.map Prod.snd)] ∧
      (t.Start rt env).result = o3.result.map Prod.snd) ∨
    (o0.result.map Prod.snd = .ok none ∧
      o1.result.map Prod.snd = .ok none ∧
      o2.result.map Prod.snd = .ok none ∧
      o3.result.map Prod.snd = .ok none ∧
      ∃ e, (o3.t.Close env.clearSubscriptions env.cancelConnection env.stop).2 = some e ∧
      (t.Start rt env).trace = [StartEvent.writeWithResponse (Message.UserProfile ⟨SexTypeMale, 30, 155, 72⟩) MessageTypeACK
          (.ok none),
        StartEvent.writeWithResponse (Message.Program ⟨ProgramManual⟩) MessageTypeACK
          (.ok none),
        StartEvent.writeWithResponse (Message.WorkoutTarget MessageWorkoutTarget.zero) MessageTypeACK
          (.ok none),
        StartEvent.writeWithResponse (Message.SetWorkoutMode ⟨WorkoutModeStart⟩) MessageTypeSetWorkoutMode
          (.ok none),
        StartEvent.Close (some e)] ∧
      (t.Start rt env).result = .ok (some e)) ∨
    (o0.result.map Prod.snd = .ok none ∧
      o1.result.map Prod.snd = .ok none ∧
      o2.result.map Prod.snd = .ok none ∧
      o3.result.map Prod.snd = .ok none ∧
      (o3.t.Close env.clearSubscriptions env.cancelConnection env.stop).2 = none ∧
      ∃ (errs : List Error) (t1 : Treadmill), errs.length < 5 ∧
      t1.client = some Handle.mk ∧ t1.waitMap = o3.t.waitMap ∧
      (t.Start rt env).trace = [StartEvent.writeWithResponse (Message.UserProfile ⟨SexTypeMale, 30, 155, 72⟩) MessageTypeACK
          (.ok none),
        StartEvent.writeWithResponse (Message.Program ⟨ProgramManual⟩) MessageTypeACK
          (.ok none),
        StartEvent.writeWithResponse (Message.WorkoutTarget MessageWorkoutTarget.zero) MessageTypeACK
          (.ok none),
        StartEvent.writeWithResponse (Message.SetWorkoutMode ⟨WorkoutModeStart⟩) MessageTypeSetWorkoutMode
          (.ok none),
        StartEvent.Close none,
        StartEvent.Sleep 5] ++
        errs.map (fun e => StartEvent.Connect (some e)) ++
        [StartEvent.Connect none,
          StartEvent.GetDeviceInfo (t1.GetDeviceInfo o3.rt (env.call 4)).2] ∧
      (t.Start rt env).result = (t1.GetDeviceInfo o3.rt (env.call 4)).2.map Prod.snd) ∨
    (o0.result.map Prod.snd = .ok none ∧
      o1.result.map Prod.snd = .ok none ∧
      o2.result.map Prod.snd = .ok none ∧
      o3.result.map Prod.snd = .ok none ∧
      (o3.t.Close env.clearSubscriptions env.cancelConnection env.stop).2 = none ∧
      ∃ e1 e2 e3 e4 e5 : Error,
      (t.Start rt env).trace = [StartEvent.writeWithResponse (Message.UserProfile ⟨SexTypeMale, 30, 155, 72⟩) MessageTypeACK
          (.ok none),
        StartEvent.writeWithResponse (Message.Program ⟨ProgramManual⟩) MessageTypeACK
          (.ok none),
        StartEvent.writeWithResponse (Message.WorkoutTarget MessageWorkoutTarget.zero) MessageTypeACK
          (.ok none),
        StartEvent.writeWithResponse (Message.SetWorkoutMode ⟨WorkoutModeStart⟩) MessageTypeSetWorkoutMode
          (.ok none),
        StartEvent.Close none,
        StartEvent.Sleep 5] ++
        [StartEvent.Connect (some e1), StartEvent.Connect (some e2),
          StartEvent.Connect (some e3), StartEvent.Connect (some e4),
          StartEvent.Connect (some e5)] ∧
      (t.Start rt env).result = .ok (some e5))) ∧
    (t.client = none →
      (t.Start rt env).trace = [StartEvent.writeWithResponse (Message.UserProfile ⟨SexTypeMale, 30, 155, 72⟩) MessageTypeACK
          (.error Fault.panic)] ∧
      (t.Start rt env).result = .error Fault.panic) := by
  intro o0 o1 o2 o3
  refine ⟨by decide, Start_run_cases t rt env o0 o1 o2 o3 rfl rfl rfl rfl, ?_⟩
  intro hc
  have hp : o0.result.map Prod.snd = .error Fault.panic := by
    have := (writeWithResponse_nil_client t rt (env.call 0)
      (Message.UserProfile ⟨SexTypeMale, 30, 155, 72⟩) MessageTypeACK hc).1
    show Except.map Prod.snd (t.writeWithResponse rt (env.call 0)
      (Message.UserProfile ⟨SexTypeMale, 30, 155, 72⟩) MessageTypeACK).result = _
    rw [this]
    rfl
  rcases Start_run_cases t rt env o0 o1 o2 o3 rfl rfl rfl rfl with
    ⟨-, htr, hres⟩ | ⟨h, -⟩ | ⟨h, -⟩ | ⟨h, -⟩ | ⟨h, -⟩ | ⟨h, -⟩ | ⟨h, -⟩
  · rw [htr, hres, hp]
    exact ⟨rfl, rfl⟩
  all_goals (rw [hp] at h; cases h)

/-- The witness of claim C31: a `Treadmill` that was never connected. -/
theorem Start_sequence_witness :
    ((Treadmill.mk none none none none []).Start ⟨[], []⟩
        ⟨fun _ => ⟨fun _ _ => none, fun _ => []⟩, none, none, none,
          fun _ => ⟨none, none, .ok 1, .ok 2, .ok 1, none⟩⟩).trace =
      [StartEvent.writeWithResponse (Message.UserProfile ⟨SexTypeMale, 30, 155, 72⟩) MessageTypeACK
          (.error Fault.panic)] ∧
    ((Treadmill.mk none none none none []).Start ⟨[], []⟩
        ⟨fun _ => ⟨fun _ _ => none, fun _ => []⟩, none, none, none,
          fun _ => ⟨none, none, .ok 1, .ok 2, .ok 1, none⟩⟩).result = .error Fault.panic :=
  (Start_sequence (Treadmill.mk none none none none []) ⟨[], []⟩
    ⟨fun _ => ⟨fun _ _ => none, fun _ => []⟩, none, none, none,
      fun _ => ⟨none, none, .ok 1, .ok 2, .ok 1, none⟩⟩).2.2 rfl

/-- One run of `Start` on a connected `Treadmill` with an empty registry: every
request is answered during its first sleep, the first two attempts of `Connect`
fail in `ble.Connect`, the third succeeds, and the device answers the request
for its information. -/
theorem Start_run_third_attempt :
    ((Treadmill.mk (some Handle.mk) (some Handle.mk) (some Handle.mk) (some Handle.mk) []).Start
      ⟨[], []⟩
      { call := fun k =>
          ⟨fun _ _ => none, fun idx =>
            if idx = 0 then
              [(some (if k = 3 then Message.SetWorkoutMode ⟨2⟩
                else if k = 4 then Message.DeviceInfo ⟨146, 1, 1, 120, 5, 15, 0⟩
                else Message.ACK ⟨0⟩), none)]
            else []⟩
        clearSubscriptions := none
        cancelConnection := none
        stop := none
        connect := fun idx =>
          ⟨none, if idx < 2 then some "timeout" else none, .ok 1, .ok 2, .ok 1, none⟩ }) =
    ⟨Treadmill.mk (some Handle.mk) (some Handle.mk) (some Handle.mk) (some Handle.mk)
        [(0x00, []), (0x02, []), (0xf0, [])],
      ⟨[5, 4, 3, 2, 1],
        [(1, Signal.message (Message.ACK ⟨0⟩)), (2, Signal.message (Message.ACK ⟨0⟩)),
          (3, Signal.message (Message.ACK ⟨0⟩)),
          (4, Signal.message (Message.SetWorkoutMode ⟨2⟩)),
          (5, Signal.message (Message.DeviceInfo ⟨146, 1, 1, 120, 5, 15, 0⟩))]⟩,
      [StartEvent.writeWithResponse (Message.UserProfile ⟨1, 30, 155, 72⟩) 0x00 (.ok none),
        StartEvent.writeWithResponse (Message.Program ⟨0x1001⟩) 0x00 (.ok none),
        StartEvent.writeWithResponse (Message.WorkoutTarget ⟨0, 0⟩) 0x00 (.ok none),
        StartEvent.writeWithResponse (Message.SetWorkoutMode ⟨2⟩) 0x02 (.ok none),
        StartEvent.Close none, StartEvent.Sleep 5,
        StartEvent.Connect (some (Error.foreign "problem connecting to treadmill: timeout")),
        StartEvent.Connect (some (Error.foreign "problem connecting to treadmill: timeout")),
        StartEvent.Connect none,
        StartEvent.GetDeviceInfo (.ok (some ⟨146, 1, 1, 120, 5, 15, 0⟩, none))],
      .ok none⟩ := by
  decide

/-! ## Every payload is answered -/

theorem exists_of_len_8 (data : List Byte) (h : len data = 8) :
    ∃ a0 a1 a2 a3 a4 a5 a6 a7 : Byte, data = [a0, a1, a2, a3, a4, a5, a6, a7] := by
  have h2 : data.length = 8 := by unfold len at h; exact_mod_cast h
  match data, h2 with
  | [a0, a1, a2, a3, a4, a5, a6, a7], _ => exact ⟨a0, a1, a2, a3, a4, a5, a6, a7, rfl⟩

/-- A payload of 8 bytes that starts with the tag is accepted by
`MessageDeviceInfo.UnmarshalBinary`: every index it reads is in range. -/
theorem MessageDeviceInfo_UnmarshalBinary_accepts (m0 : MessageDeviceInfo) (t : Byte)
    (rest : List Byte) (hl : len (t :: rest) = 8) (ht : t = MessageTypeDeviceInfo) :
    ∃ m, m0.UnmarshalBinary (t :: rest) = .ok m := by
  obtain ⟨a0, a1, a2, a3, a4, a5, a6, a7, h⟩ := exists_of_len_8 (t :: rest) hl
  cases h
  subst ht
  exact ⟨_, MessageDeviceInfo_UnmarshalBinary_eval m0 a1 a2 a3 a4 a5 a6 a7⟩

/-- A payload of 2 bytes that starts with the tag is accepted by
`MessageWorkoutMode.UnmarshalBinary`: every index it reads is in range. -/
theorem MessageWorkoutMode_UnmarshalBinary_accepts (m0 : MessageWorkoutMode) (t : Byte)
    (rest : List Byte) (hl : len (t :: rest) = 2) (ht : t = MessageTypeWorkoutMode) :
    ∃ m, m0.UnmarshalBinary (t :: rest) = .ok m := by
  obtain ⟨a0, a1, h⟩ := exists_of_len_2 (t :: rest) hl
  cases h
  subst ht
  exact ⟨_, MessageWorkoutMode_UnmarshalBinary_eval m0 a1⟩

/-- A payload of 2 bytes that starts with the tag is accepted by
`MessageSetWorkoutMode.UnmarshalBinary`: every index it reads is in range. -/
theorem MessageSetWorkoutMode_UnmarshalBinary_accepts (m0 : MessageSetWorkoutMode) (t : Byte)
    (rest : List Byte) (hl : len (t :: rest) = 2) (ht : t = MessageTypeSetWorkoutMode) :
    ∃ m, m0.UnmarshalBinary (t :: rest) = .ok m := by
  obtain ⟨a0, a1, h⟩ := exists_of_len_2 (t :: rest) hl
  cases h
  subst ht
  exact ⟨_, MessageSetWorkoutMode_UnmarshalBinary_eval m0 a1⟩

/-- A payload of 3 bytes that starts with the tag is accepted by
`MessageHeartRateType.UnmarshalBinary`: every index it reads is in range. -/
theorem MessageHeartRateType_UnmarshalBinary_accepts (m0 : MessageHeartRateType) (t : Byte)
    (rest : List Byte) (hl : len (t :: rest) = 3) (ht : t = MessageTypeHeartRateType) :
    ∃ m, m0.UnmarshalBinary (t :: rest) = .ok m := by
  obtain ⟨a0, a1, a2, h⟩ := exists_of_len_3 (t :: rest) hl
  cases h
  subst ht
  exact ⟨_, MessageHeartRateType_UnmarshalBinary_eval m0 a1 a2⟩

/-- A payload of 15 bytes that starts with the tag is accepted by
`MessageWorkoutData.UnmarshalBinary`: every index it reads is in range. -/
theorem MessageWorkoutData_UnmarshalBinary_accepts (m0 : MessageWorkoutData) (t : Byte)
    (rest : List Byte) (hl : len (t :: rest) = 15) (ht : t = MessageTypeWorkoutData) :
    ∃ m, m0.UnmarshalBinary (t :: rest) = .ok m := by
  obtain ⟨a0, a1, a2, a3, a4, a5, a6, a7, a8, a9, a10, a11, a12, a13, a14, h⟩ := exists_of_len_15 (t :: rest) hl
  cases h
  subst ht
  exact ⟨_, MessageWorkoutData_UnmarshalBinary_eval m0 a1 a2 a3 a4 a5 a6 a7 a8 a9 a10 a11 a12 a13 a14⟩

/-- A payload of 6 bytes that starts with the tag is accepted by
`MessageUserProfile.UnmarshalBinary`: every index it reads is in range. -/
theorem MessageUserProfile_UnmarshalBinary_accepts (m0 : MessageUserProfile) (t : Byte)
    (rest : List Byte) (hl : len (t :: rest) = 6) (ht : t = MessageTypeUserProfile) :
    ∃ m, m0.UnmarshalBinary (t :: rest) = .ok m := by
  obtain ⟨a0, a1, a2, a3, a4, a5, h⟩ := exists_of_len_6 (t :: rest) hl
  cases h
  subst ht
  exact ⟨_, MessageUserProfile_UnmarshalBinary_eval m0 a1 a2 a3 a4 a5⟩

/-- A payload of 5 bytes that starts with the tag is accepted by
`MessageWorkoutTarget.UnmarshalBinary`: every index it reads is in range. -/
theorem MessageWorkoutTarget_UnmarshalBinary_accepts (m0 : MessageWorkoutTarget) (t : Byte)
    (rest : List Byte) (hl : len (t :: rest) = 5) (ht : t = MessageTypeWorkoutTarget) :
    ∃ m, m0.UnmarshalBinary (t :: rest) = .ok m := by
  obtain ⟨a0, a1, a2, a3, a4, h⟩ := exists_of_len_5 (t :: rest) hl
  cases h
  subst ht
  exact ⟨_, MessageWorkoutTarget_UnmarshalBinary_eval m0 a1 a2 a3 a4⟩

/-- A payload of 2 bytes that starts with the tag is accepted by
`MessageMaxIncline.UnmarshalBinary`: every index it reads is in range. -/
theorem MessageMaxIncline_UnmarshalBinary_accepts (m0 : MessageMaxIncline) (t : Byte)
    (rest : List Byte) (hl : len (t :: rest) = 2) (ht : t = MessageTypeMaxIncline) :
    ∃ m, m0.UnmarshalBinary (t :: rest) = .ok m := by
  obtain ⟨a0, a1, h⟩ := exists_of_len_2 (t :: rest) hl
  cases h
  subst ht
  exact ⟨_, MessageMaxIncline_UnmarshalBinary_eval m0 a1⟩

/-- A payload of 2 bytes that starts with the tag is accepted by
`MessageErrorCode.UnmarshalBinary`: every index it reads is in range. -/
theorem MessageErrorCode_UnmarshalBinary_accepts (m0 : MessageErrorCode) (t : Byte)
    (rest : List Byte) (hl : len (t :: rest) = 2) (ht : t = MessageTypeErrorCode) :
    ∃ m, m0.UnmarshalBinary (t :: rest) = .ok m := by
  obtain ⟨a0, a1, h⟩ := exists_of_len_2 (t :: rest) hl
  cases h
  subst ht
  exact ⟨_, MessageErrorCode_UnmarshalBinary_eval m0 a1⟩

/-- A payload of 2 bytes that starts with the tag is accepted by
`MessageSpeed.UnmarshalBinary`: every index it reads is in range. -/
theorem MessageSpeed_UnmarshalBinary_accepts (m0 : MessageSpeed) (t : Byte)
    (rest : List Byte) (hl : len (t :: rest) = 2) (ht : t = MessageTypeSpeed) :
    ∃ m, m0.UnmarshalBinary (t :: rest) = .ok m := by
  obtain ⟨a0, a1, h⟩ := exists_of_len_2 (t :: rest) hl
  cases h
  subst ht
  exact ⟨_, MessageSpeed_UnmarshalBinary_eval m0 a1⟩

/-- A payload of 2 bytes that starts with the tag is accepted by
`MessageIncline.UnmarshalBinary`: every index it reads is in range. -/
theorem MessageIncline_UnmarshalBinary_accepts (m0 : MessageIncline) (t : Byte)
    (rest : List Byte) (hl : len (t :: rest) = 2) (ht : t = MessageTypeIncline) :
    ∃ m, m0.UnmarshalBinary (t :: rest) = .ok m := by
  obtain ⟨a0, a1, h⟩ := exists_of_len_2 (t :: rest) hl
  cases h
  subst ht
  exact ⟨_, MessageIncline_UnmarshalBinary_eval m0 a1⟩

/-- A payload of 2 bytes that starts with the tag is accepted by
`MessageLevel.UnmarshalBinary`: every index it reads is in range. -/
theorem MessageLevel_UnmarshalBinary_accepts (m0 : MessageLevel) (t : Byte)
    (rest : List Byte) (hl : len (t :: rest) = 2) (ht : t = MessageTypeLevel) :
    ∃ m, m0.UnmarshalBinary (t :: rest) = .ok m := by
  obtain ⟨a0, a1, h⟩ := exists_of_len_2 (t :: rest) hl
  cases h
  subst ht
  exact ⟨_, MessageLevel_UnmarshalBinary_eval m0 a1⟩

/-- A payload of 2 bytes that starts with the tag is accepted by
`MessageRPM.UnmarshalBinary`: every index it reads is in range. -/
theorem MessageRPM_UnmarshalBinary_accepts (m0 : MessageRPM) (t : Byte)
    (rest : List Byte) (hl : len (t :: rest) = 2) (ht : t = MessageTypeRPM) :
    ∃ m, m0.UnmarshalBinary (t :: rest) = .ok m := by
  obtain ⟨a0, a1, h⟩ := exists_of_len_2 (t :: rest) hl
  cases h
  subst ht
  exact ⟨_, MessageRPM_UnmarshalBinary_eval m0 a1⟩

/-- A payload of 2 bytes that starts with the tag is accepted by
`MessageHeartRate.UnmarshalBinary`: every index it reads is in range. -/
theorem MessageHeartRate_UnmarshalBinary_accepts (m0 : MessageHeartRate) (t : Byte)
    (rest : List Byte) (hl : len (t :: rest) = 2) (ht : t = MessageTypeHeartRate) :
    ∃ m, m0.UnmarshalBinary (t :: rest) = .ok m := by
  obtain ⟨a0, a1, h⟩ := exists_of_len_2 (t :: rest) hl
  cases h
  subst ht
  exact ⟨_, MessageHeartRate_UnmarshalBinary_eval m0 a1⟩

/-- A payload of 2 bytes that starts with the tag is accepted by
`MessageTargetHeartRate.UnmarshalBinary`: every index it reads is in range. -/
theorem MessageTargetHeartRate_UnmarshalBinary_accepts (m0 : MessageTargetHeartRate) (t : Byte)
    (rest : List Byte) (hl : len (t :: rest) = 2) (ht : t = MessageTypeTargetHeartRate) :
    ∃ m, m0.UnmarshalBinary (t :: rest) = .ok m := by
  obtain ⟨a0, a1, h⟩ := exists_of_len_2 (t :: rest) hl
  cases h
  subst ht
  exact ⟨_, MessageTargetHeartRate_UnmarshalBinary_eval m0 a1⟩

/-- A payload of 2 bytes that starts with the tag is accepted by
`MessageMaxSpeed.UnmarshalBinary`: every index it reads is in range. -/
theorem MessageMaxSpeed_UnmarshalBinary_accepts (m0 : MessageMaxSpeed) (t : Byte)
    (rest : List Byte) (hl : len (t :: rest) = 2) (ht : t = MessageTypeMaxSpeed) :
    ∃ m, m0.UnmarshalBinary (t :: rest) = .ok m := by
  obtain ⟨a0, a1, h⟩ := exists_of_len_2 (t :: rest) hl
  cases h
  subst ht
  exact ⟨_, MessageMaxSpeed_UnmarshalBinary_eval m0 a1⟩

/-- A payload of 2 bytes that starts with the tag is accepted by
`MessageMaxLevel.UnmarshalBinary`: every index it reads is in range. -/
theorem MessageMaxLevel_UnmarshalBinary_accepts (m0 : MessageMaxLevel) (t : Byte)
    (rest : List Byte) (hl : len (t :: rest) = 2) (ht : t = MessageTypeMaxLevel) :
    ∃ m, m0.UnmarshalBinary (t :: rest) = .ok m := by
  obtain ⟨a0, a1, h⟩ := exists_of_len_2 (t :: rest) hl
  cases h
  subst ht
  exact ⟨_, MessageMaxLevel_UnmarshalBinary_eval m0 a1⟩

/-- A payload of 2 bytes that starts with the tag is accepted by
`MessageUserIncline.UnmarshalBinary`: every index it reads is in range. -/
theorem MessageUserIncline_UnmarshalBinary_accepts (m0 : MessageUserIncline) (t : Byte)
    (rest : List Byte) (hl : len (t :: rest) = 2) (ht : t = MessageTypeUserIncline) :
    ∃ m, m0.UnmarshalBinary (t :: rest) = .ok m := by
  obtain ⟨a0, a1, h⟩ := exists_of_len_2 (t :: rest) hl
  cases h
  subst ht
  exact ⟨_, MessageUserIncline_UnmarshalBinary_eval m0 a1⟩

/-- A payload of 2 bytes that starts with the tag is accepted by
`MessageUserLevel.UnmarshalBinary`: every index it reads is in range. -/
theorem MessageUserLevel_UnmarshalBinary_accepts (m0 : MessageUserLevel) (t : Byte)
    (rest : List Byte) (hl : len (t :: rest) = 2) (ht : t = MessageTypeUserLevel) :
    ∃ m, m0.UnmarshalBinary (t :: rest) = .ok m := by
  obtain ⟨a0, a1, h⟩ := exists_of_len_2 (t :: rest) hl
  cases h
  subst ht
  exact ⟨_, MessageUserLevel_UnmarshalBinary_eval m0 a1⟩

/-- A payload of 10 bytes that starts with the tag is accepted by
`MessageEndWorkout.UnmarshalBinary`: every index it reads is in range. -/
theorem MessageEndWorkout_UnmarshalBinary_accepts (m0 : MessageEndWorkout) (t : Byte)
    (rest : List Byte) (hl : len (t :: rest) = 10) (ht : t = MessageTypeEndWorkout) :
    ∃ m, m0.UnmarshalBinary (t :: rest) = .ok m := by
  obtain ⟨a0, a1, a2, a3, a4, a5, a6, a7, a8, a9, h⟩ := exists_of_len_10 (t :: rest) hl
  cases h
  subst ht
  exact ⟨_, MessageEndWorkout_UnmarshalBinary_eval m0 a1 a2 a3 a4 a5 a6 a7 a8 a9⟩

/-- A payload of 19 bytes that starts with the tag is accepted by
`MessageProgramGraphics.UnmarshalBinary`: every index it reads is in range. -/
theorem MessageProgramGraphics_UnmarshalBinary_accepts (m0 : MessageProgramGraphics) (t : Byte)
    (rest : List Byte) (hl : len (t :: rest) = 19) (ht : t = MessageTypeProgramGraphics) :
    ∃ m, m0.UnmarshalBinary (t :: rest) = .ok m := by
  obtain ⟨a0, a1, a2, a3, a4, a5, a6, a7, a8, a9, a10, a11, a12, a13, a14, a15, a16, a17, a18, h⟩ := exists_of_len_19 (t :: rest) hl
  cases h
  subst ht
  exact ⟨_, MessageProgramGraphics_UnmarshalBinary_eval m0 a1 a2 a3 a4 a5 a6 a7 a8 a9 a10 a11 a12 a13 a14 a15 a16 a17 a18⟩

/-- A payload of 2 bytes that starts with the tag is accepted by
`MessageCommand.UnmarshalBinary`: every index it reads is in range. -/
theorem MessageCommand_UnmarshalBinary_accepts (m0 : MessageCommand) (t : Byte)
    (rest : List Byte) (hl : len (t :: rest) = 2) (ht : t = MessageTypeCommand) :
    ∃ m, m0.UnmarshalBinary (t :: rest) = .ok m := by
  obtain ⟨a0, a1, h⟩ := exists_of_len_2 (t :: rest) hl
  cases h
  subst ht
  exact ⟨_, MessageCommand_UnmarshalBinary_eval m0 a1⟩

/-- A payload of 3 bytes that starts with the tag is accepted by
`MessageProgram.UnmarshalBinary`: every index it reads is in range. -/
theorem MessageProgram_UnmarshalBinary_accepts (m0 : MessageProgram) (t : Byte)
    (rest : List Byte) (hl : len (t :: rest) = 3) (ht : t = MessageTypeProgram) :
    ∃ m, m0.UnmarshalBinary (t :: rest) = .ok m := by
  obtain ⟨a0, a1, a2, h⟩ := exists_of_len_3 (t :: rest) hl
  cases h
  subst ht
  exact ⟨_, MessageProgram_UnmarshalBinary_eval m0 a1 a2⟩

/-- What `MessageACK.UnmarshalBinary` does with a payload of 4 bytes that starts
with the tag: the trailer test and nothing else decides. -/
theorem MessageACK_UnmarshalBinary_len4 (m0 : MessageACK) (a1 a2 a3 : Byte) :
    m0.UnmarshalBinary [MessageTypeACK, a1, a2, a3] =
      if a2 ≠ 0x4f ∧ a3 ≠ 0x4b then .error (.err (.ackTrailer [a2, a3])) else .ok ⟨a1⟩ := by
  by_cases h2 : a2 = 0x4f
  · subst h2
    simp only [ne_eq, not_true_eq_false, false_and, if_false]
    with_unfolding_all rfl
  · by_cases h3 : a3 = 0x4b
    · subst h3
      simp only [ne_eq, not_true_eq_false, and_false, if_false]
      simp only [MessageACK.UnmarshalBinary, MessageACK.ExpectedLength, MessageACK.MessageType,
        messageSanityCheck_cons _ _ _ _ (show len [MessageTypeACK, a1, a2, 0x4b] = 4 from rfl),
        bind, Except.bind, idx, pure, Except.pure]
      simp [h2]
    · simp only [ne_eq, h2, h3, not_false_eq_true, and_self, if_true]
      simp only [MessageACK.UnmarshalBinary, MessageACK.ExpectedLength, MessageACK.MessageType,
        messageSanityCheck_cons _ _ _ _ (show len [MessageTypeACK, a1, a2, a3] = 4 from rfl),
        bind, Except.bind, idx, slice, pure, Except.pure]
      simp [h2, h3, len]

/-- Unmarshalling keeps the variant of the receiver. -/
theorem Message.UnmarshalBinary_variant (m0 m : Message) (data : List Byte)
    (h : m0.UnmarshalBinary data = .ok m) :
    m.MessageType = m0.MessageType ∧ m.ExpectedLength = m0.ExpectedLength := by
  cases m0 <;>
  · simp only [Message.UnmarshalBinary, bind, Except.bind, pure, Except.pure] at h
    split at h
    · cases h
    · cases h
      exact ⟨rfl, rfl⟩

/-- What `UnmarshalBinary` of any variant returns for any payload: a message,
or an error that wraps `ErrInvalidMessage`, or, for an ACK payload whose trailer
is refused, the error that wraps `ErrInvalidReadPayload`. It never panics. -/
theorem Message.UnmarshalBinary_result (m0 : Message) (data : List Byte) :
    (∃ m, m0.UnmarshalBinary data = .ok m) ∨
    (∃ e, m0.UnmarshalBinary data = .error (.err e) ∧ e.Is .ErrInvalidMessage = true) ∨
    (∃ t a b, data = [MessageTypeACK, t, a, b] ∧ (a ≠ 0x4f ∨ b ≠ 0x4b) ∧
      m0.UnmarshalBinary data = .error (.err (.ackTrailer [a, b]))) := by
  by_cases hl : len data = m0.ExpectedLength
  · have hb := Message.ExpectedLength_bounds m0
    cases data with
    | nil => simp [len] at hl; omega
    | cons t rest =>
      by_cases ht : t = m0.MessageType
      · cases m0 with
        | ACK m =>
          obtain ⟨a0, a1, a2, a3, h⟩ := exists_of_len_4 (t :: rest) hl
          cases h
          have ht2 : t = MessageTypeACK := ht
          subst ht2
          by_cases hr : a2 ≠ 0x4f ∧ a3 ≠ 0x4b
          · refine Or.inr (Or.inr ⟨a1, a2, a3, rfl, Or.inl hr.1, ?_⟩)
            simp only [Message.UnmarshalBinary, MessageACK_UnmarshalBinary_len4, if_pos hr, bind,
              Except.bind]
          · refine Or.inl ⟨.ACK ⟨a1⟩, ?_⟩
            simp only [Message.UnmarshalBinary, MessageACK_UnmarshalBinary_len4, if_neg hr, bind,
              Except.bind, pure, Except.pure]
        | DeviceInfo m =>
          obtain ⟨r, hr⟩ := MessageDeviceInfo_UnmarshalBinary_accepts m t rest hl ht
          exact Or.inl ⟨_, by simp only [Message.UnmarshalBinary, hr, bind, Except.bind]; rfl⟩
        | WorkoutMode m =>
          obtain ⟨r, hr⟩ := MessageWorkoutMode_UnmarshalBinary_accepts m t rest hl ht
          exact Or.inl ⟨_, by simp only [Message.UnmarshalBinary, hr, bind, Except.bind]; rfl⟩
        | SetWorkoutMode m =>
          obtain ⟨r, hr⟩ := MessageSetWorkoutMode_UnmarshalBinary_accepts m t rest hl ht
          exact Or.inl ⟨_, by simp only [Message.UnmarshalBinary, hr, bind, Except.bind]; rfl⟩
        | HeartRateType m =>
          obtain ⟨r, hr⟩ := MessageHeartRateType_UnmarshalBinary_accepts m t rest hl ht
          exact Or.inl ⟨_, by simp only [Message.UnmarshalBinary, hr, bind, Except.bind]; rfl⟩
        | WorkoutData m =>
          obtain ⟨r, hr⟩ := MessageWorkoutData_UnmarshalBinary_accepts m t rest hl ht
          exact Or.inl ⟨_, by simp only [Message.UnmarshalBinary, hr, bind, Except.bind]; rfl⟩
        | UserProfile m =>
          obtain ⟨r, hr⟩ := MessageUserProfile_UnmarshalBinary_accepts m t rest hl ht
          exact Or.inl ⟨_, by simp only [Message.UnmarshalBinary, hr, bind, Except.bind]; rfl⟩
        | WorkoutTarget m =>
          obtain ⟨r, hr⟩ := MessageWorkoutTarget_UnmarshalBinary_accepts m t rest hl ht
          exact Or.inl ⟨_, by simp only [Message.UnmarshalBinary, hr, bind, Except.bind]; rfl⟩
        | MaxIncline m =>
          obtain ⟨r, hr⟩ := MessageMaxIncline_UnmarshalBinary_accepts m t rest hl ht
          exact Or.inl ⟨_, by simp only [Message.UnmarshalBinary, hr, bind, Except.bind]; rfl⟩
        | ErrorCode m =>
          obtain ⟨r, hr⟩ := MessageErrorCode_UnmarshalBinary_accepts m t rest hl ht
          exact Or.inl ⟨_, by simp only [Message.UnmarshalBinary, hr, bind, Except.bind]; rfl⟩
        | Speed m =>
          obtain ⟨r, hr⟩ := MessageSpeed_UnmarshalBinary_accepts m t rest hl ht
          exact Or.inl ⟨_, by simp only [Message.UnmarshalBinary, hr, bind, Except.bind]; rfl⟩
        | Incline m =>
          obtain ⟨r, hr⟩ := MessageIncline_UnmarshalBinary_accepts m t rest hl ht
          exact Or.inl ⟨_, by simp only [Message.UnmarshalBinary, hr, bind, Except.bind]; rfl⟩
        | Level m =>
          obtain ⟨r, hr⟩ := MessageLevel_UnmarshalBinary_accepts m t rest hl ht
          exact Or.inl ⟨_, by simp only [Message.UnmarshalBinary, hr, bind, Except.bind]; rfl⟩
        | RPM m =>
          obtain ⟨r, hr⟩ := MessageRPM_UnmarshalBinary_accepts m t rest hl ht
          exact Or.inl ⟨_, by simp only [Message.UnmarshalBinary, hr, bind, Except.bind]; rfl⟩
        | HeartRate m =>
          obtain ⟨r, hr⟩ := MessageHeartRate_UnmarshalBinary_accepts m t rest hl ht
          exact Or.inl ⟨_, by simp only [Message.UnmarshalBinary, hr, bind, Except.bind]; rfl⟩
        | TargetHeartRate m =>
          obtain ⟨r, hr⟩ := MessageTargetHeartRate_UnmarshalBinary_accepts m t rest hl ht
          exact Or.inl ⟨_, by simp only [Message.UnmarshalBinary, hr, bind, Except.bind]; rfl⟩
        | MaxSpeed m =>
          obtain ⟨r, hr⟩ := MessageMaxSpeed_UnmarshalBinary_accepts m t rest hl ht
          exact Or.inl ⟨_, by simp only [Message.UnmarshalBinary, hr, bind, Except.bind]; rfl⟩
        | MaxLevel m =>
          obtain ⟨r, hr⟩ := MessageMaxLevel_UnmarshalBinary_accepts m t rest hl ht
          exact Or.inl ⟨_, by simp only [Message.UnmarshalBinary, hr, bind, Except.bind]; rfl⟩
        | UserIncline m =>
          obtain ⟨r, hr⟩ := MessageUserIncline_UnmarshalBinary_accepts m t rest hl ht
          exact Or.inl ⟨_, by simp only [Message.UnmarshalBinary, hr, bind, Except.bind]; rfl⟩
        | UserLevel m =>
          obtain ⟨r, hr⟩ := MessageUserLevel_UnmarshalBinary_accepts m t rest hl ht
          exact Or.inl ⟨_, by simp only [Message.UnmarshalBinary, hr, bind, Except.bind]; rfl⟩
        | EndWorkout m =>
          obtain ⟨r, hr⟩ := MessageEndWorkout_UnmarshalBinary_accepts m t rest hl ht
          exact Or.inl ⟨_, by simp only [Message.UnmarshalBinary, hr, bind, Except.bind]; rfl⟩
        | ProgramGraphics m =>
          obtain ⟨r, hr⟩ := MessageProgramGraphics_UnmarshalBinary_accepts m t rest hl ht
          exact Or.inl ⟨_, by simp only [Message.UnmarshalBinary, hr, bind, Except.bind]; rfl⟩
        | Command m =>
          obtain ⟨r, hr⟩ := MessageCommand_UnmarshalBinary_accepts m t rest hl ht
          exact Or.inl ⟨_, by simp only [Message.UnmarshalBinary, hr, bind, Except.bind]; rfl⟩
        | Program m =>
          obtain ⟨r, hr⟩ := MessageProgram_UnmarshalBinary_accepts m t rest hl ht
          exact Or.inl ⟨_, by simp only [Message.UnmarshalBinary, hr, bind, Except.bind]; rfl⟩
      · exact Or.inr (Or.inl ⟨_, Message.UnmarshalBinary_wrongCommand m0 t rest hl ht, rfl⟩)
  · exact Or.inr (Or.inl ⟨_, Message.UnmarshalBinary_wrongLength m0 data hl, rfl⟩)

/-- What `ParseMessage` returns for any byte string: a message, or an error that
wraps `ErrInvalidMessage`, or, for an ACK frame whose trailer is refused, the
error that wraps `ErrInvalidReadPayload`. It never panics. -/
theorem ParseMessage_result (data : List Byte) :
    (∃ m, ParseMessage data = .ok m) ∨
    (∃ e, ParseMessage data = .error (.err e) ∧ e.Is .ErrInvalidMessage = true) ∨
    (∃ t a b, data = [0x5B, 0x04, 0x00, t, a, b, 0x5D] ∧ (a ≠ 0x4F ∨ b ≠ 0x4B) ∧
      ParseMessage data = .error (.err (.ackTrailer [a, b]))) := by
  rcases sanityCheckRecv_ok_or_invalid data with hs | ⟨e, he, hi⟩
  · obtain ⟨hlen, h0, hlast, h1⟩ := (sanityCheckRecv_ok_iff data).mp hs
    obtain ⟨a, b, t, rest, z, rfl⟩ := frame_decomp data hlen
    rw [ParseMessage_frame, hs]
    simp only
    cases hc : MessageType.Create t with
    | none => exact Or.inr (Or.inl ⟨_, rfl, rfl⟩)
    | some m0 =>
      simp only
      rcases Message.UnmarshalBinary_result m0 (t :: rest) with h | h | ⟨t1, a1, b1, hd, hne, hr⟩
      · exact Or.inl h
      · exact Or.inr (Or.inl h)
      · refine Or.inr (Or.inr ⟨t1, a1, b1, ?_, hne, hr⟩)
        simp only [List.cons.injEq] at hd
        obtain ⟨ht, hrest⟩ := hd
        subst ht hrest
        simp only [List.getElem?_cons_zero, Option.some.injEq, List.getElem?_cons_succ] at h0 h1
        have hz : z = 0x5D := by
          simpa using hlast
        subst h0 hz
        rw [h1]
        rfl
  · refine Or.inr (Or.inl ⟨e, ?_, hi⟩)
    unfold ParseMessage
    rw [he]
    rfl

/-- Claim C33. `ParseMessage` is total: for every byte string it returns a
message or an error, and it never panics, so no index or slice expression that
it or the `UnmarshalBinary` it calls evaluates is out of range. The empty
string and the strings of one, two and three bytes are refused with the error
of `sanityCheckRecv` for a short input. -/
theorem ParseMessage_total (data : List Byte) :
    ((∃ m, ParseMessage data = .ok m) ∨ (∃ e, ParseMessage data = .error (.err e))) ∧
    ParseMessage data ≠ .error Fault.panic ∧
    ParseMessage [] = .error (.err (.recvTooShort 0 [])) ∧
    (∀ a : Byte, ParseMessage [a] = .error (.err (.recvTooShort 1 [a]))) ∧
    (∀ a b : Byte, ParseMessage [a, b] = .error (.err (.recvTooShort 2 [a, b]))) ∧
    (∀ a b c : Byte, ParseMessage [a, b, c] = .error (.err (.recvTooShort 3 [a, b, c]))) := by
  refine ⟨?_, ?_, by decide, fun _ => by with_unfolding_all rfl,
    fun _ _ => by with_unfolding_all rfl, fun _ _ _ => by with_unfolding_all rfl⟩
  · rcases ParseMessage_result data with h | ⟨e, h, -⟩ | ⟨t, a, b, -, -, h⟩
    · exact Or.inl h
    · exact Or.inr ⟨e, h⟩
    · exact Or.inr ⟨_, h⟩
  · rcases ParseMessage_result data with ⟨m, h⟩ | ⟨e, h, -⟩ | ⟨t, a, b, -, -, h⟩ <;>
    · rw [h]
      intro hp
      cases hp

/-- Claim C34. Whenever `ParseMessage(data)` succeeds with message `m`, the tag of
`m` is the byte `data[2]`, the length of `data` is `m.ExpectedLength() + 3`, which
lies between 5 and 22, and `data[1]` is `m.ExpectedLength()`. -/
theorem ParseMessage_ok_invariants (data : List Byte) (m : Message)
    (h : ParseMessage data = .ok m) :
    data[2]? = some m.MessageType ∧
    len data = m.ExpectedLength + 3 ∧
    5 ≤ len data ∧ len data ≤ 22 ∧
    data[1]?.map (fun b => (b.val : Int)) = some m.ExpectedLength := by
  rcases sanityCheckRecv_ok_or_invalid data with hs | ⟨e, he, -⟩
  · obtain ⟨hlen, -, -, h1⟩ := (sanityCheckRecv_ok_iff data).mp hs
    obtain ⟨a, b, t, rest, z, rfl⟩ := frame_decomp data hlen
    rw [ParseMessage_frame, hs] at h
    simp only at h
    cases hc : MessageType.Create t with
    | none => rw [hc] at h; cases h
    | some m0 =>
      rw [hc] at h
      simp only at h
      obtain ⟨hl, ht⟩ := Message.UnmarshalBinary_ok_inv m0 m (t :: rest) h
      obtain ⟨hmt, hme⟩ := Message.UnmarshalBinary_variant m0 m (t :: rest) h
      have hb := Message.ExpectedLength_bounds m0
      have hlf := len_frame a b t z rest
      simp only [List.getElem?_cons_zero, Option.some.injEq] at ht
      simp only [List.getElem?_cons_succ, List.getElem?_cons_zero, Option.some.injEq] at h1
      refine ⟨?_, ?_, ?_, ?_, ?_⟩
      · simp only [List.getElem?_cons_succ, List.getElem?_cons_zero, hmt, ht]
      · rw [hlf, hl, hme]
      · rw [hlf, hl]; omega
      · rw [hlf, hl]; omega
      · simp only [List.getElem?_cons_succ, List.getElem?_cons_zero, Option.map_some',
          Option.some.injEq]
        rw [h1, hlf, hme, ← hl]
        have : len (t :: rest) + 3 - 3 = len (t :: rest) := by omega
        rw [this]
        exact byte_val_of_le _ (by omega) (by omega)
  · unfold ParseMessage at h
    rw [he] at h
    cases h

/-- The witness of claim C34: the `WorkoutMode` frame of the tests. -/
theorem ParseMessage_ok_invariants_witness :
    ([0x5B, 0x02, 0x03, 0x01, 0x5D] : List Byte)[2]? =
      some (Message.WorkoutMode ⟨1⟩).MessageType ∧
    len [0x5B, 0x02, 0x03, 0x01, 0x5D] = (Message.WorkoutMode ⟨1⟩).ExpectedLength + 3 ∧
    5 ≤ len [0x5B, 0x02, 0x03, 0x01, 0x5D] ∧ len [0x5B, 0x02, 0x03, 0x01, 0x5D] ≤ 22 ∧
    ([0x5B, 0x02, 0x03, 0x01, 0x5D] : List Byte)[1]?.map (fun b => (b.val : Int)) =
      some (Message.WorkoutMode ⟨1⟩).ExpectedLength :=
  ParseMessage_ok_invariants [0x5B, 0x02, 0x03, 0x01, 0x5D] (Message.WorkoutMode ⟨1⟩)
    (by decide)

/-- Claim C35 is false as stated: the ACK frame `5B 04 00 06 00 00 5D` is refused
with an error that does not wrap `ErrInvalidMessage`; it wraps
`ErrInvalidReadPayload`. -/
theorem ParseMessage_ACK_trailer_error_sentinel :
    ParseMessage [0x5B, 0x04, 0x00, 0x06, 0x00, 0x00, 0x5D] =
      .error (.err (.ackTrailer [0x00, 0x00])) ∧
    (Error.ackTrailer [0x00, 0x00]).Is .ErrInvalidMessage = false ∧
    (Error.ackTrailer [0x00, 0x00]).Is .ErrInvalidReadPayload = true := by
  decide

/-- Claim C35, amended. Every error that `ParseMessage` returns wraps
`ErrInvalidMessage`, except the error with which `MessageACK.UnmarshalBinary`
refuses the trailer of a seven-byte ACK frame, which wraps
`ErrInvalidReadPayload`. -/
theorem ParseMessage_error_wraps (data : List Byte) (e : Error)
    (h : ParseMessage data = .error (.err e)) :
    e.Is .ErrInvalidMessage = true ∨
    (e.Is .ErrInvalidReadPayload = true ∧
      ∃ t a b, data = [0x5B, 0x04, 0x00, t, a, b, 0x5D] ∧ (a ≠ 0x4F ∨ b ≠ 0x4B)) := by
  rcases ParseMessage_result data with ⟨m, hm⟩ | ⟨e1, he1, hi⟩ | ⟨t, a, b, hd, hne, hr⟩
  · rw [hm] at h; cases h
  · rw [he1] at h
    cases h
    exact Or.inl hi
  · rw [hr] at h
    cases h
    exact Or.inr ⟨rfl, t, a, b, hd, hne⟩

/-- The witness of claim C35: a frame that is too short, whose error wraps
`ErrInvalidMessage`. -/
theorem ParseMessage_error_wraps_witness :
    (Error.recvTooShort 2 [0x5B, 0x5D]).Is .ErrInvalidMessage = true ∨
    ((Error.recvTooShort 2 [0x5B, 0x5D]).Is .ErrInvalidReadPayload = true ∧
      ∃ t a b, ([0x5B, 0x5D] : List Byte) = [0x5B, 0x04, 0x00, t, a, b, 0x5D] ∧
        (a ≠ 0x4F ∨ b ≠ 0x4B)) :=
  ParseMessage_error_wraps [0x5B, 0x5D] (Error.recvTooShort 2 [0x5B, 0x5D]) (by decide)

end Treadonme
